import Mathlib

/-!
# ProWebRemote API adapter: OpenAPI-to-Classic translation engine

Shallow embedding of `ProWebRemote/js/api-adapter.js`.

Conventions of the embedding.

* Values that arrive from the backend (parsed JSON bodies, streamed payloads) are
  `JSValue`s.  JSON numbers are modelled as integers: `num n` is the Number value of
  the integer `n`.  The conversions between numbers and strings (`ToString`,
  `StringToNumber`, `parseInt`) follow the language on doubles: they round to the
  nearest double and print the shortest digits, in exponent form from `10 ^ 21` on.
  An object converts to the string `[object Object]`; an object that holds `toString`
  among its own properties, whose conversion raises a TypeError, is outside the
  embedding.
* A Legacy Command is the typed record `Command`: identity and path fields are
  optional strings (`none` = the field is absent), every other field is a `JSValue`
  (`JSValue.undefined` = the field is absent).
* Module-level variables of the adapter are the fields of `BridgeState`.  The two
  observable effects, HTTP requests issued with `fetch` and messages handed to the
  consumer callback, are recorded in the state (`requests`, `delivered`).
  Console output is not modelled.
* A thrown JavaScript exception is an `Except.error`.
-/

namespace ProWebRemote

/-! ## JavaScript values -/

/-- A JavaScript value as produced by `JSON.parse`, plus `undefined`. -/
inductive JSValue where
  | undefined : JSValue
  | null : JSValue
  | bool (b : Bool) : JSValue
  | num (n : Int) : JSValue
  | str (s : String) : JSValue
  | arr (items : List JSValue) : JSValue
  | obj (fields : List (String × JSValue)) : JSValue
  deriving Inhabited

/-- A thrown JavaScript exception. -/
inductive JSError where
  | typeError (msg : String) : JSError
  | error (msg : String) : JSError
  deriving DecidableEq, Repr

namespace JSValue

/-- ToBoolean. -/
def truthy : JSValue → Bool
  | undefined => false
  | null => false
  | bool b => b
  | num n => n != 0
  | str s => s != ""
  | arr _ => true
  | obj _ => true

/-- The operator `a || b`. -/
def orElse (a b : JSValue) : JSValue := if a.truthy then a else b

/-! ### Number values

A `num n` stands for the Number value of the integer `n`.  A Number is a double: the
definitions below round to the nearest double, ties to even, with exact integer
arithmetic. -/

/-- Position of the leading binary digit of `n` (0 for `n < 2`); `fuel` bounds the
recursion and is given as `n` itself. -/
def log2Floor : Nat → Nat → Nat
  | 0, _ => 0
  | fuel + 1, n => if n < 2 then 0 else log2Floor fuel (n / 2) + 1

/-- The double nearest to the fraction `p / q` (with `0 < q`), ties to even, as the pair
`(m, e)` standing for `m * 2 ^ e / 2 ^ 1074`: `m` is the significand (below `2 ^ 53`,
or `2 ^ 53` after a carry) and `2 ^ e / 2 ^ 1074` the unit in the last place, with
`e = 0` for the subnormal numbers and the first binade of the normal ones. -/
def roundDouble (p q : Nat) : Nat × Nat :=
  let e0 := log2Floor p p + 1022 - log2Floor q q
  let e := if p <<< 1022 < q <<< e0 then e0 - 1 else e0
  let a := p <<< 1074
  let b := q <<< e
  let m := a / b
  let r := a % b
  (if b < 2 * r ∨ (b = 2 * r ∧ m % 2 = 1) then m + 1 else m, e)

/-- The Number value of the fraction `p / q` when that Number is an integer; `none` when
it is not an integer or is Infinity (from `2 ^ 1024` on). -/
def doubleInteger (p q : Nat) : Option Nat :=
  match roundDouble p q with
  | (m, e) =>
    let v := m <<< e
    if v % (1 <<< 1074) = 0 ∧ v < 1 <<< 2098 then some (v >>> 1074) else none

/-- The decimal digits `s` (there are `k` of them) and the exponent `n` of
Number::toString: the number printed is `s * 10 ^ (n - k)`. -/
structure Digits where
  s : Nat
  n : Nat
  k : Nat

/-- The value `s * 10 ^ (n - k)` the digits denote. -/
def Digits.value (c : Digits) : Nat := c.s * 10 ^ (c.n - c.k)

/-- The digit strings of length `k` whose value is the Number `x` after rounding, for a
Number `x` of `d` decimal digits: the two neighbours of `x` at that precision, with
exponent `d` or `d + 1`. -/
def digitCandidates (x d k : Nat) : List Digits :=
  ([d, d + 1].flatMap
      (fun n => [⟨x / 10 ^ (n - k), n, k⟩, ⟨x / 10 ^ (n - k) + 1, n, k⟩])).filter
    (fun c => 10 ^ (k - 1) ≤ c.s && c.s < 10 ^ k && doubleInteger c.value 1 == some x)

/-- Whether `a` is to be preferred to `b`: nearer to `x`, or as near with an even `s`. -/
def nearer (x : Nat) (a b : Digits) : Bool :=
  let da := (a.value - x) + (x - a.value)
  let db := (b.value - x) + (x - b.value)
  da < db || (da == db && a.s % 2 == 0)

/-- The preferred candidate of a list. -/
def closest (x : Nat) : List Digits → Option Digits
  | [] => none
  | c :: cs =>
    match closest x cs with
    | none => some c
    | some b => if nearer x c b then some c else some b

/-- The digits of Number::toString for an integer Number `x` from `2 ^ 53` on: the
fewest digits (17 always suffice) that round back to `x`. -/
def shortestDigits (x : Nat) : Digits :=
  let d := (Nat.toDigits 10 x).length
  match (List.range 17).findSome? (fun i => closest x (digitCandidates x d (i + 1))) with
  | some c => c
  | none => ⟨x, d, d⟩

/-- The exponent form of Number::toString, used from `10 ^ 21` on: `1e+21`,
`1.1805916207174113e+21`. -/
def exponentForm (c : Digits) : String :=
  match Nat.toDigits 10 c.s with
  | [] => ""
  | [a] => String.mk [a] ++ "e+" ++ toString (c.n - 1)
  | a :: rest => String.mk (a :: '.' :: rest) ++ "e+" ++ toString (c.n - 1)

/-- Number::toString on an integer.  Below `2 ^ 53` every integer is a Number and is
printed with all its digits; from there on the Number nearest to `n` is printed with the
fewest digits that identify it, in decimal form below `10 ^ 21` and in exponent form
from `10 ^ 21` on. -/
def numberToString (n : Int) : String :=
  if n.natAbs < 9007199254740992 then toString n
  else
    let sign := if n < 0 then "-" else ""
    match doubleInteger n.natAbs 1 with
    | none => sign ++ "Infinity"
    | some x =>
      if x < 1000000000000000000000 then sign ++ toString (shortestDigits x).value
      else sign ++ exponentForm (shortestDigits x)

mutual
/-- ToString (string concatenation with `+`). -/
def toStr : JSValue → String
  | undefined => "undefined"
  | null => "null"
  | bool b => if b then "true" else "false"
  | num n => numberToString n
  | str s => s
  | arr items => joinStr items
  | obj _ => "[object Object]"
/-- The method `Array.prototype.join` with separator comma, used by ToString of an array. -/
def joinStr : List JSValue → String
  | [] => ""
  | [x] => elemStr x
  | x :: y :: rest => elemStr x ++ "," ++ joinStr (y :: rest)
/-- One element inside `join`: `null` and `undefined` give the empty string. -/
def elemStr : JSValue → String
  | undefined => ""
  | null => ""
  | bool b => if b then "true" else "false"
  | num n => numberToString n
  | str s => s
  | arr items => joinStr items
  | obj _ => "[object Object]"
end

/-- Look a key up in the own properties of an object. -/
def lookup (key : String) : List (String × JSValue) → JSValue
  | [] => undefined
  | (k, v) :: rest => if k = key then v else lookup key rest

/-- Property read `v.key` for a key that is not a built-in member of a prototype:
raises on `null` and `undefined`; `length` is built in for strings and arrays. -/
def prop (v : JSValue) (key : String) : Except JSError JSValue :=
  match v with
  | undefined => .error (.typeError ("Cannot read properties of undefined (reading " ++ key ++ ")"))
  | null => .error (.typeError ("Cannot read properties of null (reading " ++ key ++ ")"))
  | obj fields => .ok (lookup key fields)
  | str s => .ok (if key = "length" then num s.length else undefined)
  | arr items => .ok (if key = "length" then num items.length else undefined)
  | _ => .ok undefined

/-- Property read on a value already known to be neither `null` nor `undefined`. -/
def get (v : JSValue) (key : String) : JSValue :=
  match v.prop key with
  | .ok r => r
  | .error _ => undefined

/-- Strict equality `===`.  Two arrays or objects obtained from different parses are
different references, hence never strictly equal. -/
def strictEq : JSValue → JSValue → Bool
  | undefined, undefined => true
  | null, null => true
  | bool a, bool b => a == b
  | num a, num b => a == b
  | str a, str b => a == b
  | _, _ => false

/-- Value of a non-empty run of decimal digits. -/
def digitsValue : List Char → Option Nat
  | [] => none
  | c :: cs =>
    (c :: cs).foldl
      (fun acc d => match acc with
        | some n => if d.isDigit then some (n * 10 + (d.toNat - 48)) else none
        | none => none)
      (some 0)

/-- The white space that `trim`, `parseInt` and StringToNumber skip: WhiteSpace and
LineTerminator of the language (tab, line feed, vertical tab, form feed, carriage return,
space, no-break space, the other space separators, line and paragraph separator, byte
order mark). -/
def isSpace (c : Char) : Bool :=
  c.toNat ∈ [9, 10, 11, 12, 13, 32, 160, 5760, 8232, 8233, 8239, 8287, 12288, 65279] ||
    (8192 ≤ c.toNat && c.toNat ≤ 8202)

/-- Value of a hexadecimal digit. -/
def hexDigit (c : Char) : Option Nat :=
  if c.isDigit then some (c.toNat - 48)
  else if 97 ≤ c.toNat ∧ c.toNat ≤ 102 then some (c.toNat - 87)
  else if 65 ≤ c.toNat ∧ c.toNat ≤ 70 then some (c.toNat - 55)
  else none

/-- Value of a non-empty run of digits of the given radix (2, 8 or 16). -/
def radixValue (radix : Nat) : List Char → Option Nat
  | [] => none
  | c :: cs =>
    (c :: cs).foldl
      (fun acc d => match acc, hexDigit d with
        | some n, some v => if v < radix then some (n * radix + v) else none
        | _, _ => none)
      (some 0)

/-- Remove leading and trailing white space. -/
def trimChars (cs : List Char) : List Char :=
  ((cs.dropWhile isSpace).reverse.dropWhile isSpace).reverse

/-- The optional ExponentPart of a decimal literal: `e` or `E`, an optional sign, decimal
digits; the empty text is exponent 0 and `none` is a text that is no ExponentPart. -/
def exponentPart : List Char → Option Int
  | [] => some 0
  | 'e' :: '+' :: ds => (digitsValue ds).map Int.ofNat
  | 'e' :: '-' :: ds => (digitsValue ds).map (fun n => - Int.ofNat n)
  | 'e' :: ds => (digitsValue ds).map Int.ofNat
  | 'E' :: '+' :: ds => (digitsValue ds).map Int.ofNat
  | 'E' :: '-' :: ds => (digitsValue ds).map (fun n => - Int.ofNat n)
  | 'E' :: ds => (digitsValue ds).map Int.ofNat
  | _ => none

/-- Value of a (possibly empty) run of decimal digits. -/
def digitsNat (cs : List Char) : Nat := cs.foldl (fun a c => a * 10 + (c.toNat - 48)) 0

/-- The Number value of `mantissa * 10 ^ exponent` when it is an integer. -/
def scaled (mantissa : Nat) (exponent : Int) : Option Nat :=
  doubleInteger (mantissa * 10 ^ exponent.toNat) (10 ^ (-exponent).toNat)

/-- StrUnsignedDecimalLiteral: digits, an optional fraction (`1.`, `1.5` and `.5` are all
literals, `.` is not), an optional exponent.  The result is the Number value when it is an
integer. -/
def unsignedDecimal (cs : List Char) : Option Nat :=
  let whole := cs.takeWhile Char.isDigit
  match cs.dropWhile Char.isDigit with
  | '.' :: more =>
    let frac := more.takeWhile Char.isDigit
    if whole = [] ∧ frac = [] then none
    else (exponentPart (more.dropWhile Char.isDigit)).bind
      (fun e => scaled (digitsNat (whole ++ frac)) (e - frac.length))
  | rest =>
    if whole = [] then none
    else (exponentPart rest).bind (fun e => scaled (digitsNat whole) e)

/-- StringToNumber, as far as the result is an integer (numbers are integers in this
embedding).  White space is trimmed; the empty string is 0; the text is a decimal literal
with optional sign, fraction and exponent, or an unsigned literal in radix 16, 8 or 2
after `0x`, `0o`, `0b`; the value is rounded to the nearest Number (`1.0`, `1e0`, `0x1`
and `0.99999999999999999` are all 1).  `none` stands for NaN and for every Number that is
not an integer (`1.5`, `Infinity`), which the embedding does not hold. -/
def strToNumber (s : String) : Option Int :=
  match trimChars s.data with
  | [] => some 0
  | '0' :: 'x' :: ds => ((radixValue 16 ds).bind (fun n => doubleInteger n 1)).map Int.ofNat
  | '0' :: 'X' :: ds => ((radixValue 16 ds).bind (fun n => doubleInteger n 1)).map Int.ofNat
  | '0' :: 'o' :: ds => ((radixValue 8 ds).bind (fun n => doubleInteger n 1)).map Int.ofNat
  | '0' :: 'O' :: ds => ((radixValue 8 ds).bind (fun n => doubleInteger n 1)).map Int.ofNat
  | '0' :: 'b' :: ds => ((radixValue 2 ds).bind (fun n => doubleInteger n 1)).map Int.ofNat
  | '0' :: 'B' :: ds => ((radixValue 2 ds).bind (fun n => doubleInteger n 1)).map Int.ofNat
  | '+' :: ds => (unsignedDecimal ds).map Int.ofNat
  | '-' :: ds => (unsignedDecimal ds).map (fun n => - Int.ofNat n)
  | ds => (unsignedDecimal ds).map Int.ofNat

/-- ToNumber; `none` stands for NaN and, on a string, for a Number that is not an
integer. -/
def toNumber : JSValue → Option Int
  | undefined => none
  | null => some 0
  | bool b => some (if b then 1 else 0)
  | num n => some n
  | str s => strToNumber s
  | arr items => strToNumber (joinStr items)
  | obj _ => none

/-- Loose comparison `v == 1`: `null` and `undefined` equal only each other; a boolean, a
string and an array (through its ToString) are compared by their Number value. -/
def looseEqOne : JSValue → Bool
  | undefined => false
  | null => false
  | v => v.toNumber == some 1

/-- Relational comparison `v > 0`. -/
def gtZero (v : JSValue) : Bool :=
  match v.toNumber with
  | some n => decide (0 < n)
  | none => false

/-- Test `v !== undefined`. -/
def isDefined : JSValue → Bool
  | undefined => false
  | _ => true

/-- Assignment `o[key] = v` on the own properties of an object. -/
def setField (key : String) (v : JSValue) : List (String × JSValue) → List (String × JSValue)
  | [] => [(key, v)]
  | (k, w) :: rest => if k = key then (k, v) :: rest else (k, w) :: setField key v rest

/-- An optional string field of a command read as a value. -/
def ofOption : Option String → JSValue
  | some s => str s
  | none => undefined

/-- Values on which a property read raises. -/
def isNullish : JSValue → Bool
  | undefined => true
  | null => true
  | _ => false

/-- Whether a property name is an array index: the canonical decimal form of an integer
from 0 to `2 ^ 32 - 2`. -/
def isArrayIndex (name : String) : Bool :=
  match name.data with
  | [] => false
  | ['0'] => true
  | c :: cs => c != '0' && (c :: cs).all Char.isDigit && decide (digitsNat (c :: cs) ≤ 4294967294)

/-- The own property names of an object as `Object.keys` lists them: the array indices
in ascending numeric order, then the other names in the order of their creation. -/
def keys : JSValue → List String
  | obj fields =>
    ((fields.map Prod.fst).filter isArrayIndex).insertionSort
        (fun a b => digitsNat a.data ≤ digitsNat b.data)
      ++ (fields.map Prod.fst).filter (fun name => !isArrayIndex name)
  | _ => []

/-- Value of the longest leading run of decimal digits; `none` when there is none. -/
def leadingDigits : List Char → Option Nat → Option Nat
  | [], acc => acc
  | c :: cs, acc =>
    if c.isDigit then leadingDigits cs (some (acc.getD 0 * 10 + (c.toNat - 48))) else acc

/-- Value of the longest leading run of hexadecimal digits; `none` when there is none. -/
def leadingHexDigits : List Char → Option Nat → Option Nat
  | [], acc => acc
  | c :: cs, acc =>
    match hexDigit c with
    | some d => leadingHexDigits cs (some (acc.getD 0 * 16 + d))
    | none => acc

/-- The digits of `parseInt` after the sign: radix 16 after `0x`, radix 10 otherwise. -/
def parseDigits : List Char → Option Nat
  | '0' :: 'x' :: cs => leadingHexDigits cs none
  | '0' :: 'X' :: cs => leadingHexDigits cs none
  | cs => leadingDigits cs none

/-- Whether the integer `n` is a Number value: rounding to the nearest double leaves it
as it is.  Every integer of magnitude up to `2 ^ 53` is one. -/
def isNumber (n : Int) : Bool := doubleInteger n.natAbs 1 == some n.natAbs

/-- The call `parseInt(v)` without radix: ToString, white space skipped, an optional
sign, the leading digits, the result rounded to the nearest Number.  `none` stands for
NaN (no digit) and for Infinity (digits from `2 ^ 1024` on). -/
def parseInt (v : JSValue) : Option Int :=
  match v.toStr.data.dropWhile isSpace with
  | '-' :: cs =>
    ((parseDigits cs).bind (fun n => doubleInteger n 1)).map (fun n => - Int.ofNat n)
  | '+' :: cs => ((parseDigits cs).bind (fun n => doubleInteger n 1)).map Int.ofNat
  | cs => ((parseDigits cs).bind (fun n => doubleInteger n 1)).map Int.ofNat

/-- A number that may be NaN, as a field of a message: `JSON.stringify` writes NaN
as `null`. -/
def ofNumber : Option Int → JSValue
  | some n => num n
  | none => null

end JSValue

/-! ## Strings -/

/-- The test `s.indexOf(pre) === 0`. -/
def startsWith (s pre : String) : Bool := pre.data.isPrefixOf s.data

/-- The method `split` with a one-character separator, on character lists. -/
def splitChars (sep : Char) : List Char → List (List Char)
  | [] => [[]]
  | c :: cs =>
    if c = sep then [] :: splitChars sep cs
    else match splitChars sep cs with
      | [] => [[c]]
      | h :: t => (c :: h) :: t

/-- The method `s.split(sep)`. -/
def split (s : String) (sep : Char) : List String :=
  (splitChars sep s.data).map String.mk

/-- The element `parts[parts.length - 1]` of a split. -/
def lastPart (parts : List String) : String := parts.getLastD ""

/-- The operator `a || b` on an optional string field with a string fallback. -/
def orStr (a : Option String) (b : String) : String :=
  match a with
  | some s => if s = "" then b else s
  | none => b

/-- ToBoolean of an optional string field. -/
def strTruthy : Option String → Bool
  | some s => decide (s ≠ "")
  | none => false

/-! ## Data model -/

/-- A Legacy Command `{action, ...fields}` after `JSON.parse`. -/
structure Command where
  action : String
  presentationUUID : Option String := none
  presentationPath : Option String := none
  presentationDestination : JSValue := .undefined
  presentationSlideQuality : JSValue := .undefined
  slideIndex : JSValue := .undefined
  audioChildPath : Option String := none
  clockIndex : JSValue := .undefined
  clockName : JSValue := .undefined
  clockType : JSValue := .undefined
  clockTime : JSValue := .undefined
  clockOverrun : JSValue := .undefined
  clockElapsedTime : JSValue := .undefined
  messageIndex : JSValue := .undefined
  messageKeys : Option (List JSValue) := none
  messageValues : Option (List JSValue) := none
  stageDisplayMessage : JSValue := .undefined
  stageScreenUUID : JSValue := .undefined
  stageLayoutUUID : JSValue := .undefined

/-- The response handlers an endpoint descriptor can refer to. -/
inductive Handler where
  | handleLibraryRequest
  | handlePlaylistRequest
  | handleAudioRequest
  | handleAudioCurrent
  | handleAudioPlaying
  | handleAudioPlayPause
  | handlePresentationRequest
  | handlePresentationCurrent
  | handleSlideIndex
  | handlePresentationTrigger
  | handleClockRequest
  | handleClockCurrentTime
  | handleMessageRequest
  | handleStageDisplaySets
  deriving DecidableEq, Repr

/-- Endpoint descriptor `{method, path, handler, body}`; `path = none` is a null path. -/
structure Endpoint where
  method : String
  path : Option String
  handler : Option Handler
  body : Option JSValue := none

/-- The value of `mapping[action]`: absent key, a key mapped to `null`, a member
inherited from `Object.prototype` (truthy, without a `path`), or a descriptor. -/
inductive MapResult where
  | undefined : MapResult
  | null : MapResult
  | inherited : MapResult
  | descriptor (e : Endpoint) : MapResult

/-- The read `endpoint.path` on a value of `mapping[action]` that is not nullish. -/
def MapResult.pathOf : MapResult → Option String
  | .descriptor e => e.path
  | _ => none

/-- One call of `fetch(url, options)`. -/
structure HttpRequest where
  method : String
  url : String
  body : Option JSValue

/-- The class `activated` on the seven clear buttons of the page. -/
structure ClearButtons where
  slide : Bool := false
  audio : Bool := false
  text : Bool := false
  announcements : Bool := false
  props : Bool := false
  media : Bool := false
  all : Bool := false
  deriving DecidableEq, Repr

/-- The module-level variables of the adapter, with the record of its two effects. -/
structure BridgeState where
  baseURL : String := ""
  lastSlideIndex : JSValue := .num (-1)
  lastPresentationUUID : JSValue := .null
  presentationCache : List (String × JSValue) := []
  pendingPresentationRequests : Int := 0
  presentationRequestsPending : Int := 0
  clearAllGroupUUID : JSValue := .null
  lastAudioPlayingState : JSValue := .null
  lastAudioTrackUUID : JSValue := .null
  lastAudioTrackName : JSValue := .str ""
  lastAudioTrackArtist : JSValue := .str ""
  currentAnnouncementUUID : JSValue := .null
  currentPresentationUUID : JSValue := .null
  onMessage : Bool := false
  delivered : List JSValue := []
  requests : List HttpRequest := []
  clearButtons : ClearButtons := {}

/-! ## Path and body builders -/

/-- Source: `extractAudioPath`. -/
def extractAudioPath (cmd : Command) : String :=
  let path := orStr cmd.audioChildPath ""
  if ':' ∈ path.data then
    let parts := split path ':'
    parts.getD 0 "undefined" ++ "/" ++ parts.getD 1 "undefined" ++ "/trigger"
  else ""

/-- Source: `buildPresentationTriggerPath`. -/
def buildPresentationTriggerPath (cmd : Command) : String :=
  let presentationId := orStr cmd.presentationUUID (orStr cmd.presentationPath "active")
  let presentationId :=
    if startsWith presentationId "OpenAPI/Libraries/" then lastPart (split presentationId '/')
    else presentationId
  let isAnnouncement := cmd.presentationDestination.looseEqOne
  if isAnnouncement then
    if cmd.slideIndex.isDefined then
      "/v1/announcement/active/" ++ cmd.slideIndex.toStr ++ "/trigger"
    else "/v1/announcement/active/trigger"
  else
    if cmd.slideIndex.isDefined then
      "/v1/presentation/" ++ presentationId ++ "/" ++ cmd.slideIndex.toStr ++ "/trigger"
    else "/v1/presentation/" ++ presentationId ++ "/trigger"

/-- Source: `buildPresentationRequestPath`. -/
def buildPresentationRequestPath (cmd : Command) : String :=
  if strTruthy cmd.presentationPath then
    let uuidToUse := orStr cmd.presentationUUID (orStr cmd.presentationPath "")
    if startsWith uuidToUse "OpenAPI/Libraries/" then
      let uuid := lastPart (split uuidToUse '/')
      "/v1/presentation/" ++ uuid
    else "/v1/presentation/" ++ uuidToUse
  else "/v1/presentation/active"

/-- Source: `buildClockUpdate`. -/
def buildClockUpdate (cmd : Command) : JSValue :=
  let body := [("name", cmd.clockName)]
  if cmd.clockType.strictEq (.str "0") then
    .obj (body ++ [("type", .str "countdown"), ("duration", cmd.clockTime),
      ("allows_overrun", .bool (cmd.clockOverrun.strictEq (.str "1")))])
  else if cmd.clockType.strictEq (.str "1") then
    .obj (body ++ [("type", .str "countdown_to_time"), ("time_of_day", cmd.clockElapsedTime)])
  else if cmd.clockType.strictEq (.str "2") then
    .obj (body ++ [("type", .str "elapsed")])
  else .obj body

/-- The assignment `body[key] = v` on an object literal.  The name `__proto__` is the
accessor inherited from `Object.prototype`: assigning it creates no own property, and
only own properties are serialised. -/
def assignField (key : String) (v : JSValue) (body : List (String × JSValue)) :
    List (String × JSValue) :=
  if key = "__proto__" then body else JSValue.setField key v body

/-- The loop of `buildMessageBody`: `body[keys[i]] = values[i]` for `i` from `i0` on. -/
def messageLoop (values : List JSValue) : List JSValue → Nat → List (String × JSValue) →
    List (String × JSValue)
  | [], _, body => body
  | k :: ks, i, body =>
    messageLoop values ks (i + 1) (assignField k.toStr (values.getD i .undefined) body)

/-- Source: `buildMessageBody`. -/
def buildMessageBody (cmd : Command) : JSValue :=
  match cmd.messageKeys, cmd.messageValues with
  | some keys, some values => .obj (messageLoop values keys 0 [])
  | _, _ => .obj []

/-- Source: line 800 of `handleLibraryRequest`, the synthetic path of a library item. -/
def fakePath (libraryName presName presId : String) : String :=
  "OpenAPI/Libraries/" ++ libraryName ++ "/" ++ presName ++ "/" ++ presId

/-! ## Endpoint mapper -/

/-- A descriptor `{ method: 'GET', path, handler }`. -/
def getEndpoint (path : String) (handler : Option Handler) : Option Endpoint :=
  some { method := "GET", path := some path, handler := handler }

/-- Source: the object literal `mapping` of `mapClassicToOpenAPI`; every entry is
evaluated on each call. -/
def mapping (st : BridgeState) (cmd : Command) : List (String × Option Endpoint) :=
  [ ("authenticate", none),
    ("libraryRequest", getEndpoint "/v1/libraries" (some .handleLibraryRequest)),
    ("playlistRequestAll", getEndpoint "/v1/playlists" (some .handlePlaylistRequest)),
    ("audioRequest", getEndpoint "/v1/audio/playlists" (some .handleAudioRequest)),
    ("audioCurrentSong", getEndpoint "/v1/transport/audio/current" (some .handleAudioCurrent)),
    ("audioIsPlaying", getEndpoint "/v1/transport/audio/current" (some .handleAudioPlaying)),
    ("audioPlayPause", getEndpoint "/v1/transport/audio/current" (some .handleAudioPlayPause)),
    ("audioStartCue", getEndpoint ("/v1/audio/playlist/" ++ extractAudioPath cmd) none),
    ("presentationRequest",
      getEndpoint (buildPresentationRequestPath cmd) (some .handlePresentationRequest)),
    ("presentationCurrent",
      getEndpoint "/v1/presentation/active" (some .handlePresentationCurrent)),
    ("presentationSlideIndex",
      getEndpoint "/v1/presentation/slide_index" (some .handleSlideIndex)),
    ("presentationTriggerIndex",
      getEndpoint (buildPresentationTriggerPath cmd) (some .handlePresentationTrigger)),
    ("presentationTriggerNext", getEndpoint "/v1/presentation/active/next/trigger" none),
    ("presentationTriggerPrevious",
      getEndpoint "/v1/presentation/active/previous/trigger" none),
    ("timelinePlayPause", getEndpoint "/v1/presentation/active/timeline/play" none),
    ("clearAll", some
      { method := "GET",
        path := if st.clearAllGroupUUID.truthy
          then some ("/v1/clear/group/" ++ st.clearAllGroupUUID.toStr ++ "/trigger")
          else none,
        handler := none }),
    ("clearAudio", getEndpoint "/v1/clear/layer/audio" none),
    ("clearMessages", getEndpoint "/v1/clear/layer/messages" none),
    ("clearProps", getEndpoint "/v1/clear/layer/props" none),
    ("clearAnnouncements", getEndpoint "/v1/clear/layer/announcements" none),
    ("clearText", getEndpoint "/v1/clear/layer/messages" none),
    ("clearVideo", getEndpoint "/v1/clear/layer/media" none),
    ("clearSlide", getEndpoint "/v1/clear/layer/slide" none),
    ("clockRequest", getEndpoint "/v1/timers" (some .handleClockRequest)),
    ("clockStart", getEndpoint ("/v1/timer/" ++ cmd.clockIndex.toStr ++ "/start") none),
    ("clockStop", getEndpoint ("/v1/timer/" ++ cmd.clockIndex.toStr ++ "/stop") none),
    ("clockReset", getEndpoint ("/v1/timer/" ++ cmd.clockIndex.toStr ++ "/reset") none),
    ("clockStopAll", getEndpoint "/v1/timers/stop" none),
    ("clockResetAll", getEndpoint "/v1/timers/reset" none),
    ("clockStartAll", getEndpoint "/v1/timers/start" none),
    ("clockStartSendingCurrentTime",
      getEndpoint "/v1/timers/current" (some .handleClockCurrentTime)),
    ("clockStopSendingCurrentTime", none),
    ("clockUpdate", some
      { method := "PUT", path := some ("/v1/timer/" ++ cmd.clockIndex.toStr), handler := none,
        body := some (buildClockUpdate cmd) }),
    ("messageRequest", getEndpoint "/v1/messages" (some .handleMessageRequest)),
    ("messageSend", some
      { method := "POST", path := some ("/v1/message/" ++ cmd.messageIndex.toStr ++ "/trigger"),
        handler := none, body := some (buildMessageBody cmd) }),
    ("messageHide", getEndpoint ("/v1/message/" ++ cmd.messageIndex.toStr ++ "/clear") none),
    ("stageDisplaySets", getEndpoint "/v1/stage/screens" (some .handleStageDisplaySets)),
    ("stageDisplaySendMessage", some
      { method := "PUT", path := some "/v1/stage/message", handler := none,
        body := some (.obj [("message", cmd.stageDisplayMessage)]) }),
    ("stageDisplayHideMessage", some
      { method := "DELETE", path := some "/v1/stage/message", handler := none }),
    ("stageDisplayChangeLayout",
      getEndpoint ("/v1/stage/screen/" ++ cmd.stageScreenUUID.toStr ++ "/layout/" ++
        cmd.stageLayoutUUID.toStr) none) ]

/-- The keys of `mapping`: the known action set. -/
def knownActions : List String :=
  [ "authenticate", "libraryRequest", "playlistRequestAll", "audioRequest", "audioCurrentSong",
    "audioIsPlaying", "audioPlayPause", "audioStartCue", "presentationRequest",
    "presentationCurrent", "presentationSlideIndex", "presentationTriggerIndex",
    "presentationTriggerNext", "presentationTriggerPrevious", "timelinePlayPause", "clearAll",
    "clearAudio", "clearMessages", "clearProps", "clearAnnouncements", "clearText", "clearVideo",
    "clearSlide", "clockRequest", "clockStart", "clockStop", "clockReset", "clockStopAll",
    "clockResetAll", "clockStartAll", "clockStartSendingCurrentTime",
    "clockStopSendingCurrentTime", "clockUpdate", "messageRequest", "messageSend", "messageHide",
    "stageDisplaySets", "stageDisplaySendMessage", "stageDisplayHideMessage",
    "stageDisplayChangeLayout" ]

/-- Members every object literal inherits from `Object.prototype`. -/
def objectPrototypeKeys : List String :=
  [ "constructor", "__proto__", "hasOwnProperty", "isPrototypeOf", "propertyIsEnumerable",
    "toLocaleString", "toString", "valueOf", "__defineGetter__", "__defineSetter__",
    "__lookupGetter__", "__lookupSetter__" ]

/-- First binding of a key in an object literal without duplicate keys. -/
def lookupKey {α : Type} (key : String) : List (String × α) → Option α
  | [] => none
  | (k, v) :: rest => if k = key then some v else lookupKey key rest

/-- Source: `mapClassicToOpenAPI`, the read `mapping[action]`. -/
def mapClassicToOpenAPI (st : BridgeState) (cmd : Command) : MapResult :=
  match lookupKey cmd.action (mapping st cmd) with
  | some (some e) => .descriptor e
  | some none => .null
  | none => if cmd.action ∈ objectPrototypeKeys then .inherited else .undefined

/-! ## Message synthesizer and presentation transcoder -/

/-- Source: `simulateMessage`.  The record `delivered` keeps the object whose
`JSON.stringify` is handed to the consumer callback. -/
def simulateMessage (st : BridgeState) (dataObj : JSValue) : BridgeState :=
  if st.onMessage then { st with delivered := st.delivered ++ [dataObj] } else st

/-- The thumbnail address of a slide. -/
def slideImage (baseURL : String) (presId : JSValue) (slideIndex : Nat) (cmd : Command) : String :=
  baseURL ++ "/v1/presentation/" ++ presId.toStr ++ "/thumbnail/" ++ toString slideIndex ++
    "?quality=" ++ (cmd.presentationSlideQuality.orElse (.str "200")).toStr

/-- The inner callback of `handlePresentationRequest`: one slide of a backend group. -/
def transcodeSlide (baseURL : String) (presId : JSValue) (cmd : Command) (slide : JSValue)
    (slideIndex : Nat) : Except JSError JSValue := do
  let enabled ← slide.prop "enabled"
  let notes ← slide.prop "notes"
  let text ← slide.prop "text"
  let label ← slide.prop "label"
  pure (.obj
    [ ("slideEnabled", .bool (!(enabled.strictEq (.bool false)))),
      ("slideNotes", notes.orElse (.str "")),
      ("slideText", text.orElse (.str "")),
      ("slideLabel", label.orElse (.str "")),
      ("slideImage", .str (slideImage baseURL presId slideIndex cmd)),
      ("slideIndex", .num slideIndex) ])

/-- The inner `groupSlides.map`, threading `globalSlideIndex`. -/
def transcodeSlides (baseURL : String) (presId : JSValue) (cmd : Command) :
    List JSValue → Nat → Except JSError (List JSValue × Nat)
  | [], g => pure ([], g)
  | slide :: rest, g => do
    let x ← transcodeSlide baseURL presId cmd slide g
    let (xs, g1) ← transcodeSlides baseURL presId cmd rest (g + 1)
    pure (x :: xs, g1)

/-- The outer callback of `handlePresentationRequest`: one backend group. -/
def transcodeGroup (baseURL : String) (presId : JSValue) (cmd : Command) (group : JSValue)
    (g : Nat) : Except JSError (JSValue × Nat) := do
  let slides ← group.prop "slides"
  let groupSlides := slides.orElse (.arr [])
  let name := group.get "name"
  let color := group.get "color"
  let groupColor := if color.truthy then (color.get "hex").orElse color else .str ""
  match groupSlides with
  | .arr items =>
    let (xs, g1) ← transcodeSlides baseURL presId cmd items g
    pure (.obj
      [ ("groupName", name.orElse (.str "")),
        ("groupColor", groupColor),
        ("groupSlides", .arr xs) ], g1)
  | _ => throw (.typeError "groupSlides.map is not a function")

/-- The outer `presentation.groups.map`, threading `globalSlideIndex`. -/
def transcodeGroups (baseURL : String) (presId : JSValue) (cmd : Command) :
    List JSValue → Nat → Except JSError (List JSValue × Nat)
  | [], g => pure ([], g)
  | group :: rest, g => do
    let (x, g1) ← transcodeGroup baseURL presId cmd group g
    let (xs, g2) ← transcodeGroups baseURL presId cmd rest g1
    pure (x :: xs, g2)

/-- The placeholder slide pushed by the `slide_count` loop. -/
def placeholderSlide (baseURL : String) (presId : JSValue) (cmd : Command) (i : Nat) : JSValue :=
  .obj
    [ ("slideEnabled", .bool true),
      ("slideNotes", .str ""),
      ("slideText", .str ""),
      ("slideImage", .str (slideImage baseURL presId i cmd)),
      ("slideIndex", .num i) ]

/-- Number of iterations of `for (i = 0; i < slideCount; i++)`. -/
def loopCount (slideCount : JSValue) : Nat :=
  match slideCount.toNumber with
  | some n => n.toNat
  | none => 0

/-- The single group made when the backend supplies no groups. -/
def implicitGroup (slides : List JSValue) : JSValue :=
  .obj [ ("groupName", .str ""), ("groupColor", .str ""), ("groupSlides", .arr slides) ]

/-- The slide groups built by `handlePresentationRequest` from `presentation`. -/
def presentationGroups (baseURL : String) (presId : JSValue) (cmd : Command)
    (presentation : JSValue) : Except JSError (List JSValue) :=
  let groups := presentation.get "groups"
  if groups.truthy && (groups.get "length").gtZero then
    match groups with
    | .arr items => (transcodeGroups baseURL presId cmd items 0).map Prod.fst
    | _ => throw (.typeError "presentation.groups.map is not a function")
  else
    let slideCount := (presentation.get "slide_count").orElse (.num 0)
    pure
      [ implicitGroup ((List.range (loopCount slideCount)).map
          (placeholderSlide baseURL presId cmd)) ]

/-- The variable `presentation` of `handlePresentationRequest`: `data.presentation || data`. -/
def responsePresentation (data : JSValue) : JSValue := (data.get "presentation").orElse data

/-- The variable `presId` of `handlePresentationRequest`. -/
def presentationId (presentation : JSValue) (originalCmd : Command) : JSValue :=
  let id := presentation.get "id"
  if id.truthy then (id.get "uuid").orElse id else .ofOption originalCmd.presentationPath

/-- The variable `presName` of `handlePresentationRequest`. -/
def presentationName (presentation : JSValue) : JSValue :=
  let id := presentation.get "id"
  if id.truthy then ((id.get "name").orElse (presentation.get "name")).orElse (.str "")
  else .str ""

/-- The object `presentationData` of `handlePresentationRequest`, with its
announcement tag. -/
def presentationData (st : BridgeState) (presId presName : JSValue) (groups : List JSValue) :
    JSValue :=
  let fields : List (String × JSValue) :=
    [ ("presentationName", presName),
      ("presentationPath", presId),
      ("presentationSlideGroups", .arr groups) ]
  if st.currentAnnouncementUUID.truthy && presId.strictEq st.currentAnnouncementUUID then
    .obj (fields ++ [("presentationDestination", .num 1)])
  else .obj fields

/-- The object `message` of `handlePresentationRequest`. -/
def presentationMessage (originalCmd : Command) (data : JSValue) : JSValue :=
  let message : List (String × JSValue) :=
    [ ("action", .str "presentationCurrent"),
      ("presentationPath", .ofOption originalCmd.presentationPath),
      ("presentation", data) ]
  if strTruthy originalCmd.presentationUUID then
    .obj (message ++ [("presentationUUID", .ofOption originalCmd.presentationUUID)])
  else .obj message

/-- The tail of `handlePresentationRequest` once the slide groups are built: tag, write
the cache, emit the message. -/
def emitPresentation (st : BridgeState) (presId presName : JSValue) (groups : List JSValue)
    (originalCmd : Command) : BridgeState :=
  let data := presentationData st presId presName groups
  let st1 : BridgeState :=
    { st with presentationCache := JSValue.setField presId.toStr data st.presentationCache }
  simulateMessage st1 (presentationMessage originalCmd data)

/-- Source: `handlePresentationRequest`.  Every statement that can raise precedes the
first assignment to bridge state, so an error result leaves the state as it was. -/
def handlePresentationRequest (st : BridgeState) (data : JSValue) (originalCmd : Command) :
    Except JSError BridgeState :=
  if !data.truthy then pure st
  else
    let presentation := (data.get "presentation").orElse data
    let presId := presentationId presentation originalCmd
    let presName := presentationName presentation
    if !presId.truthy then pure st
    else do
      let groups ← presentationGroups st.baseURL presId originalCmd presentation
      pure (emitPresentation st presId presName groups originalCmd)

/-! ## Audio transcoders -/

/-- The message `audioCurrentSong` for a loaded track. -/
def audioCurrentMessage (uuid name artist : JSValue) : JSValue :=
  .obj
    [ ("action", .str "audioCurrentSong"),
      ("audioName", name.orElse (.str "")),
      ("audioArtist", artist.orElse (.str "")),
      ("audioUuid", uuid.orElse (.str "")) ]

/-- The message `audioCurrentSong` when no track is loaded. -/
def audioClearedMessage : JSValue :=
  .obj [ ("action", .str "audioCurrentSong"), ("audioName", .str ""), ("audioArtist", .str "") ]

/-- Source: `handleAudioCurrent`. -/
def handleAudioCurrent (st : BridgeState) (data : JSValue) : BridgeState :=
  if data.truthy && (data.get "name").truthy then
    let uuid := data.get "uuid"
    let name := data.get "name"
    let artist := data.get "artist"
    if !(uuid.strictEq st.lastAudioTrackUUID) || !(name.strictEq st.lastAudioTrackName) ||
        !(artist.strictEq st.lastAudioTrackArtist) then
      simulateMessage
        { st with
          lastAudioTrackUUID := uuid, lastAudioTrackName := name, lastAudioTrackArtist := artist }
        (audioCurrentMessage uuid name artist)
    else st
  else
    if !(st.lastAudioTrackUUID.strictEq .null) then
      simulateMessage
        { st with
          lastAudioTrackUUID := .null, lastAudioTrackName := .str "",
          lastAudioTrackArtist := .str "" }
        audioClearedMessage
    else st

/-- The variable `status` of `handleAudioPlaying`. -/
def audioStatus (data : JSValue) : JSValue :=
  if data.truthy && (data.get "is_playing").truthy then .str "Playing"
  else if data.truthy && (data.get "name").truthy then .str "Pause"
  else .null

/-- The message `audioIsPlaying`. -/
def audioPlayingMessage (status : JSValue) : JSValue :=
  .obj [ ("action", .str "audioIsPlaying"), ("audioIsPlaying", status) ]

/-- Source: `handleAudioPlaying`. -/
def handleAudioPlaying (st : BridgeState) (data : JSValue) : BridgeState :=
  let status := audioStatus data
  if !(status.strictEq st.lastAudioPlayingState) then
    simulateMessage { st with lastAudioPlayingState := status } (audioPlayingMessage status)
  else st

/-! ## Request executor -/

/-- How the promise returned by `fetch` settles.  `ok body`: a success status, with
`body = none` when `response.json()` rejects (unparsable or empty body);
`httpError`: a non-success status; `networkError`: `fetch` itself rejects. -/
inductive FetchOutcome where
  | ok (body : Option JSValue) : FetchOutcome
  | httpError (status : Nat) : FetchOutcome
  | networkError : FetchOutcome

/-- A response handler as the executor sees it: the state it leaves and the exception
it raised, if any. -/
abbrev HandlerFn := JSValue → Command → BridgeState → BridgeState × Option JSError

/-- The call `endpoint.handler(data, originalCmd)`.  Handlers other than the
presentation and audio-state transcoders are supplied by `ext`. -/
def invokeHandler (ext : Handler → HandlerFn) (h : Handler) (data : JSValue) (cmd : Command)
    (st : BridgeState) : BridgeState × Option JSError :=
  match h with
  | .handlePresentationRequest =>
    match handlePresentationRequest st data cmd with
    | .ok st1 => (st1, none)
    | .error err => (st, some err)
  | .handleAudioCurrent => (handleAudioCurrent st data, none)
  | .handleAudioPlaying => (handleAudioPlaying st data, none)
  | other => ext other data cmd st

/-- The statements `pendingPresentationRequests++` and the copy to `window`. -/
def incrementPending (st : BridgeState) : BridgeState :=
  { st with
    pendingPresentationRequests := st.pendingPresentationRequests + 1,
    presentationRequestsPending := st.pendingPresentationRequests + 1 }

/-- The statements `pendingPresentationRequests--` and the copy to `window`. -/
def decrementPending (st : BridgeState) : BridgeState :=
  { st with
    pendingPresentationRequests := st.pendingPresentationRequests - 1,
    presentationRequestsPending := st.pendingPresentationRequests - 1 }

/-- Source: the synchronous part of `executeOpenAPIRequest`, up to the call of `fetch`. -/
def executeOpenAPIRequest (st : BridgeState) (endpoint : MapResult) (originalCmd : Command) :
    BridgeState :=
  match endpoint with
  | .undefined => st
  | .null => st
  | .inherited => st
  | .descriptor e =>
    if strTruthy e.path then
      let url := st.baseURL ++ orStr e.path ""
      let st1 :=
        if originalCmd.action = "presentationRequest" then incrementPending st else st
      let body :=
        match e.body with
        | some b => if b.truthy then some b else none
        | none => none
      { st1 with requests :=
          st1.requests ++ [{ method := orStr (some e.method) "GET", url := url, body := body }] }
    else st

/-- The data the `catch` callback passes to the handler of a failed presentation fetch. -/
def errorPresentation (originalCmd : Command) : JSValue :=
  .obj
    [ ("presentation", .obj
        [ ("id", .obj
            [ ("uuid", .ofOption originalCmd.presentationPath),
              ("name", .str "Error"),
              ("index", .num 0) ]),
          ("presentationSlideGroups", .arr []),
          ("has_timeline", .bool false),
          ("presentation_path", .str "Error loading presentation"),
          ("destination", .str "presentation") ]) ]

/-- Source: the callback `.then(data => ...)` of `executeOpenAPIRequest`. -/
def onFulfilled (ext : Handler → HandlerFn) (e : Endpoint) (originalCmd : Command)
    (data : JSValue) (st : BridgeState) : BridgeState × Option JSError :=
  let st1 := if originalCmd.action = "presentationRequest" then decrementPending st else st
  match e.handler with
  | some h => invokeHandler ext h data originalCmd st1
  | none => (st1, none)

/-- Source: the callback `.catch(error => ...)` of `executeOpenAPIRequest`. -/
def onRejected (ext : Handler → HandlerFn) (e : Endpoint) (originalCmd : Command)
    (st : BridgeState) : BridgeState × Option JSError :=
  let st1 := if originalCmd.action = "presentationRequest" then decrementPending st else st
  if originalCmd.action = "presentationRequest" then
    match e.handler with
    | some h => invokeHandler ext h (errorPresentation originalCmd) originalCmd st1
    | none => (st1, none)
  else (st1, none)

/-- Source: the promise chain `fetch(..).then(..).then(..).catch(..)` of
`executeOpenAPIRequest`, run on the outcome of the fetch.  The `catch` callback is
chained after the second `then`, so it also receives what that callback raises.
The second component is a rejection no callback handled. -/
def settle (ext : Handler → HandlerFn) (e : Endpoint) (originalCmd : Command)
    (outcome : FetchOutcome) (st : BridgeState) : BridgeState × Option JSError :=
  match outcome with
  | .ok body =>
    match onFulfilled ext e originalCmd (body.getD .null) st with
    | (st1, none) => (st1, none)
    | (st1, some _) => onRejected ext e originalCmd st1
  | .httpError _ => onRejected ext e originalCmd st
  | .networkError => onRejected ext e originalCmd st

/-- Source: `sendOpenAPI`, as a function of the outcome of `JSON.parse(jsonString)`:
`none` when it raises or yields `null` (reading `cmd.action` then raises); the
exception is caught and logged.  The `try` block and the `catch` are separate terms in
`sendBody` and `send` below. -/
def sendOpenAPI (st : BridgeState) (parsed : Option Command) : BridgeState :=
  match parsed with
  | none => st
  | some cmd =>
    match mapClassicToOpenAPI st cmd with
    | .undefined => st
    | .null => st
    | endpoint => executeOpenAPIRequest st endpoint cmd

/-- A table for the handlers supplied from outside in which each returns at once.  The
statements on the executor hold for every table; closed evaluations are made at this one. -/
def noHandlers : Handler → HandlerFn := fun _ _ _ st => (st, none)

/-- Source: the `try` block of `sendOpenAPI` (lines 488-496).  `parse` stands for
`JSON.parse` followed by the reads of the command fields; it raises what they raise: a
SyntaxError on a text that is not JSON, a TypeError on the text `null` (the read of
`cmd.action`).  An exception leaves the block at once. -/
def sendBody (parse : String → Except JSError Command) (st : BridgeState)
    (jsonString : String) : Except JSError BridgeState :=
  match parse jsonString with
  | .error err => .error err
  | .ok cmd =>
    match mapClassicToOpenAPI st cmd with
    | .undefined => .ok st
    | .null => .ok st
    | endpoint => .ok (executeOpenAPIRequest st endpoint cmd)

/-- Source: `send` in OpenAPI mode (`isOpenAPI` true), that is `sendOpenAPI`: the `try`
block, and the `catch` (lines 497-499), which logs the exception and returns normally.
An `error` would be an exception thrown to the caller of `send`. -/
def send (parse : String → Except JSError Command) (st : BridgeState) (jsonString : String) :
    Except JSError BridgeState :=
  match sendBody parse st jsonString with
  | .ok st1 => .ok st1
  | .error _ => .ok st

/-! ## Update router -/

/-- Source: `updateClearButtonStates`.  The first statement reads `layerStatus.slide`,
which raises on a nullish payload before any button is touched. -/
def updateClearButtonStates (st : BridgeState) (layerStatus : JSValue) :
    Except JSError BridgeState :=
  if layerStatus.isNullish then
    throw (.typeError "Cannot read properties of null (reading slide)")
  else
    let set := fun key => (layerStatus.get key).truthy
    let slide := set "slide" || set "presentation" || set "presentation_media"
    let audio := set "audio" || set "music" || set "audio_effects"
    let messages := set "messages"
    let announcements := set "announcements"
    let props := set "props"
    let media := set "media" || set "video_input"
    let anyActive := slide || audio || messages || announcements || props || media
    pure { st with clearButtons :=
      { slide := slide, audio := audio, text := messages, announcements := announcements,
        props := props, media := media, all := anyActive } }

/-- The callback of `group.slides.forEach` in `handleAnnouncementData`: one slide. -/
def announcementSlide (baseURL : String) (presId : JSValue) (cmd : Command) (slide : JSValue)
    (slideIndex : Nat) : Except JSError JSValue := do
  let enabled ← slide.prop "enabled"
  let notes ← slide.prop "notes"
  let text ← slide.prop "text"
  pure (.obj
    [ ("slideEnabled", .bool (!(enabled.strictEq (.bool false)))),
      ("slideNotes", notes.orElse (.str "")),
      ("slideText", text.orElse (.str "")),
      ("slideImage", .str (slideImage baseURL presId slideIndex cmd)),
      ("slideIndex", .num slideIndex) ])

/-- The loop `group.slides.forEach`, threading the counter `slideIndex`. -/
def announcementSlides (baseURL : String) (presId : JSValue) (cmd : Command) :
    List JSValue → Nat → Except JSError (List JSValue × Nat)
  | [], g => pure ([], g)
  | slide :: rest, g => do
    let x ← announcementSlide baseURL presId cmd slide g
    let (xs, g1) ← announcementSlides baseURL presId cmd rest (g + 1)
    pure (x :: xs, g1)

/-- The statement `if (group.slides && group.slides.length > 0) group.slides.forEach(..)`
of `handleAnnouncementData`. -/
def announcementGroupSlides (baseURL : String) (presId : JSValue) (cmd : Command)
    (slides : JSValue) (g : Nat) : Except JSError (List JSValue × Nat) :=
  if slides.truthy && (slides.get "length").gtZero then
    match slides with
    | .arr items => announcementSlides baseURL presId cmd items g
    | _ => throw (.typeError "group.slides.forEach is not a function")
  else pure ([], g)

/-- The callback of `announcement.groups.forEach`: one group.  `rgbHex` is the colour
string computed from the channels of `group.color`, floating-point arithmetic that
never raises. -/
def announcementGroup (rgbHex : JSValue → String) (baseURL : String) (presId : JSValue)
    (cmd : Command) (group : JSValue) (g : Nat) : Except JSError (JSValue × Nat) := do
  let slides ← group.prop "slides"
  let (xs, g1) ← announcementGroupSlides baseURL presId cmd slides g
  let color := group.get "color"
  pure (.obj
    [ ("groupName", (group.get "name").orElse (.str "")),
      ("groupColor", if color.truthy then .str (rgbHex color) else .str ""),
      ("groupSlides", .arr xs) ], g1)

/-- The loop `announcement.groups.forEach`, threading the counter `slideIndex`. -/
def announcementGroups (rgbHex : JSValue → String) (baseURL : String) (presId : JSValue)
    (cmd : Command) : List JSValue → Nat → Except JSError (List JSValue × Nat)
  | [], g => pure ([], g)
  | group :: rest, g => do
    let (x, g1) ← announcementGroup rgbHex baseURL presId cmd group g
    let (xs, g2) ← announcementGroups rgbHex baseURL presId cmd rest g1
    pure (x :: xs, g2)

/-- The message emitted by `handleAnnouncementData`. -/
def announcementMessage (originalCmd : Command) (presId presName : JSValue)
    (groups : List JSValue) : JSValue :=
  .obj
    [ ("action", .str "presentationCurrent"),
      ("presentationPath", .ofOption originalCmd.presentationPath),
      ("presentation", .obj
        [ ("presentationName", presName),
          ("presentationPath", presId),
          ("presentationSlideGroups", .arr groups),
          ("presentationDestination", .num 1) ]) ]

/-- Source: `handleAnnouncementData`.  An error result leaves the state as it was. -/
def handleAnnouncementData (rgbHex : JSValue → String) (st : BridgeState)
    (announcement : JSValue) (originalCmd : Command) : Except JSError BridgeState := do
  let id ← announcement.prop "id"
  let presId := if id.truthy then id.get "uuid" else .str ""
  let presName := if id.truthy then id.get "name" else .str ""
  let groupsIn := announcement.get "groups"
  let groups ←
    if groupsIn.truthy && (groupsIn.get "length").gtZero then
      match groupsIn with
      | .arr items =>
        (announcementGroups rgbHex st.baseURL presId originalCmd items 0).map Prod.fst
      | _ => throw (.typeError "announcement.groups.forEach is not a function")
    else pure []
  pure (simulateMessage st (announcementMessage originalCmd presId presName groups))

/-- The message `presentationSlideIndex` of the two slide-index topics. -/
def slideIndexMessage (index uuid : JSValue) : JSValue :=
  .obj
    [ ("action", .str "presentationSlideIndex"),
      ("slideIndex", .ofNumber index.parseInt),
      ("presentationPath", uuid) ]

/-- The two slide-index branches of `handleStatusUpdate`; `key` is `presentation_index`
or `announcement_index`. -/
def slideIndexUpdate (st : BridgeState) (data : JSValue) (key : String) :
    BridgeState × Option JSError :=
  match data.prop key with
  | .error err => (st, some err)
  | .ok entry =>
    if entry.truthy && (entry.get "index").isDefined && (entry.get "presentation_id").truthy &&
        ((entry.get "presentation_id").get "uuid").truthy then
      (simulateMessage st
        (slideIndexMessage (entry.get "index") ((entry.get "presentation_id").get "uuid")), none)
    else (st, none)

/-- The call of `executeOpenAPIRequest` made by the topics `presentation/active` and
`presentation/focused`.  The command carries the UUID by its string form. -/
def fetchPresentation (st : BridgeState) (presId : JSValue) : BridgeState :=
  executeOpenAPIRequest st
    (.descriptor
      { method := "GET", path := some ("/v1/presentation/" ++ presId.toStr),
        handler := some .handlePresentationRequest })
    { action := "presentationRequest", presentationPath := some presId.toStr,
      presentationSlideQuality := .str "300" }

/-- Source: `handleStatusUpdate`.  The second component is the exception the call
raises, if any; the state is the one reached when it was raised. -/
def handleStatusUpdate (rgbHex : JSValue → String) (st : BridgeState) (statusUpdate : JSValue) :
    BridgeState × Option JSError :=
  if !statusUpdate.truthy || !(statusUpdate.get "url").truthy ||
      (statusUpdate.get "data").strictEq .undefined then (st, none)
  else
    let url := statusUpdate.get "url"
    let data := statusUpdate.get "data"
    if url.strictEq (.str "presentation/slide_index") then
      slideIndexUpdate st data "presentation_index"
    else if url.strictEq (.str "announcement/slide_index") then
      slideIndexUpdate st data "announcement_index"
    else if url.strictEq (.str "presentation/active") then
      match data.prop "presentation" with
      | .error err => (st, some err)
      | .ok presentation =>
        if presentation.truthy && (presentation.get "id").truthy &&
            ((presentation.get "id").get "uuid").truthy then
          (fetchPresentation st ((presentation.get "id").get "uuid"), none)
        else (st, none)
    else if url.strictEq (.str "presentation/focused") then
      match data.prop "uuid" with
      | .error err => (st, some err)
      | .ok uuid => if uuid.truthy then (fetchPresentation st uuid, none) else (st, none)
    else if url.strictEq (.str "announcement/active") then
      match data.prop "announcement" with
      | .error err => (st, some err)
      | .ok announcement =>
        if announcement.truthy && (announcement.get "id").truthy &&
            ((announcement.get "id").get "uuid").truthy then
          let presId := (announcement.get "id").get "uuid"
          let st1 := { st with currentAnnouncementUUID := presId }
          match handleAnnouncementData rgbHex st1 announcement
              { action := "presentationRequest", presentationPath := some presId.toStr,
                presentationSlideQuality := .str "300" } with
          | .ok st2 => (st2, none)
          | .error err => (st1, some err)
        else (st, none)
    else if url.strictEq (.str "status/layers") then
      match updateClearButtonStates st data with
      | .ok st1 => (st1, none)
      | .error err => (st, some err)
    else if url.strictEq (.str "transport/audio/current") then
      (handleAudioPlaying (handleAudioCurrent st data) data, none)
    else (st, none)

/-! ## Clear-group registry -/

/-- The method `toLowerCase` on the letters A to Z; other characters are kept.  The
result is only compared with the literal `clear all`, and Unicode lower-casing yields
a character of that literal from no character outside A to Z, so the comparison is the
one the source makes. -/
def toLowerCase (s : String) : String := String.mk (s.data.map Char.toLower)

/-- The variable `groupName` of the loop of `fetchClearGroups`, lower-cased.  Raises
when the group is `null` or `undefined`, and when the name is truthy without being a
string (`toLowerCase` is then not a function). -/
def clearGroupName (group : JSValue) : Except JSError String := do
  let id ← group.prop "id"
  let groupName := if id.truthy && (id.get "name").truthy then id.get "name" else .str ""
  match groupName with
  | .str s => pure (toLowerCase s)
  | _ => throw (.typeError "groupName.toLowerCase is not a function")

/-- The loop of `fetchClearGroups`: the value it assigns to `clearAllGroupUUID` before
`break`, `none` when it runs to the end without assigning. -/
def findClearAll : List JSValue → Except JSError (Option JSValue)
  | [] => pure none
  | group :: rest => do
    let name ← clearGroupName group
    if name = "clear all" then pure (some ((group.get "id").get "uuid"))
    else findClearAll rest

/-- The callback `.then(groups => ...)` of `fetchClearGroups` followed by its `catch`:
an exception of the loop is logged, and the loop assigns nothing before it raises. -/
def onClearGroups (st : BridgeState) (groups : JSValue) : BridgeState :=
  match groups with
  | .arr items =>
    match findClearAll items with
    | .ok (some uuid) => { st with clearAllGroupUUID := uuid }
    | .ok none => st
    | .error _ => st
  | _ => st

/-- Source: `fetchClearGroups`.  `response` is what `response.json()` yields, `none`
when `fetch` or `json()` rejects. -/
def fetchClearGroups (st : BridgeState) (response : Option JSValue) : BridgeState :=
  let st1 : BridgeState :=
    { st with requests :=
        st.requests ++ [{ method := "GET", url := st.baseURL ++ "/v1/clear/groups", body := none }] }
  match response with
  | some groups => onClearGroups st1 groups
  | none => st1

/-- Source: `connectOpenAPI` up to the probe.  `base` is the address the three-way test
on `window.location`, `host` and `port` yields. -/
def connectOpenAPI (st : BridgeState) (base : String) : BridgeState :=
  { st with
    baseURL := base,
    requests := st.requests ++ [{ method := "GET", url := base ++ "/version", body := none }] }

/-- Two strings equal up to the case of the letters A to Z. -/
def equalsIgnoringCase (a b : String) : Bool :=
  a.data.map Char.toLower == b.data.map Char.toLower

/-- A clear group whose `id.name` is a string equal to `clear all` up to letter case. -/
def isClearAll (group : JSValue) : Bool :=
  match (group.get "id").get "name" with
  | .str s => equalsIgnoringCase s "clear all"
  | _ => false

/-- A list element the loop of `fetchClearGroups` passes over without raising: neither
`null` nor `undefined`, with `id.name` a string or a falsy value. -/
def wellFormedClearGroup (group : JSValue) : Bool :=
  !group.isNullish &&
    match (group.get "id").get "name" with
    | .str _ => true
    | other => !other.truthy

/-- A clear group `{id: {uuid, name}}`. -/
def clearGroup (uuid name : String) : JSValue :=
  .obj [("id", .obj [("uuid", .str uuid), ("name", .str name)])]

/-! ## Stream reader -/

/-- The buffer of the read loop of `startStatusStream` together with what the line
callback acts on. -/
structure StreamReader (σ : Type) where
  buffer : String
  state : σ

/-- The test `!line.trim()`. -/
def isBlankLine (line : String) : Bool := line.data.all JSValue.isSpace

/-- The loop `lines.forEach` of `read`: `onLine` is the body guarded by `line.trim()`. -/
def forEachLine {σ : Type} (onLine : σ → String → σ) (s : σ) (lines : List String) : σ :=
  lines.foldl (fun acc line => if isBlankLine line then acc else onLine acc line) s

/-- Source: one turn of `read` with a chunk: append the decoded text to the buffer,
split on the newline, keep the last fragment, run the callback on the other lines. -/
def readChunk {σ : Type} (onLine : σ → String → σ) (r : StreamReader σ) (chunk : String) :
    StreamReader σ :=
  let buffer := r.buffer ++ chunk
  let lines := split buffer '\n'
  { buffer := lastPart lines, state := forEachLine onLine r.state lines.dropLast }

/-- Source: the turns of `read` on the chunks received before the stream ends. -/
def readLoop {σ : Type} (onLine : σ → String → σ) (r : StreamReader σ) (chunks : List String) :
    StreamReader σ :=
  chunks.foldl (readChunk onLine) r

/-- The text of the stream: the chunks in the order received. -/
def streamText (chunks : List String) : String := chunks.foldr (fun c rest => c ++ rest) ""

/-- The complete lines of a text: the pieces that a newline terminates. -/
def completeLines (text : String) : List String := (split text '\n').dropLast

/-- Source: the `try` block of the line callback: parse the line, hand the update to
the router; an exception of either is caught and logged.  `parse` stands for
`JSON.parse`, `none` when it raises. -/
def dispatchLine {σ : Type} (parse : String → Option JSValue) (route : σ → JSValue → σ)
    (s : σ) (line : String) : σ :=
  match parse line with
  | some update => route s update
  | none => s

/-- The line callback of the bridge: the router is `handleStatusUpdate`. -/
def streamLine (parse : String → Option JSValue) (rgbHex : JSValue → String)
    (st : BridgeState) (line : String) : BridgeState :=
  dispatchLine parse (fun acc update => (handleStatusUpdate rgbHex acc update).1) st line

/-! ## Reading slide groups -/

/-- The slides of a backend group: the array under `slides`, none when it is absent. -/
def backendSlides (group : JSValue) : List JSValue :=
  match group.get "slides" with
  | .arr items => items
  | _ => []

/-- A backend group the transcoders walk through without raising: an object-like value
whose `slides` is absent (falsy) or an array of values that are neither `null` nor
`undefined`. -/
def wellFormedGroup (group : JSValue) : Bool :=
  !group.isNullish &&
    match group.get "slides" with
    | .arr items => items.all (fun slide => !slide.isNullish)
    | other => !other.truthy

/-- The slides of an emitted group, the array under `groupSlides`. -/
def emittedSlides (group : JSValue) : List JSValue :=
  match group.get "groupSlides" with
  | .arr items => items
  | _ => []

/-- The values of one field over all slides of the emitted groups, in group order. -/
def slideFields (key : String) (groups : List JSValue) : List JSValue :=
  (groups.map (fun group => (emittedSlides group).map (fun slide => slide.get key))).flatten

/-- Total number of slides of a list of backend groups. -/
def slideTotal (groups : List JSValue) : Nat :=
  (groups.map (fun group => (backendSlides group).length)).sum

/-! ## Library, playlist and audio-list transcoders

These three handlers issue supplementary fetches.  Each such fetch enters the
definitions through its outcome, a `FetchOutcome` supplied as a parameter; the record
`requests` keeps the requests of the executor only. -/

/-- The message `libraryRequest`. -/
def libraryMessage (paths : List String) : JSValue :=
  .obj [ ("action", .str "libraryRequest"), ("library", .arr (paths.map .str)) ]

/-- The callback of `items.forEach` in `handleLibraryRequest`: the path pushed for one
item. -/
def libraryItemPath (libraryName : JSValue) (item : JSValue) : Except JSError String := do
  let name ← item.prop "name"
  let uuid ← item.prop "uuid"
  pure (fakePath libraryName.toStr (name.orElse (.str "Presentation")).toStr
    (uuid.orElse (.str "")).toStr)

/-- The loop `items.forEach` of `handleLibraryRequest`, pushing onto `libraryPaths`; an
exception ends the loop and what was pushed before it stays. -/
def pushLibraryItems (libraryName : JSValue) :
    List JSValue → List String → List String × Option JSError
  | [], paths => (paths, none)
  | item :: rest, paths =>
    match libraryItemPath libraryName item with
    | .ok path => pushLibraryItems libraryName rest (paths ++ [path])
    | .error err => (paths, some err)

/-- The callbacks chained on one contents fetch of `handleLibraryRequest`: what they
leave in `libraryPaths`.  A rejection and an exception both end in the `catch` of that
fetch, which logs. -/
def libraryContents (libraryName : JSValue) (outcome : FetchOutcome) (paths : List String) :
    List String :=
  match outcome with
  | .ok (some libraryData) =>
    match libraryData.prop "items" with
    | .error _ => paths
    | .ok items =>
      match items.orElse (.arr []) with
      | .arr xs => (pushLibraryItems libraryName xs paths).1
      | _ => paths
  | _ => paths

/-- One contents fetch issued by the loop over the libraries. -/
structure LibraryFetch where
  libraryId : JSValue
  libraryName : JSValue

/-- The loop `librariesData.forEach`: the contents fetches it issues, in order.  Reading
`uuid` on a `null` element raises and ends the loop. -/
def collectLibraries : List JSValue → List LibraryFetch → List LibraryFetch × Option JSError
  | [], acc => (acc, none)
  | library :: rest, acc =>
    match library.prop "uuid" with
    | .error err => (acc, some err)
    | .ok uuid =>
      let libraryId := uuid.orElse (.str "")
      let libraryName := (library.get "name").orElse (.str "")
      if libraryId.truthy then
        collectLibraries rest (acc ++ [{ libraryId := libraryId, libraryName := libraryName }])
      else collectLibraries rest acc

/-- The contents callbacks run in the order in which the fetches settle: `completion`
lists the positions of the issued fetches in that order, `contents i` is the outcome of
the fetch at position `i`.  The result is `libraryPaths` when `Promise.all` resolves. -/
def gatherLibraries (fetches : List LibraryFetch) (contents : Nat → FetchOutcome)
    (completion : List Nat) : List String :=
  completion.foldl
    (fun paths i =>
      match fetches.get? i with
      | some f => libraryContents f.libraryName (contents i) paths
      | none => paths)
    []

/-- Source: `handleLibraryRequest`.  `libraries` is the outcome of the fetch of the
library list.  An exception of the loop over the libraries rejects the chain, and the
outer `catch` sends the empty library. -/
def handleLibraryRequest (st : BridgeState) (libraries : FetchOutcome)
    (contents : Nat → FetchOutcome) (completion : List Nat) : BridgeState :=
  match libraries with
  | .ok (some librariesData) =>
    match librariesData with
    | .arr items =>
      match collectLibraries items [] with
      | (fetches, none) =>
        simulateMessage st (libraryMessage (gatherLibraries fetches contents completion))
      | (_, some _) => simulateMessage st (libraryMessage [])
    | _ => simulateMessage st (libraryMessage [])
  | _ => simulateMessage st (libraryMessage [])

/-- The item pushed onto `playlistItems` for an item of a top-level playlist (lines
956 to 981). -/
def playlistItem (item : JSValue) : Except JSError JSValue := do
  let type ← item.prop "type"
  let itemType := type.orElse (.str "presentation")
  let mappedType :=
    if itemType.strictEq (.str "header") then "playlistItemTypeHeader"
    else if itemType.strictEq (.str "placeholder") then "playlistItemTypePlaceholder"
    else if itemType.strictEq (.str "video") then "playlistItemTypeVideo"
    else if itemType.strictEq (.str "audio") then "playlistItemTypeAudio"
    else "playlistItemTypePresentation"
  let id := item.get "id"
  let itemUuid := if id.truthy then id.get "uuid" else .str ""
  let info := item.get "presentation_info"
  let presentationUuid :=
    if info.truthy && (info.get "presentation_uuid").truthy then info.get "presentation_uuid"
    else .str ""
  let itemName := if id.truthy then id.get "name" else (item.get "name").orElse (.str "")
  pure (.obj
    [ ("playlistItemType", .str mappedType),
      ("playlistItemLocation", itemUuid),
      ("playlistItemName", itemName),
      ("playlistItemThumbnail", .str ""),
      ("presentationUUID", presentationUuid) ])

/-- The item pushed onto `playlistItems` for an item of a playlist nested in a group
(lines 880 to 904). -/
def nestedPlaylistItem (item : JSValue) : Except JSError JSValue := do
  let type ← item.prop "type"
  let itemType := type.orElse (.str "presentation")
  let mappedType :=
    if itemType.strictEq (.str "header") then "playlistItemTypeHeader"
    else if itemType.strictEq (.str "placeholder") then "playlistItemTypePlaceholder"
    else if itemType.strictEq (.str "video") then "playlistItemTypeVideo"
    else if itemType.strictEq (.str "audio") then "playlistItemTypeAudio"
    else "playlistItemTypePresentation"
  let id := item.get "id"
  let itemUuid := if id.truthy then id.get "uuid" else .str ""
  let info := item.get "presentation_info"
  let presentationUuid :=
    if info.truthy && (info.get "presentation_uuid").truthy then info.get "presentation_uuid"
    else .str ""
  let itemName := if id.truthy then id.get "name" else (item.get "name").orElse (.str "")
  pure (.obj
    [ ("playlistItemType", .str mappedType),
      ("playlistItemLocation", itemUuid),
      ("playlistItemName", itemName),
      ("playlistItemThumbnail", .str ""),
      ("presentationUUID", presentationUuid) ])

/-- A loop `items.forEach` that pushes one transcoded entry per item. -/
def transcodeItems (transcode : JSValue → Except JSError JSValue) :
    List JSValue → Except JSError (List JSValue)
  | [] => pure []
  | item :: rest => do
    let x ← transcode item
    let xs ← transcodeItems transcode rest
    pure (x :: xs)

/-- The start of the callback `.then(playlistData => ...)`: the list `playlistItems`. -/
def playlistContents (transcode : JSValue → Except JSError JSValue) (playlistData : JSValue) :
    Except JSError (List JSValue) := do
  let items ← playlistData.prop "items"
  match items.orElse (.arr []) with
  | .arr xs => transcodeItems transcode xs
  | _ => pure []

/-- A node `{playlistLocation, playlistName, playlistType, playlist}`. -/
def playlistNode (location name : JSValue) (type : String) (playlist : List JSValue) : JSValue :=
  .obj
    [ ("playlistLocation", location),
      ("playlistName", name),
      ("playlistType", .str type),
      ("playlist", .arr playlist) ]

/-- What the promise of a nested playlist resolves to: its node, or `null` from the
`catch` callback. -/
def nestedPlaylist (childId childName : JSValue) (outcome : FetchOutcome) : JSValue :=
  match outcome with
  | .ok (some playlistData) =>
    match playlistContents nestedPlaylistItem playlistData with
    | .ok items => playlistNode childId childName "playlistTypePlaylist" items
    | .error _ => .null
  | _ => .null

/-- The variable `childType`, and `playlistType` at the top level. -/
def playlistKind (playlist : JSValue) : JSValue :=
  ((playlist.get "field_type").orElse (playlist.get "type")).orElse (.str "playlist")

/-- The loop `playlist.children.forEach`: what the promises of `childPromises` resolve
to, in order.  `outcome j` is the outcome of the fetch issued for the child at
position `j`. -/
def childPromises (outcome : Nat → FetchOutcome) : List JSValue → Nat →
    Except JSError (List JSValue)
  | [], _ => pure []
  | child :: rest, j => do
    let id ← child.prop "id"
    let childId := if id.truthy then id.get "uuid" else .str ""
    let childName := if id.truthy then id.get "name" else .str ""
    let childType := playlistKind child
    let others ← childPromises outcome rest (j + 1)
    if childId.truthy && childType.strictEq (.str "playlist") then
      pure (nestedPlaylist childId childName (outcome j) :: others)
    else pure others

/-- What `folderPromise` resolves to. -/
def folderNode (playlistId playlistName : JSValue) (children : List JSValue) : JSValue :=
  playlistNode playlistId playlistName "playlistTypeGroup"
    (children.filter (fun c => !(c.strictEq .null)))

/-- What the promise of a top-level playlist resolves to: its node, with an empty item
list from the `catch` callback. -/
def topPlaylist (playlistId playlistName playlistType : JSValue) (outcome : FetchOutcome) :
    JSValue :=
  let type :=
    if playlistType.strictEq (.str "group") then "playlistTypeGroup" else "playlistTypePlaylist"
  match outcome with
  | .ok (some playlistData) =>
    match playlistContents playlistItem playlistData with
    | .ok items => playlistNode playlistId playlistName type items
    | .error _ => playlistNode playlistId playlistName type []
  | _ => playlistNode playlistId playlistName type []

/-- The callback of `data.forEach` in `handlePlaylistRequest`: what the promise it
pushes onto `fetchPromises` resolves to, `none` when it pushes none.  `outcome none` is
the outcome of the fetch of the playlist itself, `outcome (some j)` of the fetch for
its child at position `j`. -/
def playlistPromise (outcome : Option Nat → FetchOutcome) (playlist : JSValue) :
    Except JSError (Option JSValue) := do
  let id ← playlist.prop "id"
  let playlistId := if id.truthy then id.get "uuid" else (playlist.get "uuid").orElse (.str "")
  let playlistName := if id.truthy then id.get "name" else (playlist.get "name").orElse (.str "")
  let playlistType := playlistKind playlist
  if playlistType.strictEq (.str "group") then
    match playlist.get "children" with
    | .arr children => do
      let promises ← childPromises (fun j => outcome (some j)) children 0
      pure (some (folderNode playlistId playlistName promises))
    | _ => pure (some (folderNode playlistId playlistName []))
  else if playlistId.truthy && playlistType.strictEq (.str "playlist") then
    pure (some (topPlaylist playlistId playlistName playlistType (outcome none)))
  else pure none

/-- The loop `data.forEach` of `handlePlaylistRequest`: what the promises of
`fetchPromises` resolve to, in order.  `outcome i` holds the outcomes of the fetches
issued for the entry at position `i`. -/
def playlistPromises (outcome : Nat → Option Nat → FetchOutcome) : List JSValue → Nat →
    Except JSError (List JSValue)
  | [], _ => pure []
  | playlist :: rest, i => do
    let promise ← playlistPromise (outcome i) playlist
    let others ← playlistPromises outcome rest (i + 1)
    match promise with
    | some node => pure (node :: others)
    | none => pure others

/-- The message `playlistRequestAll`. -/
def playlistAllMessage (playlists : List JSValue) : JSValue :=
  .obj [ ("action", .str "playlistRequestAll"), ("playlistAll", .arr playlists) ]

/-- Source: `handlePlaylistRequest`.  The loop runs inside the handler, so an exception
of the loop is raised by the handler and no message is sent. -/
def handlePlaylistRequest (st : BridgeState) (data : JSValue)
    (outcome : Nat → Option Nat → FetchOutcome) : Except JSError BridgeState := do
  let fetched ←
    match data with
    | .arr items => playlistPromises outcome items 0
    | _ => pure []
  let allPlaylists := fetched.filter (fun p => !(p.strictEq .null))
  pure (simulateMessage st (playlistAllMessage allPlaylists))

/-- The callback of `playlistDetails.items.forEach` in `handleAudioRequest`. -/
def audioItem (playlistUuid : JSValue) (item : JSValue) : Except JSError JSValue := do
  let id ← item.prop "id"
  pure (.obj
    [ ("playlistItemLocation",
        .str (playlistUuid.toStr ++ ":" ++ (if id.truthy then id.get "uuid" else .str "").toStr)),
      ("playlistItemName", if id.truthy then id.get "name" else .str ""),
      ("playlistItemType", (item.get "type").orElse (.str "audio")) ])

/-- The list `items` of the callback on the details of an audio playlist. -/
def audioItems (playlistUuid : JSValue) (playlistDetails : JSValue) :
    Except JSError (List JSValue) := do
  let items ← playlistDetails.prop "items"
  match items with
  | .arr xs => transcodeItems (audioItem playlistUuid) xs
  | _ => pure []

/-- One details fetch issued by the loop of `handleAudioRequest`, with the variables
its callbacks close over. -/
structure AudioFetch where
  playlistUuid : JSValue
  playlistName : JSValue
  playlistIndex : JSValue

/-- The entry the callback on the details pushes onto `audioPlaylists`. -/
def audioEntry (f : AudioFetch) (playlistDetails : JSValue) : Except JSError JSValue := do
  let items ← audioItems f.playlistUuid playlistDetails
  pure (.obj
    [ ("playlistLocation", f.playlistUuid),
      ("playlistName", f.playlistName),
      ("playlistType", .str "playlistTypePlaylist"),
      ("playlist", .arr items),
      ("playlistIndex", f.playlistIndex) ])

/-- The loop `data.forEach` of `handleAudioRequest`: the details fetches it issues, in
order.  Reading `id` on a `null` element raises. -/
def collectAudio : List JSValue → Except JSError (List AudioFetch)
  | [] => pure []
  | playlist :: rest => do
    let id ← playlist.prop "id"
    let playlistUuid := if id.truthy then id.get "uuid" else .null
    let playlistName := if id.truthy then id.get "name" else .str ""
    let playlistIndex := if id.truthy then id.get "index" else .num 0
    let others ← collectAudio rest
    if !playlistUuid.truthy then pure others
    else
      pure ({ playlistUuid := playlistUuid, playlistName := playlistName,
              playlistIndex := playlistIndex } :: others)

/-- The callbacks chained on one details fetch: what they leave in `audioPlaylists`. -/
def audioSettled (f : AudioFetch) (outcome : FetchOutcome) (audioPlaylists : List JSValue) :
    List JSValue :=
  match outcome with
  | .ok (some playlistDetails) =>
    match audioEntry f playlistDetails with
    | .ok entry => audioPlaylists ++ [entry]
    | .error _ => audioPlaylists
  | _ => audioPlaylists

/-- The details callbacks run in the order in which the fetches settle: `completion`
lists the positions of the issued fetches in that order, `details i` is the outcome of
the fetch at position `i`.  The result is `audioPlaylists` when `Promise.all` resolves. -/
def gatherAudio (fetches : List AudioFetch) (details : Nat → FetchOutcome)
    (completion : List Nat) : List JSValue :=
  completion.foldl
    (fun acc i =>
      match fetches.get? i with
      | some f => audioSettled f (details i) acc
      | none => acc)
    []

/-- The comparator `(a, b) => a.playlistIndex - b.playlistIndex`; `none` stands for
NaN. -/
def compareIndex (a b : JSValue) : Option Int :=
  match (a.get "playlistIndex").toNumber, (b.get "playlistIndex").toNumber with
  | some x, some y => some (x - y)
  | _, _ => none

/-- The comparator does not ask for `a` after `b`: its result is not positive, NaN
counting as 0. -/
def notAfter (a b : JSValue) : Bool :=
  match compareIndex a b with
  | some d => decide (d ≤ 0)
  | none => true

/-- The call `audioPlaylists.sort(comparator)`.  The method is a stable sort; on a
comparator that is consistent on the entries every such sort gives the list computed
here by insertion.  On other comparators the language leaves the order to the
implementation. -/
def sortByIndex (entries : List JSValue) : List JSValue :=
  entries.insertionSort (fun a b => notAfter a b = true)

/-- The message `audioRequest`. -/
def audioRequestMessage (playlists : List JSValue) : JSValue :=
  .obj [ ("action", .str "audioRequest"), ("audioPlaylist", .arr playlists) ]

/-- Source: `handleAudioRequest`.  The loop over the playlists runs inside the handler,
so an exception of the loop is raised by the handler and no message is sent. -/
def handleAudioRequest (st : BridgeState) (data : JSValue) (details : Nat → FetchOutcome)
    (completion : List Nat) : Except JSError BridgeState :=
  match data with
  | .arr items => do
    let fetches ← collectAudio items
    pure (simulateMessage st
      (audioRequestMessage (sortByIndex (gatherAudio fetches details completion))))
  | _ => pure (simulateMessage st (audioRequestMessage []))

/-! ## Reading responses of the supplementary fetches -/

/-- The array under `items` of a response body, empty when there is none. -/
def bodyItems (body : JSValue) : List JSValue :=
  match body.get "items" with
  | .arr xs => xs
  | _ => []

/-- A response body the callbacks walk through without raising: neither `null` nor
`undefined`, with `items` falsy or an array of values that are neither. -/
def wellFormedBody (body : JSValue) : Bool :=
  !body.isNullish &&
    match body.get "items" with
    | .arr xs => xs.all (fun item => !item.isNullish)
    | other => !other.truthy

/-- A fetch that yields a response body. -/
def FetchOutcome.succeeded : FetchOutcome → Bool
  | .ok (some _) => true
  | _ => false

/-- The enumeration of playlist item types, read off a `type` field: the four named
types, and `playlistItemTypePresentation` for any other string and for a field that
is missing or not a string. -/
def itemTypeName (type : JSValue) : String :=
  match type with
  | .str s =>
    if s = "header" then "playlistItemTypeHeader"
    else if s = "placeholder" then "playlistItemTypePlaceholder"
    else if s = "video" then "playlistItemTypeVideo"
    else if s = "audio" then "playlistItemTypeAudio"
    else "playlistItemTypePresentation"
  | _ => "playlistItemTypePresentation"

/-- An entry of the playlist list the loops of `handlePlaylistRequest` walk through
without raising: neither `null` nor `undefined`, and so are its children when
`children` is an array. -/
def wellFormedEntry (playlist : JSValue) : Bool :=
  !playlist.isNullish &&
    match playlist.get "children" with
    | .arr children => children.all (fun child => !child.isNullish)
    | _ => true

/-- A child of a group that is a playlist with an id. -/
def isChildPlaylist (child : JSValue) : Bool :=
  ((child.get "id").get "uuid").truthy && (playlistKind child).strictEq (.str "playlist")

/-- The audio playlists of a list that have a UUID, in list order. -/
def playlistsWithUuid (items : List JSValue) : List JSValue :=
  items.filter (fun playlist => ((playlist.get "id").get "uuid").truthy)

/-- The UUID and the index the backend gives for an audio playlist. -/
def backendKey (playlist : JSValue) : JSValue × JSValue :=
  ((playlist.get "id").get "uuid", (playlist.get "id").get "index")

/-- The UUID and the index an emitted audio playlist carries. -/
def entryKey (entry : JSValue) : JSValue × JSValue :=
  (entry.get "playlistLocation", entry.get "playlistIndex")

/-- The index of an emitted audio playlist as a number; `none` stands for NaN. -/
def entryIndex (entry : JSValue) : Option Int := (entry.get "playlistIndex").toNumber

/-- Two emitted audio playlists in non-decreasing order of their numeric indices. -/
def indexOrdered (a b : JSValue) : Prop :=
  ∃ x y : Int, entryIndex a = some x ∧ entryIndex b = some y ∧ x ≤ y

/-- The libraries of a list that have a UUID, in list order. -/
def librariesWithUuid (items : List JSValue) : List JSValue :=
  items.filter (fun library => (library.get "uuid").truthy)

/-- The composite path of an item of a library. -/
def compositePath (library item : JSValue) : String :=
  fakePath ((library.get "name").orElse (.str "")).toStr
    ((item.get "name").orElse (.str "Presentation")).toStr
    ((item.get "uuid").orElse (.str "")).toStr

/-- The paths a library stands for: one per item when its contents arrived, none
otherwise. -/
def expectedLibraryPaths (library : JSValue) (outcome : FetchOutcome) : List String :=
  match outcome with
  | .ok (some body) => (bodyItems body).map (compositePath library)
  | _ => []

/-- The paths of all libraries with a UUID, in list order; `contents i` is the outcome
for the library at position `i` among them. -/
def expectedLibrary (items : List JSValue) (contents : Nat → FetchOutcome) : List String :=
  (List.range (librariesWithUuid items).length).flatMap
    (fun i => expectedLibraryPaths ((librariesWithUuid items).getD i .undefined) (contents i))

/-! ## Topics of the status stream -/

/-- Source: the list `endpointsToMonitor` of `startStatusStream`. -/
def endpointsToMonitor : List String :=
  [ "presentation/slide_index", "announcement/slide_index", "presentation/active",
    "presentation/focused", "announcement/active", "status/layers",
    "transport/audio/current", "timer/system_time" ]

/-- The topics for which `handleStatusUpdate` has a branch that acts. -/
def handledTopics : List String :=
  [ "presentation/slide_index", "announcement/slide_index", "presentation/active",
    "presentation/focused", "announcement/active", "status/layers",
    "transport/audio/current" ]

/-- The topics whose branch of `handleStatusUpdate` starts by reading a property of
`data`. -/
def payloadReadingTopics : List String :=
  [ "presentation/slide_index", "announcement/slide_index", "presentation/active",
    "presentation/focused", "announcement/active", "status/layers" ]

/-! ## Calls of the response handler -/

/-- The number of calls of `endpoint.handler` made by the callbacks of
`executeOpenAPIRequest` on an outcome of the fetch: the `then` callback calls it when
a handler is set; the `catch` callback, which also receives what the `then` callback
raises, calls it for a `presentationRequest` when a handler is set. -/
def handlerCalls (ext : Handler → HandlerFn) (e : Endpoint) (originalCmd : Command)
    (outcome : FetchOutcome) (st : BridgeState) : Nat :=
  let inThen := if e.handler.isSome then 1 else 0
  let inCatch :=
    if originalCmd.action = "presentationRequest" ∧ e.handler.isSome then 1 else 0
  match outcome with
  | .ok body =>
    match onFulfilled ext e originalCmd (body.getD .null) st with
    | (_, none) => inThen
    | (_, some _) => inThen + inCatch
  | .httpError _ => inCatch
  | .networkError => inCatch

/-! ## Clock transcoder -/

/-- The field `clockType` computed by the callback of `handleClockRequest`. -/
def clockTypeOf (timer : JSValue) : String :=
  if (timer.get "type").strictEq (.str "countdown") then "0"
  else if (timer.get "type").strictEq (.str "countdown_to_time") then "1"
  else "2"

/-- The callback of `data.forEach` in `handleClockRequest`: the object `clockObj`. -/
def clockObj (timer : JSValue) (index : Nat) : Except JSError JSValue := do
  let name ← timer.prop "name"
  let id := timer.get "id"
  pure (.obj
    [ ("clockName", name.orElse (.str ("Timer " ++ toString index))),
      ("clockDuration", (timer.get "duration").orElse (.str "00:00:00")),
      ("clockEndTime", (timer.get "end_time").orElse (.str "")),
      ("clockTime", (timer.get "current_time").orElse (.str "00:00:00")),
      ("clockFormat", .obj [("clockTimePeriodFormat", .num 0)]),
      ("clockIsPM", .bool false),
      ("clockOverrun", (timer.get "allows_overrun").orElse (.bool false)),
      ("clockIndex", if id.truthy then (id.get "uuid").orElse id else .str (toString index)),
      ("clockType", .str (clockTypeOf timer)),
      ("clockState", .bool (timer.get "is_running").truthy) ])

/-- The loop `data.forEach` of `handleClockRequest`, with the position `index`. -/
def clockObjs : List JSValue → Nat → Except JSError (List JSValue)
  | [], _ => pure []
  | timer :: rest, index => do
    let clock ← clockObj timer index
    let clocks ← clockObjs rest (index + 1)
    pure (clock :: clocks)

/-- The message `clockRequest`. -/
def clockRequestMessage (clocks : List JSValue) : JSValue :=
  .obj [ ("action", .str "clockRequest"), ("clockInfo", .arr clocks) ]

/-- Source: `handleClockRequest`. -/
def handleClockRequest (st : BridgeState) (data : JSValue) : Except JSError BridgeState :=
  match data with
  | .arr timers => do
    let clocks ← clockObjs timers 0
    pure (simulateMessage st (clockRequestMessage clocks))
  | _ => pure (simulateMessage st (clockRequestMessage []))

/-! ## The other response handlers -/

/-- The expression `x ? (x.uuid || x) : fallback` on an `id` field. -/
def uuidOr (id fallback : JSValue) : JSValue :=
  if id.truthy then (id.get "uuid").orElse id else fallback

/-- Source: `handleAudioPlayPause`.  The payload only selects the address of the first
fetch (`/pause` when `data.is_playing` is truthy, `/play` otherwise).  `toggled`: that
fetch is fulfilled (with any status); `updated`: the body of the fetch of the current
state that follows, `none` when that fetch or its `json()` rejects. -/
def handleAudioPlayPause (st : BridgeState) (toggled : Bool) (updated : Option JSValue) :
    BridgeState :=
  if toggled then
    match updated with
    | some state => handleAudioPlaying st state
    | none => st
  else st

/-- The inner callback of `handlePresentationCurrent`: one slide. -/
def currentSlide (slide : JSValue) : Except JSError JSValue := do
  let enabled ← slide.prop "enabled"
  pure (.obj
    [ ("slideEnabled", .bool (!(enabled.strictEq (.bool false)))),
      ("slideNotes", (slide.get "notes").orElse (.str "")),
      ("slideText", (slide.get "text").orElse (.str "")),
      ("slideImage", (slide.get "thumbnail_url").orElse (.str "")),
      ("slideIndex", (slide.get "index").orElse (.num 0)) ])

/-- The outer callback of `handlePresentationCurrent`: one group. -/
def currentGroup (group : JSValue) : Except JSError JSValue := do
  let name ← group.prop "name"
  let slides ←
    match group.get "slides" with
    | .arr xs => transcodeItems currentSlide xs
    | _ => pure []
  pure (.obj
    [ ("groupName", name.orElse (.str "")),
      ("groupColor", (group.get "color").orElse (.str "")),
      ("groupSlides", .arr slides) ])

/-- Source: `handlePresentationCurrent`. -/
def handlePresentationCurrent (st : BridgeState) (data : JSValue) : Except JSError BridgeState :=
  if !data.truthy || !(data.get "presentation").truthy then pure st
  else do
    let pres := data.get "presentation"
    let groups ←
      match pres.get "groups" with
      | .arr gs => transcodeItems currentGroup gs
      | _ => pure []
    pure (simulateMessage st
      (.obj
        [ ("action", .str "presentationCurrent"),
          ("presentation", .obj
            [ ("presentationName", (pres.get "name").orElse (.str "")),
              ("presentationPath", uuidOr (pres.get "id") (.str "")),
              ("presentationSlideGroups", .arr groups) ]) ]))

/-- The method call `v.toString()` on a value that is neither `null` nor `undefined`.
An object parsed from JSON that holds `toString` among its own properties has no callable
method under that name. -/
def callToString (v : JSValue) : Except JSError String :=
  match v with
  | .obj fields =>
    if "toString" ∈ fields.map Prod.fst then .error (.typeError "toString is not a function")
    else .ok "[object Object]"
  | other => .ok other.toStr

/-- Source: `handleSlideIndex`. -/
def handleSlideIndex (st : BridgeState) (data : JSValue) : Except JSError BridgeState :=
  if data.truthy && (data.get "presentation_index").isDefined then do
    let index ← (data.get "presentation_index").prop "index"
    let text ← callToString (index.orElse (.num 0))
    pure (simulateMessage st
      (.obj [ ("action", .str "presentationSlideIndex"), ("slideIndex", .str text) ]))
  else pure st

/-- Source: `handlePresentationTrigger`. -/
def handlePresentationTrigger (st : BridgeState) (originalCmd : Command) : BridgeState :=
  simulateMessage st
    (.obj
      [ ("action", .str "presentationTriggerIndex"),
        ("slideIndex", originalCmd.slideIndex.orElse (.str "0")),
        ("presentationPath", .str (orStr originalCmd.presentationPath "")),
        ("presentationDestination", originalCmd.presentationDestination.orElse (.num 0)) ])

/-- The callback of `data.forEach` in `handleClockCurrentTime`. -/
def clockTime (timer : JSValue) : Except JSError JSValue := do
  let time ← timer.prop "time"
  pure (.obj
    [ ("clockTime", time.orElse (.str "00:00:00")),
      ("clockIndex", uuidOr (timer.get "id") (.str "0")) ])

/-- Source: `handleClockCurrentTime`. -/
def handleClockCurrentTime (st : BridgeState) (data : JSValue) : Except JSError BridgeState :=
  match data with
  | .arr timers => do
    let times ← transcodeItems clockTime timers
    pure (simulateMessage st
      (.obj [ ("action", .str "clockCurrentTimes"), ("clockTimes", .arr times) ]))
  | _ => pure st

/-- The callback of `data.forEach` in `handleMessageRequest`. -/
def messageObj (msg : JSValue) (index : Nat) : Except JSError JSValue := do
  let id ← msg.prop "id"
  pure (.obj
    [ ("messageIndex", uuidOr id (.str (toString index))),
      ("messageName", (msg.get "name").orElse (.str "")),
      ("messageComponents", (msg.get "tokens").orElse (.arr [])) ])

/-- The loop `data.forEach` of `handleMessageRequest`. -/
def messageObjs : List JSValue → Nat → Except JSError (List JSValue)
  | [], _ => pure []
  | msg :: rest, index => do
    let x ← messageObj msg index
    let xs ← messageObjs rest (index + 1)
    pure (x :: xs)

/-- The message `messageRequest`. -/
def messageRequestMessage (messages : List JSValue) : JSValue :=
  .obj [ ("action", .str "messageRequest"), ("messages", .arr messages) ]

/-- Source: `handleMessageRequest`. -/
def handleMessageRequest (st : BridgeState) (data : JSValue) : Except JSError BridgeState :=
  match data with
  | .arr msgs => do
    let messages ← messageObjs msgs 0
    pure (simulateMessage st (messageRequestMessage messages))
  | _ => pure (simulateMessage st (messageRequestMessage []))

/-- The callback of `data.forEach` in `handleStageDisplaySets`. -/
def stageScreen (screen : JSValue) : Except JSError JSValue := do
  let id ← screen.prop "id"
  pure (.obj
    [ ("stageScreenUUID", uuidOr id (.str "")),
      ("stageScreenName", (screen.get "name").orElse (.str "")),
      ("stageLayoutSelectedLayoutUUID", uuidOr (screen.get "layout_id") (.str "")) ])

/-- The callback of `layouts.forEach` in `handleStageDisplaySets`. -/
def stageLayout (layout : JSValue) : Except JSError JSValue := do
  let id ← layout.prop "id"
  pure (.obj
    [ ("stageLayoutUUID", uuidOr id (.str "")),
      ("stageLayoutName", (layout.get "name").orElse (.str "")) ])

/-- The message `stageDisplaySets`. -/
def stageMessage (screens layouts : List JSValue) : JSValue :=
  .obj
    [ ("action", .str "stageDisplaySets"),
      ("stageScreens", .arr screens),
      ("stageLayouts", .arr layouts) ]

/-- The promise chain on the fetch of `/v1/stage/layouts` in `handleStageDisplaySets`.
`layouts` is the body, `none` when the fetch or its `json()` rejects; the `catch` also
takes what the `then` callback raises, and sends the message without layouts. -/
def stageSend (st : BridgeState) (screens : List JSValue) (layouts : Option JSValue) :
    BridgeState :=
  match layouts with
  | some (.arr ls) =>
    match transcodeItems stageLayout ls with
    | .ok layoutList => simulateMessage st (stageMessage screens layoutList)
    | .error _ => simulateMessage st (stageMessage screens [])
  | _ => simulateMessage st (stageMessage screens [])

/-- Source: `handleStageDisplaySets`. -/
def handleStageDisplaySets (st : BridgeState) (data : JSValue) (layouts : Option JSValue) :
    Except JSError BridgeState :=
  match data with
  | .arr xs => do
    let screens ← transcodeItems stageScreen xs
    pure (stageSend st screens layouts)
  | _ => pure (stageSend st [] layouts)

/-- The outcomes of the supplementary fetches the handlers issue. -/
structure SubFetches where
  libraries : FetchOutcome
  libraryContents : Nat → FetchOutcome
  libraryOrder : List Nat
  playlists : Nat → Option Nat → FetchOutcome
  audioDetails : Nat → FetchOutcome
  audioOrder : List Nat
  toggled : Bool
  audioState : Option JSValue
  layouts : Option JSValue

/-- A handler that may raise, as the executor sees it: the state is the one before the
call when it raises (the handlers raise before they send anything). -/
def asHandler (st : BridgeState) (r : Except JSError BridgeState) : BridgeState × Option JSError :=
  match r with
  | .ok st1 => (st1, none)
  | .error err => (st, some err)

/-- The table of the response handlers of the source, each run with the outcomes of its
supplementary fetches. -/
def sourceHandlers (env : SubFetches) : Handler → HandlerFn :=
  fun h data cmd st =>
    match h with
    | .handleLibraryRequest =>
      (handleLibraryRequest st env.libraries env.libraryContents env.libraryOrder, none)
    | .handlePlaylistRequest => asHandler st (handlePlaylistRequest st data env.playlists)
    | .handleAudioRequest =>
      asHandler st (handleAudioRequest st data env.audioDetails env.audioOrder)
    | .handleAudioCurrent => (handleAudioCurrent st data, none)
    | .handleAudioPlaying => (handleAudioPlaying st data, none)
    | .handleAudioPlayPause => (handleAudioPlayPause st env.toggled env.audioState, none)
    | .handlePresentationRequest => asHandler st (handlePresentationRequest st data cmd)
    | .handlePresentationCurrent => asHandler st (handlePresentationCurrent st data)
    | .handleSlideIndex => asHandler st (handleSlideIndex st data)
    | .handlePresentationTrigger => (handlePresentationTrigger st cmd, none)
    | .handleClockRequest => asHandler st (handleClockRequest st data)
    | .handleClockCurrentTime => asHandler st (handleClockCurrentTime st data)
    | .handleMessageRequest => asHandler st (handleMessageRequest st data)
    | .handleStageDisplaySets => asHandler st (handleStageDisplaySets st data env.layouts)

/-! ## Concrete inputs used by the evaluations below -/

/-- A bridge with a registered consumer callback and nothing in flight. -/
def idleBridge : BridgeState := { baseURL := "http://pro:1025", onMessage := true }

/-- A bridge whose `clearAllGroupUUID` has been resolved to "u1". -/
def resolvedBridge : BridgeState := { idleBridge with clearAllGroupUUID := .str "u1" }

/-- The text of the command `libraryRequest`. -/
def libraryText : String := "\x7b\"action\":\"libraryRequest\"\x7d"

/-- Supplementary fetches that all fail. -/
def sampleFetches : SubFetches :=
  { libraries := .networkError, libraryContents := fun _ => .networkError, libraryOrder := [],
    playlists := fun _ _ => .httpError 500, audioDetails := fun _ => .httpError 500,
    audioOrder := [], toggled := false, audioState := none, layouts := none }

/-- A `JSON.parse` for three texts: the command `libraryRequest`, the text `null` (the
read of `cmd.action` raises) and anything else, taken as malformed. -/
def sampleParse (jsonString : String) : Except JSError Command :=
  if jsonString = libraryText then .ok { action := "libraryRequest" }
  else if jsonString = "null" then
    .error (.typeError "Cannot read properties of null (reading action)")
  else .error (.error "SyntaxError: Unexpected token")

/-- The command `{"action":"presentationRequest","presentationPath":"4f2a"}`. -/
def requestCommand : Command := { action := "presentationRequest", presentationPath := some "4f2a" }

/-- The descriptor `mapClassicToOpenAPI` gives for a presentation request. -/
def requestEndpoint (cmd : Command) : Endpoint :=
  { method := "GET", path := some (buildPresentationRequestPath cmd),
    handler := some .handlePresentationRequest }

/-- The response body `{"presentation":{"id":{"uuid":"4f2a"},"groups":[null]}}`. -/
def nullGroupBody : JSValue :=
  .obj [("presentation", .obj [("id", .obj [("uuid", .str "4f2a")]), ("groups", .arr [.null])])]

/-- The payload `{uuid, name, artist}` of the topic `transport/audio/current`. -/
def audioTrack (uuid name artist : String) : JSValue :=
  .obj [ ("uuid", .str uuid), ("name", .str name), ("artist", .str artist) ]

/-- The payload of `transport/audio/current` when nothing is loaded: every field null. -/
def noTrack : JSValue :=
  .obj [ ("uuid", .null), ("name", .null), ("artist", .null) ]

/-- A backend group with a name and `n` slides without fields. -/
def sampleGroup (name : String) (n : Nat) : JSValue :=
  .obj [ ("name", .str name), ("slides", .arr (List.replicate n (.obj []))) ]

/-- An announcement "a1" with two groups, of 2 and 3 slides. -/
def sampleAnnouncement : JSValue :=
  .obj
    [ ("id", .obj [ ("uuid", .str "a1"), ("name", .str "Notices") ]),
      ("groups", .arr [ sampleGroup "Welcome" 2, sampleGroup "News" 3 ]) ]

/-- A library list: "Hymns" with UUID "L1", "Drafts" without UUID, "Songs" with UUID
"L3". -/
def sampleLibraries : List JSValue :=
  [ .obj [("uuid", .str "L1"), ("name", .str "Hymns")],
    .obj [("name", .str "Drafts")],
    .obj [("uuid", .str "L3"), ("name", .str "Songs")] ]

/-- Outcomes of supplementary fetches: the one at position 0 yields a body with the one
item "Abide", every other one fails with status 500. -/
def sampleContents : Nat → FetchOutcome
  | 0 => .ok (some (.obj [("items", .arr [.obj [("uuid", .str "p1"), ("name", .str "Abide")]])]))
  | _ => .httpError 500

/-- A backend playlist entry `{id: {uuid, name}, field_type}`. -/
def playlistEntry (uuid name type : String) : JSValue :=
  .obj [ ("id", .obj [("uuid", .str uuid), ("name", .str name)]), ("field_type", .str type) ]

/-- A backend group entry `{id: {uuid, name}, field_type: "group", children}`. -/
def groupEntry (uuid name : String) (children : List JSValue) : JSValue :=
  .obj
    [ ("id", .obj [("uuid", .str uuid), ("name", .str name)]),
      ("field_type", .str "group"),
      ("children", .arr children) ]

/-- The group "Sunday" with the two child playlists "Morning" and "Evening". -/
def sampleFolder : JSValue :=
  groupEntry "g1" "Sunday"
    [ playlistEntry "c1" "Morning" "playlist", playlistEntry "c2" "Evening" "playlist" ]

/-- Outcomes for a playlist list: the fetch for the child at position 0 of any entry
yields a body without items, every other fetch fails with status 500. -/
def folderOutcomes : Nat → Option Nat → FetchOutcome
  | _, some 0 => .ok (some (.obj [("items", .arr [])]))
  | _, _ => .httpError 500

/-- The group "Sunday" whose only child is the group "Services", which holds the
playlist "Morning". -/
def nestedFolder : JSValue :=
  groupEntry "g1" "Sunday"
    [ groupEntry "g2" "Services" [ playlistEntry "c1" "Morning" "playlist" ] ]

/-- A backend audio playlist `{id: {uuid, name, index}}`. -/
def audioPlaylist (uuid name : String) (index : Int) : JSValue :=
  .obj [ ("id", .obj [("uuid", .str uuid), ("name", .str name), ("index", .num index)]) ]

/-- Three audio playlists: "Walk-in" with index 2, "Hymns" with index 1, and an entry
without id. -/
def sampleAudioList : List JSValue :=
  [ audioPlaylist "a1" "Walk-in" 2, audioPlaylist "a2" "Hymns" 1, .obj [] ]

/-- A streamed update `{url, data}`. -/
def statusUpdate (url : String) (data : JSValue) : JSValue :=
  .obj [ ("url", .str url), ("data", data) ]

/-- The payload of `presentation/active` for the presentation "4f2a". -/
def activePresentation : JSValue :=
  .obj [ ("presentation", .obj [ ("id", .obj [ ("uuid", .str "4f2a") ]) ]) ]

/-- The payload of `announcement/active` for the announcement "a1", without groups. -/
def activeAnnouncement : JSValue :=
  .obj [ ("announcement", .obj [ ("id", .obj [ ("uuid", .str "a1"), ("name", .str "Notices") ]) ]) ]

/-- The payload of `announcement/active` when no announcement is active. -/
def noAnnouncement : JSValue := .obj [ ("announcement", .null) ]

/-- A track payload with a name and a `null` UUID. -/
def namedTrackWithoutUuid : JSValue :=
  .obj [ ("uuid", .null), ("name", .str "Song"), ("artist", .str "X") ]

end ProWebRemote

/-! ## Property names -/

namespace ProWebRemote

/-- The names `Object.keys` lists are the own property names. -/
theorem mem_keys (fields : List (String × JSValue)) (name : String) :
    name ∈ (JSValue.obj fields).keys ↔ name ∈ fields.map Prod.fst := by
  unfold JSValue.keys
  rw [List.mem_append, (List.perm_insertionSort _ _).mem_iff, List.mem_filter, List.mem_filter]
  cases h : JSValue.isArrayIndex name <;> simp

/-- The order of `Object.keys`: array indices first, in ascending order. -/
theorem keys_order :
    (JSValue.obj [("b", .num 1), ("1", .num 2), ("a", .num 3), ("0", .num 4)]).keys
      = ["0", "1", "b", "a"] ∧
    (JSValue.obj [("10", .null), ("9", .null), ("01", .null), ("-1", .null)]).keys
      = ["9", "10", "01", "-1"] := by
  decide

end ProWebRemote

/-! ## Lemmas on strings -/

namespace ProWebRemote

theorem splitChars_ne_nil (sep : Char) (cs : List Char) : splitChars sep cs ≠ [] := by
  induction cs with
  | nil => simp [splitChars]
  | cons c cs ih =>
    unfold splitChars
    split
    · simp
    · split <;> simp

theorem splitChars_no_sep (sep : Char) (cs : List Char) :
    ∀ part ∈ splitChars sep cs, sep ∉ part := by
  induction cs with
  | nil => simp [splitChars]
  | cons c cs ih =>
    unfold splitChars
    split
    · intro part hpart
      rcases List.mem_cons.mp hpart with h | h
      · simp [h]
      · exact ih part h
    · rename_i hc
      split
      · intro part hpart
        simp only [List.mem_singleton] at hpart
        subst hpart
        simpa using fun h => hc h.symm
      · rename_i h t heq
        intro part hpart
        rw [heq] at ih
        rcases List.mem_cons.mp hpart with h1 | h1
        · subst h1
          have := ih h (List.mem_cons_self _ _)
          simp only [List.mem_cons, not_or]
          exact ⟨fun e => hc e.symm, this⟩
        · exact ih part (List.mem_cons_of_mem _ h1)

theorem splitChars_of_no_sep (sep : Char) (u : List Char) (hu : sep ∉ u) :
    splitChars sep u = [u] := by
  induction u with
  | nil => simp [splitChars]
  | cons c cs ih =>
    have hc : c ≠ sep := fun e => hu (by simp [e])
    have hcs : sep ∉ cs := fun h => hu (List.mem_cons_of_mem _ h)
    simp [splitChars, hc, ih hcs]

theorem splitChars_getLast_append (sep : Char) (a u : List Char) (hu : sep ∉ u) :
    ∃ front, splitChars sep (a ++ sep :: u) = front ++ [u] ∧ front ≠ [] := by
  induction a with
  | nil =>
    refine ⟨[[]], ?_, by simp⟩
    simp [splitChars, splitChars_of_no_sep sep u hu]
  | cons c a ih =>
    obtain ⟨front, hfront, hne⟩ := ih
    by_cases hc : c = sep
    · refine ⟨[] :: front, ?_, by simp⟩
      simp [splitChars, hc, ← hfront]
    · cases front with
      | nil => exact absurd rfl hne
      | cons h t =>
        refine ⟨(c :: h) :: t, ?_, by simp⟩
        simp [splitChars, hc, hfront]

theorem lastPart_split_append (a u : String) (hu : '/' ∉ u.data) :
    lastPart (split (a ++ "/" ++ u) '/') = u := by
  obtain ⟨front, hfront, -⟩ := splitChars_getLast_append '/' a.data u.data hu
  have hdata : (a ++ "/" ++ u).data = a.data ++ '/' :: u.data := by
    simp [String.data_append]
  unfold lastPart split
  rw [hdata, hfront, List.map_append, List.map_singleton, List.getLastD_concat]

theorem lastPart_split_no_sep (s : String) : '/' ∉ (lastPart (split s '/')).data := by
  have hne := splitChars_ne_nil '/' s.data
  have hmem := splitChars_no_sep '/' s.data
  unfold lastPart split
  rw [List.getLastD_eq_getLast?, List.getLast?_map]
  cases hl : (splitChars '/' s.data).getLast? with
  | none => simp [List.getLast?_eq_none_iff] at hl; exact absurd hl hne
  | some part =>
    simp only [Option.map_some', Option.getD_some]
    exact hmem part (List.mem_of_getLast?_eq_some hl)

theorem startsWith_append (pre rest : String) : startsWith (pre ++ rest) pre = true := by
  simp [startsWith, String.data_append]

theorem not_startsWith_of_no_sep (u : String) (hu : '/' ∉ u.data) :
    startsWith u "OpenAPI/Libraries/" = false := by
  cases h : startsWith u "OpenAPI/Libraries/" with
  | false => rfl
  | true =>
    exfalso
    unfold startsWith at h
    rw [ List.isPrefixOf_iff_prefix] at h
    obtain ⟨t, ht⟩ := h
    apply hu
    rw [← ht]
    exact List.mem_append_left _ (by decide)

theorem ne_empty_of_startsWith (s : String) (h : startsWith s "OpenAPI/Libraries/" = true) :
    s ≠ "" := by
  intro e
  subst e
  revert h
  decide

end ProWebRemote

/-! ## Endpoint mapper: path builders -/

namespace ProWebRemote

theorem startsWith_fakePath (libraryName presName u : String) :
    startsWith (fakePath libraryName presName u) "OpenAPI/Libraries/" = true := by
  unfold fakePath
  simp only [String.append_assoc]
  exact startsWith_append _ _

theorem lastPart_fakePath (libraryName presName u : String) (hu : '/' ∉ u.data) :
    lastPart (split (fakePath libraryName presName u) '/') = u := by
  unfold fakePath
  exact lastPart_split_append _ u hu

theorem fakePath_ne_empty (libraryName presName u : String) :
    fakePath libraryName presName u ≠ "" :=
  ne_empty_of_startsWith _ (startsWith_fakePath libraryName presName u)

/-- C4 (counterexample): the composite path "OpenAPI/Libraries/Lib/Song/", which
handleLibraryRequest builds for an item without uuid, has the empty trailing component;
the request path built from that component is the active route, not the one built from
the composite path. -/
theorem request_path_fixed_point_fails_on_empty_component :
    startsWith "OpenAPI/Libraries/Lib/Song/" "OpenAPI/Libraries/" = true ∧
    lastPart (split "OpenAPI/Libraries/Lib/Song/" '/') = "" ∧
    buildPresentationRequestPath
        { action := "presentationRequest", presentationPath := some "OpenAPI/Libraries/Lib/Song/" }
      = "/v1/presentation/" ∧
    buildPresentationRequestPath
        { action := "presentationRequest",
          presentationPath := some (lastPart (split "OpenAPI/Libraries/Lib/Song/" '/')) }
      = "/v1/presentation/active" ∧
    buildPresentationRequestPath
        { action := "presentationRequest",
          presentationPath := some (lastPart (split "OpenAPI/Libraries/Lib/Song/" '/')) }
      ≠ buildPresentationRequestPath
        { action := "presentationRequest", presentationPath := some "OpenAPI/Libraries/Lib/Song/" } := by
  decide

/-- C4 (amended): for every composite path p starting with "OpenAPI/Libraries/" whose
trailing component u is non-empty, the request path built from u alone equals the request
path built from p. -/
theorem request_path_fixed_point (a p : String)
    (hp : startsWith p "OpenAPI/Libraries/" = true)
    (hu : lastPart (split p '/') ≠ "") :
    buildPresentationRequestPath
        { action := a, presentationPath := some (lastPart (split p '/')) }
      = buildPresentationRequestPath { action := a, presentationPath := some p } := by
  have hp0 : p ≠ "" := ne_empty_of_startsWith p hp
  have hnot := not_startsWith_of_no_sep _ (lastPart_split_no_sep p)
  simp [buildPresentationRequestPath, strTruthy, orStr, hp0, hu, hp, hnot]

/-- C4 (witness): the amended statement at the composite path of item "4f2a". -/
theorem request_path_fixed_point_witness :
    startsWith "OpenAPI/Libraries/Lib/Song/4f2a" "OpenAPI/Libraries/" = true ∧
    lastPart (split "OpenAPI/Libraries/Lib/Song/4f2a" '/') ≠ "" ∧
    buildPresentationRequestPath
        { action := "presentationRequest",
          presentationPath := some (lastPart (split "OpenAPI/Libraries/Lib/Song/4f2a" '/')) }
      = buildPresentationRequestPath
        { action := "presentationRequest",
          presentationPath := some "OpenAPI/Libraries/Lib/Song/4f2a" } :=
  ⟨by decide, by decide,
    request_path_fixed_point "presentationRequest" "OpenAPI/Libraries/Lib/Song/4f2a"
      (by decide) (by decide)⟩

/-- The comparison `== 1` of line 673 on the values a destination can take: the number
1, the boolean `true`, the array `[1]` and every string whose Number value is 1 (`1`,
`1.0`, `1.`, `1e0`, `0x1`, `1` between no-break spaces) compare equal; `undefined`,
`null`, other numbers and other strings do not. -/
theorem looseEqOne_forms :
    (JSValue.num 1).looseEqOne = true ∧
    (JSValue.bool true).looseEqOne = true ∧
    (JSValue.arr [.num 1]).looseEqOne = true ∧
    (JSValue.str "1").looseEqOne = true ∧
    (JSValue.str "1.0").looseEqOne = true ∧
    (JSValue.str "1.").looseEqOne = true ∧
    (JSValue.str "1e0").looseEqOne = true ∧
    (JSValue.str "0x1").looseEqOne = true ∧
    (JSValue.str "+1.000E-0").looseEqOne = true ∧
    (JSValue.str (String.mk [Char.ofNat 160, '1', Char.ofNat 160])).looseEqOne = true ∧
    (JSValue.undefined).looseEqOne = false ∧
    (JSValue.null).looseEqOne = false ∧
    (JSValue.num 0).looseEqOne = false ∧
    (JSValue.bool false).looseEqOne = false ∧
    (JSValue.str "").looseEqOne = false ∧
    (JSValue.str "2").looseEqOne = false ∧
    (JSValue.str "1.5").looseEqOne = false ∧
    (JSValue.str "-0x1").looseEqOne = false ∧
    (JSValue.str "one").looseEqOne = false ∧
    (JSValue.obj []).looseEqOne = false := by
  decide

/-- C5: for every library name, presentation name and UUID u without a slash, the
synthetic path built by handleLibraryRequest is mapped by buildPresentationRequestPath to
"/v1/presentation/" + u and, for a command that is not an announcement (its
presentationDestination does not compare equal to 1 under `==`) and carries a slide
index, by buildPresentationTriggerPath to "/v1/presentation/" + u + "/" + index + "/trigger". -/
theorem library_path_round_trip (libraryName presName u : String) (cmd : Command)
    (hu : '/' ∉ u.data)
    (hpath : cmd.presentationPath = some (fakePath libraryName presName u))
    (huuid : cmd.presentationUUID = none)
    (hdest : cmd.presentationDestination.looseEqOne = false)
    (hidx : cmd.slideIndex.isDefined = true) :
    buildPresentationRequestPath cmd = "/v1/presentation/" ++ u ∧
    buildPresentationTriggerPath cmd
      = "/v1/presentation/" ++ u ++ "/" ++ cmd.slideIndex.toStr ++ "/trigger" := by
  have h1 := startsWith_fakePath libraryName presName u
  have h2 := lastPart_fakePath libraryName presName u hu
  have h3 := fakePath_ne_empty libraryName presName u
  constructor
  · simp [buildPresentationRequestPath, strTruthy, orStr, hpath, huuid, h1, h2, h3]
  · simp [buildPresentationTriggerPath, orStr, hpath, huuid, h1, h2, h3, hdest, hidx]

/-- C5 (witness): the round trip for library "Hymns/Old", presentation "Song", UUID "4f2a". -/
theorem library_path_round_trip_witness :
    '/' ∉ "4f2a".data ∧
    buildPresentationRequestPath
        { action := "presentationRequest",
          presentationPath := some (fakePath "Hymns/Old" "Song" "4f2a"),
          slideIndex := .num 3 }
      = "/v1/presentation/" ++ "4f2a" ∧
    buildPresentationTriggerPath
        { action := "presentationRequest",
          presentationPath := some (fakePath "Hymns/Old" "Song" "4f2a"),
          slideIndex := .num 3 }
      = "/v1/presentation/" ++ "4f2a" ++ "/" ++ (JSValue.num 3).toStr ++ "/trigger" :=
  ⟨by decide,
    library_path_round_trip "Hymns/Old" "Song" "4f2a"
      { action := "presentationRequest",
        presentationPath := some (fakePath "Hymns/Old" "Song" "4f2a"),
        slideIndex := .num 3 }
      (by decide) rfl rfl rfl rfl⟩

/-- C6: for every command whose presentationUUID is non-empty and whose
presentationDestination is not 1 (the comparison `== 1` of the code is false), the
trigger path is built from presentationUUID (after composite-path extraction) and does
not depend on presentationPath. -/
theorem trigger_path_uses_uuid (cmd : Command) (id : String)
    (huuid : cmd.presentationUUID = some id) (hid : id ≠ "")
    (hdest : cmd.presentationDestination.looseEqOne = false) :
    (∀ p : Option String,
      buildPresentationTriggerPath { cmd with presentationPath := p }
        = buildPresentationTriggerPath cmd) ∧
    buildPresentationTriggerPath cmd =
      (if cmd.slideIndex.isDefined then
        "/v1/presentation/" ++
          (if startsWith id "OpenAPI/Libraries/" then lastPart (split id '/') else id) ++
          "/" ++ cmd.slideIndex.toStr ++ "/trigger"
      else
        "/v1/presentation/" ++
          (if startsWith id "OpenAPI/Libraries/" then lastPart (split id '/') else id) ++
          "/trigger") := by
  constructor
  · intro p
    simp [buildPresentationTriggerPath, orStr, huuid, hid]
  · simp [buildPresentationTriggerPath, orStr, huuid, hid, hdest]

/-- C6 (witness): two playlist items of presentation "4f2a" get the same trigger path. -/
theorem trigger_path_uses_uuid_witness :
    "4f2a" ≠ "" ∧
    buildPresentationTriggerPath
        { action := "presentationTriggerIndex", presentationUUID := some "4f2a",
          presentationPath := some "item-2", slideIndex := .str "5" }
      = buildPresentationTriggerPath
        { action := "presentationTriggerIndex", presentationUUID := some "4f2a",
          presentationPath := some "item-1", slideIndex := .str "5" } ∧
    buildPresentationTriggerPath
        { action := "presentationTriggerIndex", presentationUUID := some "4f2a",
          presentationPath := some "item-1", slideIndex := .str "5" }
      = "/v1/presentation/4f2a/5/trigger" :=
  ⟨by decide,
    (trigger_path_uses_uuid
      { action := "presentationTriggerIndex", presentationUUID := some "4f2a",
        presentationPath := some "item-1", slideIndex := .str "5" }
      "4f2a" rfl (by decide) rfl).1 (some "item-2"),
    by decide⟩

/-- C7: for every command whose presentationDestination equals 1 (the comparison `== 1`
of the code is true: the number 1 and whatever converts to it, such as the strings "1"
and "1.0"), the trigger path is "/v1/announcement/active/" + slideIndex + "/trigger" when
slideIndex is defined and "/v1/announcement/active/trigger" otherwise, whatever
presentationUUID and presentationPath are. -/
theorem trigger_path_announcement (cmd : Command)
    (hdest : cmd.presentationDestination.looseEqOne = true) :
    buildPresentationTriggerPath cmd =
      (if cmd.slideIndex.isDefined then
        "/v1/announcement/active/" ++ cmd.slideIndex.toStr ++ "/trigger"
      else "/v1/announcement/active/trigger") ∧
    ∀ uuid path : Option String,
      buildPresentationTriggerPath { cmd with presentationUUID := uuid, presentationPath := path }
        = buildPresentationTriggerPath cmd := by
  constructor
  · simp [buildPresentationTriggerPath, hdest]
  · intro uuid path
    simp [buildPresentationTriggerPath, hdest]

/-- C7 (witness): an announcement command carrying a UUID and slide index 2, with the
destination written as the string "1.0". -/
theorem trigger_path_announcement_witness :
    (JSValue.str "1.0").looseEqOne = true ∧
    buildPresentationTriggerPath
        { action := "presentationTriggerIndex", presentationUUID := some "4f2a",
          presentationDestination := .str "1.0", slideIndex := .num 2 }
      = (if (JSValue.num 2).isDefined then
          "/v1/announcement/active/" ++ (JSValue.num 2).toStr ++ "/trigger"
        else "/v1/announcement/active/trigger") :=
  ⟨by decide,
    (trigger_path_announcement
      { action := "presentationTriggerIndex", presentationUUID := some "4f2a",
        presentationDestination := .str "1.0", slideIndex := .num 2 } (by decide)).1⟩

/-- C8 (counterexample): a command carrying presentationUUID "4f2a" and no
presentationPath triggers "/v1/presentation/4f2a/trigger" but requests
"/v1/presentation/active". -/
theorem trigger_request_differ_without_path :
    buildPresentationTriggerPath { action := "presentationTriggerIndex", presentationUUID := some "4f2a" }
      = "/v1/presentation/4f2a/trigger" ∧
    buildPresentationRequestPath { action := "presentationTriggerIndex", presentationUUID := some "4f2a" }
      = "/v1/presentation/active" ∧
    buildPresentationTriggerPath { action := "presentationTriggerIndex", presentationUUID := some "4f2a" }
      ≠ buildPresentationRequestPath
          { action := "presentationTriggerIndex", presentationUUID := some "4f2a" } ++ "/trigger" := by
  decide

/-- C8 (amended): for every command with no announcement destination (the comparison
`presentationDestination == 1` is false) and no slideIndex whose presentationPath is non-empty or whose presentationUUID is absent or empty, the
trigger path is the request path followed by "/trigger". -/
theorem trigger_path_eq_request_path (cmd : Command)
    (hdest : cmd.presentationDestination.looseEqOne = false)
    (hidx : cmd.slideIndex.isDefined = false)
    (hid : strTruthy cmd.presentationPath = true ∨ strTruthy cmd.presentationUUID = false) :
    buildPresentationTriggerPath cmd = buildPresentationRequestPath cmd ++ "/trigger" := by
  unfold buildPresentationTriggerPath buildPresentationRequestPath
  simp only [hdest, hidx]
  cases hpath : cmd.presentationPath with
  | none =>
    rw [hpath] at hid
    cases huuid : cmd.presentationUUID with
    | none => simp [strTruthy, orStr]; decide
    | some id =>
      rw [huuid] at hid
      have : id = "" := by simpa [strTruthy] using hid
      subst this
      simp [strTruthy, orStr]; decide
  | some p =>
    by_cases hp : p = ""
    · subst hp
      rw [hpath] at hid
      cases huuid : cmd.presentationUUID with
      | none => simp [strTruthy, orStr]; decide
      | some id =>
        rw [huuid] at hid
        have : id = "" := by simpa [strTruthy] using hid
        subst this
        simp [strTruthy, orStr]; decide
    · cases huuid : cmd.presentationUUID with
      | none =>
        by_cases hs : startsWith p "OpenAPI/Libraries/" = true <;>
          simp [strTruthy, orStr, hp, hs]
      | some id =>
        by_cases hid0 : id = ""
        · subst hid0
          by_cases hs : startsWith p "OpenAPI/Libraries/" = true <;>
            simp [strTruthy, orStr, hp, hs]
        · by_cases hs : startsWith id "OpenAPI/Libraries/" = true <;>
            simp [strTruthy, orStr, hp, hid0, hs]

/-- C8 (witness): a command carrying both presentationUUID and presentationPath. -/
theorem trigger_path_eq_request_path_witness :
    (JSValue.undefined).looseEqOne = false ∧
    (JSValue.undefined).isDefined = false ∧
    buildPresentationTriggerPath
        { action := "presentationTriggerIndex", presentationUUID := some "4f2a",
          presentationPath := some "item-1" }
      = buildPresentationRequestPath
          { action := "presentationTriggerIndex", presentationUUID := some "4f2a",
            presentationPath := some "item-1" } ++ "/trigger" :=
  ⟨rfl, rfl,
    trigger_path_eq_request_path
      { action := "presentationTriggerIndex", presentationUUID := some "4f2a",
        presentationPath := some "item-1" } rfl rfl (Or.inl rfl)⟩

end ProWebRemote

/-! ## Endpoint mapper: the table -/

namespace ProWebRemote

theorem lookupKey_eq_none {α : Type} (key : String) (l : List (String × α))
    (h : key ∉ l.map Prod.fst) : lookupKey key l = none := by
  induction l with
  | nil => rfl
  | cons kv rest ih =>
    obtain ⟨k, v⟩ := kv
    simp only [List.map_cons, List.mem_cons, not_or] at h
    have hk : ¬ k = key := fun e => h.1 e.symm
    simp [lookupKey, hk, ih h.2]

theorem mapping_keys (st : BridgeState) (cmd : Command) :
    (mapping st cmd).map Prod.fst = knownActions := rfl

theorem mapClassicToOpenAPI_presentationRequest (st : BridgeState) (cmd : Command)
    (h : cmd.action = "presentationRequest") :
    mapClassicToOpenAPI st cmd = .descriptor (requestEndpoint cmd) := by
  unfold mapClassicToOpenAPI
  rw [h]
  rfl

theorem mapClassicToOpenAPI_clearAll (st : BridgeState) (cmd : Command)
    (h : cmd.action = "clearAll") :
    mapClassicToOpenAPI st cmd = .descriptor
      { method := "GET",
        path := if st.clearAllGroupUUID.truthy
          then some ("/v1/clear/group/" ++ st.clearAllGroupUUID.toStr ++ "/trigger")
          else none,
        handler := none } := by
  unfold mapClassicToOpenAPI
  rw [h]
  rfl

end ProWebRemote

/-! ## Presentation transcoder on the error placeholder -/

namespace ProWebRemote

theorem orElse_truthy (a b : JSValue) (hb : b.truthy = true) : (a.orElse b).truthy = true := by
  unfold JSValue.orElse
  split
  · assumption
  · exact hb

theorem simulateMessage_delivered (st : BridgeState) (m : JSValue) (h : st.onMessage = true) :
    (simulateMessage st m).delivered = st.delivered ++ [m] := by
  simp [simulateMessage, h]

theorem simulateMessage_pending (st : BridgeState) (m : JSValue) :
    (simulateMessage st m).pendingPresentationRequests = st.pendingPresentationRequests := by
  unfold simulateMessage
  split <;> rfl

theorem emitPresentation_delivered (st : BridgeState) (presId presName : JSValue)
    (groups : List JSValue) (cmd : Command) (h : st.onMessage = true) :
    (emitPresentation st presId presName groups cmd).delivered
      = st.delivered ++ [presentationMessage cmd (presentationData st presId presName groups)] := by
  unfold emitPresentation
  exact simulateMessage_delivered _ _ h

theorem emitPresentation_pending (st : BridgeState) (presId presName : JSValue)
    (groups : List JSValue) (cmd : Command) :
    (emitPresentation st presId presName groups cmd).pendingPresentationRequests
      = st.pendingPresentationRequests := by
  unfold emitPresentation
  exact simulateMessage_pending _ _

theorem presentationMessage_action (cmd : Command) (data : JSValue) :
    (presentationMessage cmd data).get "action" = .str "presentationCurrent" := by
  unfold presentationMessage
  split <;> rfl

theorem presentationMessage_presentation (cmd : Command) (data : JSValue) :
    (presentationMessage cmd data).get "presentation" = data := by
  unfold presentationMessage
  split <;> rfl

theorem presentationMessage_path (cmd : Command) (data : JSValue) :
    (presentationMessage cmd data).get "presentationPath"
      = .ofOption cmd.presentationPath := by
  unfold presentationMessage
  split <;> rfl

theorem presentationData_groups (st : BridgeState) (presId presName : JSValue)
    (groups : List JSValue) :
    (presentationData st presId presName groups).get "presentationSlideGroups" = .arr groups ∧
    (presentationData st presId presName groups).get "presentationPath" = presId ∧
    (presentationData st presId presName groups).get "presentationName" = presName := by
  unfold presentationData
  split <;> exact ⟨rfl, rfl, rfl⟩

/-- The identity object of the error placeholder. -/
theorem presentationId_errorPresentation (cmd : Command) :
    presentationId ((errorPresentation cmd).get "presentation") cmd
      = (JSValue.ofOption cmd.presentationPath).orElse
          (.obj [ ("uuid", .ofOption cmd.presentationPath), ("name", .str "Error"),
                  ("index", .num 0) ]) := rfl

theorem presentationId_errorPresentation_truthy (cmd : Command) :
    (presentationId ((errorPresentation cmd).get "presentation") cmd).truthy = true := by
  rw [presentationId_errorPresentation]
  exact orElse_truthy _ _ rfl

theorem handlePresentationRequest_errorPresentation (st : BridgeState) (cmd : Command) :
    handlePresentationRequest st (errorPresentation cmd) cmd
      = .ok (emitPresentation st
          (presentationId ((errorPresentation cmd).get "presentation") cmd)
          (.str "Error") [implicitGroup []] cmd) := by
  have ht := presentationId_errorPresentation_truthy cmd
  have hd : (errorPresentation cmd).truthy = true := rfl
  have hp : ((errorPresentation cmd).get "presentation").orElse (errorPresentation cmd)
      = (errorPresentation cmd).get "presentation" := rfl
  unfold handlePresentationRequest
  simp only [hd, hp, ht, Bool.not_true, Bool.false_eq_true, if_false]
  rfl

theorem onRejected_presentation (ext : Handler → HandlerFn) (e : Endpoint) (cmd : Command)
    (st : BridgeState) (hact : cmd.action = "presentationRequest")
    (hh : e.handler = some .handlePresentationRequest) :
    onRejected ext e cmd st
      = (emitPresentation (decrementPending st)
          (presentationId ((errorPresentation cmd).get "presentation") cmd)
          (.str "Error") [implicitGroup []] cmd, none) := by
  unfold onRejected
  simp only [hact, hh, if_true, invokeHandler, handlePresentationRequest_errorPresentation]

theorem handlePresentationRequest_truthy (st : BridgeState) (data : JSValue) (cmd : Command)
    (hd : data.truthy = true) (hp : strTruthy cmd.presentationPath = true) :
    (∃ err, handlePresentationRequest st data cmd = .error err) ∨
    (∃ presId presName groups,
      handlePresentationRequest st data cmd
        = .ok (emitPresentation st presId presName groups cmd)) := by
  have hid : (presentationId ((data.get "presentation").orElse data) cmd).truthy = true := by
    unfold presentationId
    simp only
    split
    · rename_i hi
      exact orElse_truthy _ _ hi
    · cases hpath : cmd.presentationPath with
      | none => simp [hpath, strTruthy] at hp
      | some p =>
        have : p ≠ "" := by simpa [hpath, strTruthy] using hp
        simp [JSValue.ofOption, JSValue.truthy, this]
  unfold handlePresentationRequest
  simp only [hd, hid, Bool.not_true, Bool.false_eq_true, if_false]
  cases hg : presentationGroups st.baseURL
      (presentationId ((data.get "presentation").orElse data) cmd) cmd
      ((data.get "presentation").orElse data) with
  | error err => exact Or.inl ⟨err, rfl⟩
  | ok groups => exact Or.inr ⟨_, _, groups, rfl⟩

end ProWebRemote

/-! ## Request executor -/

namespace ProWebRemote

theorem decrementPending_delivered (st : BridgeState) :
    (decrementPending st).delivered = st.delivered ∧
    (decrementPending st).onMessage = st.onMessage ∧
    (decrementPending st).pendingPresentationRequests = st.pendingPresentationRequests - 1 :=
  ⟨rfl, rfl, rfl⟩

/-- A failed presentation fetch: one decrement, one placeholder message, nothing raised. -/
theorem settle_failure (ext : Handler → HandlerFn) (e : Endpoint) (cmd : Command)
    (st : BridgeState) (outcome : FetchOutcome)
    (hact : cmd.action = "presentationRequest")
    (hh : e.handler = some .handlePresentationRequest)
    (hout : outcome = .networkError ∨ ∃ status, outcome = .httpError status) :
    settle ext e cmd outcome st
      = (emitPresentation (decrementPending st)
          (presentationId ((errorPresentation cmd).get "presentation") cmd)
          (.str "Error") [implicitGroup []] cmd, none) := by
  rcases hout with h | ⟨status, h⟩ <;> subst h <;>
    simp only [settle, onRejected_presentation ext e cmd st hact hh]

/-- A successful presentation fetch whose handler returns normally: one decrement. -/
theorem settle_success_pending (ext : Handler → HandlerFn) (e : Endpoint) (cmd : Command)
    (st st1 : BridgeState) (body : Option JSValue)
    (hact : cmd.action = "presentationRequest")
    (hh : e.handler = some .handlePresentationRequest)
    (hok : handlePresentationRequest (decrementPending st) (body.getD .null) cmd = .ok st1) :
    settle ext e cmd (.ok body) st = (st1, none) := by
  simp only [settle, onFulfilled, hact, hh, if_true, invokeHandler, hok]

/-- A successful presentation fetch whose handler raises: the catch callback runs as
well, so the counter is decremented twice and the placeholder is emitted. -/
theorem settle_success_raise (ext : Handler → HandlerFn) (e : Endpoint) (cmd : Command)
    (st : BridgeState) (body : Option JSValue) (err : JSError)
    (hact : cmd.action = "presentationRequest")
    (hh : e.handler = some .handlePresentationRequest)
    (hraise : handlePresentationRequest (decrementPending st) (body.getD .null) cmd
      = .error err) :
    settle ext e cmd (.ok body) st
      = (emitPresentation (decrementPending (decrementPending st))
          (presentationId ((errorPresentation cmd).get "presentation") cmd)
          (.str "Error") [implicitGroup []] cmd, none) := by
  simp only [settle, onFulfilled, hact, hh, if_true, invokeHandler, hraise,
    onRejected_presentation ext e cmd _ hact hh]

/-- C1 (evaluation at the failing input): the request for "4f2a" raises the counter
from 0 to 1; the backend answers with a body whose group list holds null; the handler
raises after the success callback has decremented, the catch callback decrements again,
and the counter ends at -1 with no fetch in flight. -/
theorem pending_counter_negative_after_handler_raises :
    idleBridge.pendingPresentationRequests = 0 ∧
    mapClassicToOpenAPI idleBridge requestCommand
      = .descriptor (requestEndpoint requestCommand) ∧
    (sendOpenAPI idleBridge (some requestCommand)).pendingPresentationRequests = 1 ∧
    (sendOpenAPI idleBridge (some requestCommand)).requests.length = 1 ∧
    handlePresentationRequest (decrementPending (sendOpenAPI idleBridge (some requestCommand)))
        nullGroupBody requestCommand
      = .error (.typeError "Cannot read properties of null (reading slides)") ∧
    (settle noHandlers (requestEndpoint requestCommand) requestCommand
        (.ok (some nullGroupBody))
        (sendOpenAPI idleBridge (some requestCommand))).1.pendingPresentationRequests = -1 ∧
    (settle noHandlers (requestEndpoint requestCommand) requestCommand
        (.ok (some nullGroupBody))
        (sendOpenAPI idleBridge (some requestCommand))).1.presentationRequestsPending = -1 := by
  refine ⟨rfl, rfl, rfl, rfl, rfl, rfl, rfl⟩

/-- C2 (evaluation at the failing input): when the fetch for "4f2a" fails, the executor
raises nothing and emits one presentationCurrent message with presentationPath "4f2a" and
presentationName "Error", whose presentationSlideGroups holds one unnamed group without
slides instead of being the empty list. -/
theorem failed_fetch_emits_one_implicit_group :
    (settle noHandlers (requestEndpoint requestCommand) requestCommand .networkError
        (sendOpenAPI idleBridge (some requestCommand))).2 = none ∧
    (settle noHandlers (requestEndpoint requestCommand) requestCommand .networkError
        (sendOpenAPI idleBridge (some requestCommand))).1.delivered
      = [ .obj
            [ ("action", .str "presentationCurrent"),
              ("presentationPath", .str "4f2a"),
              ("presentation", .obj
                [ ("presentationName", .str "Error"),
                  ("presentationPath", .str "4f2a"),
                  ("presentationSlideGroups", .arr
                    [ .obj [ ("groupName", .str ""), ("groupColor", .str ""),
                             ("groupSlides", .arr []) ] ]) ]) ] ] := by
  exact ⟨rfl, rfl⟩

/-- For every non-empty presentationPath, a failed presentation fetch delivers the
placeholder with one implicit group. -/
theorem failed_fetch_message (ext : Handler → HandlerFn) (e : Endpoint) (cmd : Command)
    (st : BridgeState) (outcome : FetchOutcome) (x : String)
    (hact : cmd.action = "presentationRequest")
    (hh : e.handler = some .handlePresentationRequest)
    (hout : outcome = .networkError ∨ ∃ status, outcome = .httpError status)
    (hx : cmd.presentationPath = some x) (hx0 : x ≠ "") (hcb : st.onMessage = true) :
    ∃ m, (settle ext e cmd outcome st).1.delivered = st.delivered ++ [m] ∧
      m.get "action" = .str "presentationCurrent" ∧
      m.get "presentationPath" = .str x ∧
      (m.get "presentation").get "presentationPath" = .str x ∧
      (m.get "presentation").get "presentationName" = .str "Error" ∧
      (m.get "presentation").get "presentationSlideGroups" = .arr [implicitGroup []] := by
  rw [settle_failure ext e cmd st outcome hact hh hout]
  have hid : presentationId ((errorPresentation cmd).get "presentation") cmd = .str x := by
    rw [presentationId_errorPresentation, hx]
    simp [JSValue.ofOption, JSValue.orElse, JSValue.truthy, hx0]
  refine ⟨_, emitPresentation_delivered _ _ _ _ _ hcb, presentationMessage_action _ _, ?_, ?_⟩
  · rw [presentationMessage_path, hx]; rfl
  · rw [presentationMessage_presentation, hid]
    obtain ⟨h1, h2, h3⟩ := presentationData_groups (decrementPending st) (.str x) (.str "Error")
      [implicitGroup []]
    exact ⟨h2, h3, h1⟩

/-- C3 (counterexample): the fetch for "4f2a" succeeds with a body that cannot be
parsed; the request was issued, the handler receives null and returns, and no message
reaches the consumer callback. -/
theorem parse_failure_delivers_no_message :
    idleBridge.onMessage = true ∧
    (sendOpenAPI idleBridge (some requestCommand)).requests.length = 1 ∧
    (settle noHandlers (requestEndpoint requestCommand) requestCommand (.ok none)
        (sendOpenAPI idleBridge (some requestCommand))).1.delivered = [] := by
  exact ⟨rfl, rfl, rfl⟩

/-- C3 (amended): for every issued presentationRequest with the presentation handler and
a registered consumer callback, an HTTP or network failure delivers exactly one
presentationCurrent message; a success whose parsed body is truthy, for a command with a
non-empty presentationPath, delivers exactly one; a success whose body cannot be parsed
delivers none.  No rejection is left unhandled in any of these cases. -/
theorem presentation_fetch_terminal_message (ext : Handler → HandlerFn) (e : Endpoint)
    (cmd : Command) (st : BridgeState)
    (hact : cmd.action = "presentationRequest")
    (hh : e.handler = some .handlePresentationRequest)
    (hcb : st.onMessage = true) :
    (∀ outcome : FetchOutcome, (outcome = .networkError ∨ ∃ status, outcome = .httpError status) →
      (settle ext e cmd outcome st).2 = none ∧
      ∃ m, (settle ext e cmd outcome st).1.delivered = st.delivered ++ [m] ∧
        m.get "action" = .str "presentationCurrent") ∧
    (∀ body : JSValue, body.truthy = true → strTruthy cmd.presentationPath = true →
      (settle ext e cmd (.ok (some body)) st).2 = none ∧
      ∃ m, (settle ext e cmd (.ok (some body)) st).1.delivered = st.delivered ++ [m] ∧
        m.get "action" = .str "presentationCurrent") ∧
    ((settle ext e cmd (.ok none) st).2 = none ∧
      (settle ext e cmd (.ok none) st).1.delivered = st.delivered) := by
  refine ⟨?_, ?_, ?_⟩
  · intro outcome hout
    rw [settle_failure ext e cmd st outcome hact hh hout]
    exact ⟨rfl, _, emitPresentation_delivered _ _ _ _ _ hcb, presentationMessage_action _ _⟩
  · intro body hbody hpath
    rcases handlePresentationRequest_truthy (decrementPending st) body cmd hbody hpath with
      ⟨err, herr⟩ | ⟨presId, presName, groups, hok⟩
    · rw [settle_success_raise ext e cmd st (some body) err hact hh herr]
      exact ⟨rfl, _, emitPresentation_delivered _ _ _ _ _ hcb, presentationMessage_action _ _⟩
    · rw [settle_success_pending ext e cmd st _ (some body) hact hh hok]
      exact ⟨rfl, _, emitPresentation_delivered _ _ _ _ _ hcb, presentationMessage_action _ _⟩
  · have hnull : handlePresentationRequest (decrementPending st) ((none : Option JSValue).getD .null)
        cmd = .ok (decrementPending st) := rfl
    rw [settle_success_pending ext e cmd st _ none hact hh hnull]
    exact ⟨rfl, rfl⟩

/-- C3 (witness): a network failure of the request for "4f2a" on an idle bridge. -/
theorem presentation_fetch_terminal_message_witness :
    requestCommand.action = "presentationRequest" ∧
    (requestEndpoint requestCommand).handler = some .handlePresentationRequest ∧
    idleBridge.onMessage = true ∧
    ((settle noHandlers (requestEndpoint requestCommand) requestCommand .networkError
        idleBridge).2 = none ∧
      ∃ m, (settle noHandlers (requestEndpoint requestCommand) requestCommand .networkError
          idleBridge).1.delivered = idleBridge.delivered ++ [m] ∧
        m.get "action" = .str "presentationCurrent") :=
  ⟨rfl, rfl, rfl,
    (presentation_fetch_terminal_message noHandlers (requestEndpoint requestCommand)
      requestCommand idleBridge rfl rfl rfl).1 .networkError (Or.inl rfl)⟩

/-- C9 (counterexample): with clearAllGroupUUID set to the empty string, the clearAll
descriptor still has a null path, not "/v1/clear/group//trigger". -/
theorem clearAll_path_null_on_empty_uuid :
    (mapClassicToOpenAPI { clearAllGroupUUID := .str "" } { action := "clearAll" }).pathOf = none ∧
    (mapClassicToOpenAPI { clearAllGroupUUID := .str "" } { action := "clearAll" }).pathOf
      ≠ some ("/v1/clear/group/" ++ "" ++ "/trigger") := by
  decide

/-- C9 (amended): while clearAllGroupUUID is null, a clearAll command maps to a
descriptor with a null path, and sending or executing it leaves the whole bridge state,
with its record of requests and messages, unchanged; once clearAllGroupUUID is a
non-empty string G the path is "/v1/clear/group/" + G + "/trigger". -/
theorem clearAll_before_and_after_resolution (st : BridgeState) (cmd : Command)
    (hact : cmd.action = "clearAll") :
    (st.clearAllGroupUUID = .null →
      mapClassicToOpenAPI st cmd
        = .descriptor { method := "GET", path := none, handler := none } ∧
      executeOpenAPIRequest st (mapClassicToOpenAPI st cmd) cmd = st ∧
      sendOpenAPI st (some cmd) = st) ∧
    (∀ G : String, G ≠ "" → st.clearAllGroupUUID = .str G →
      mapClassicToOpenAPI st cmd
        = .descriptor
            { method := "GET", path := some ("/v1/clear/group/" ++ G ++ "/trigger"),
              handler := none }) := by
  constructor
  · intro hnull
    have hmap : mapClassicToOpenAPI st cmd
        = .descriptor { method := "GET", path := none, handler := none } := by
      rw [mapClassicToOpenAPI_clearAll st cmd hact, hnull]
      rfl
    refine ⟨hmap, ?_, ?_⟩
    · rw [hmap]; rfl
    · simp only [sendOpenAPI, hmap]
      rfl
  · intro G hG hres
    rw [mapClassicToOpenAPI_clearAll st cmd hact, hres]
    simp [JSValue.truthy, JSValue.toStr, hG]

/-- C9 (witness): clearAll on a bridge whose clear groups are not resolved yet. -/
theorem clearAll_before_and_after_resolution_witness :
    ({ action := "clearAll" } : Command).action = "clearAll" ∧
    (mapClassicToOpenAPI idleBridge { action := "clearAll" }
        = .descriptor { method := "GET", path := none, handler := none } ∧
      executeOpenAPIRequest idleBridge
        (mapClassicToOpenAPI idleBridge { action := "clearAll" }) { action := "clearAll" }
        = idleBridge ∧
      sendOpenAPI idleBridge (some { action := "clearAll" }) = idleBridge) :=
  ⟨rfl, (clearAll_before_and_after_resolution idleBridge { action := "clearAll" } rfl).1 rfl⟩

/-- C10: for every command whose action is outside the known action set,
mapClassicToOpenAPI yields no endpoint descriptor, and sending the command leaves the
whole bridge state unchanged: no HTTP request is recorded and no message is delivered. -/
theorem unknown_action_dropped (st : BridgeState) (cmd : Command)
    (hact : cmd.action ∉ knownActions) :
    (∀ e : Endpoint, mapClassicToOpenAPI st cmd ≠ .descriptor e) ∧
    sendOpenAPI st (some cmd) = st := by
  have hnone : lookupKey cmd.action (mapping st cmd) = none :=
    lookupKey_eq_none _ _ (by rw [mapping_keys]; exact hact)
  constructor
  · intro e
    unfold mapClassicToOpenAPI
    rw [hnone]
    simp only
    split <;> simp
  · simp only [sendOpenAPI, mapClassicToOpenAPI, hnone]
    by_cases hproto : cmd.action ∈ objectPrototypeKeys
    · simp only [hproto, if_true]
      rfl
    · simp only [hproto, if_false]

/-- C10 (witness): the action "constructor", a member inherited from Object.prototype. -/
theorem unknown_action_dropped_witness :
    "constructor" ∉ knownActions ∧
    ((∀ e : Endpoint,
        mapClassicToOpenAPI idleBridge { action := "constructor" } ≠ .descriptor e) ∧
      sendOpenAPI idleBridge (some { action := "constructor" }) = idleBridge) :=
  ⟨by decide, unknown_action_dropped idleBridge { action := "constructor" } (by decide)⟩

end ProWebRemote

/-! ## Public entry point and body builders -/

namespace ProWebRemote

theorem sendBody_ok (parse : String → Except JSError Command) (st : BridgeState)
    (jsonString : String) (cmd : Command) (h : parse jsonString = .ok cmd) :
    sendBody parse st jsonString = .ok (sendOpenAPI st (some cmd)) := by
  unfold sendBody sendOpenAPI
  rw [h]
  simp only
  split <;> rfl

/-- C11: in OpenAPI mode `send` returns normally, whatever the input string and whatever
`JSON.parse` does with it: no exception reaches its caller.  When the string is not valid
JSON (`JSON.parse` raises), the `try` block of `sendOpenAPI` ends with that exception
before the endpoint mapper is reached, the `catch` takes it, and `send` leaves the bridge
state, with its record of HTTP requests and of delivered messages, exactly as it was.
More generally the state is unchanged whenever anything raises inside the `try` block,
and otherwise it is the state the mapper and the executor leave for the parsed command. -/
theorem send_malformed_json (parse : String → Except JSError Command) (st : BridgeState)
    (jsonString : String) :
    (∃ st1, send parse st jsonString = .ok st1) ∧
    (∀ err, parse jsonString = .error err →
      sendBody parse st jsonString = .error err ∧ send parse st jsonString = .ok st) ∧
    (∀ err, sendBody parse st jsonString = .error err → send parse st jsonString = .ok st) ∧
    (∀ cmd, parse jsonString = .ok cmd →
      send parse st jsonString = .ok (sendOpenAPI st (some cmd))) := by
  have hcatch : ∀ err, sendBody parse st jsonString = .error err →
      send parse st jsonString = .ok st := by
    intro err h
    simp only [send, h]
  refine ⟨?_, ?_, hcatch, ?_⟩
  · cases h : sendBody parse st jsonString with
    | ok st1 => exact ⟨st1, by simp only [send, h]⟩
    | error err => exact ⟨st, hcatch err h⟩
  · intro err hparse
    have hbody : sendBody parse st jsonString = .error err := by
      simp only [sendBody, hparse]
    exact ⟨hbody, hcatch err hbody⟩
  · intro cmd hparse
    simp only [send, sendBody_ok parse st jsonString cmd hparse]

/-- C11 (witness): the text "oops" on an idle bridge: the parser raises a SyntaxError, the
`try` block ends with it, and `send` returns normally with the bridge as it was. -/
theorem send_malformed_json_witness :
    sampleParse "oops" = .error (.error "SyntaxError: Unexpected token") ∧
    sendBody sampleParse idleBridge "oops" = .error (.error "SyntaxError: Unexpected token") ∧
    send sampleParse idleBridge "oops" = .ok idleBridge :=
  ⟨rfl,
    ((send_malformed_json sampleParse idleBridge "oops").2.1 _ rfl).1,
    ((send_malformed_json sampleParse idleBridge "oops").2.1 _ rfl).2⟩

/-- The same parser on the three kinds of text: a command issues its request, the text
`null` and a malformed text issue nothing. -/
theorem send_sampleParse :
    (send sampleParse idleBridge libraryText).map
        (fun s => s.requests.map (fun r => (r.method, r.url)))
      = .ok [("GET", "http://pro:1025/v1/libraries")] ∧
    send sampleParse idleBridge "null" = .ok idleBridge ∧
    send sampleParse idleBridge "oops" = .ok idleBridge :=
  ⟨rfl, rfl, rfl⟩

/-- C12: buildClockUpdate always sets name to clockName; for clockType "0" the body is
exactly name, type countdown, duration clockTime and allows_overrun (clockOverrun === "1");
for "1" exactly name, type countdown_to_time and time_of_day clockElapsedTime; for "2"
exactly name and type elapsed.  A key shared by the bodies of two different discriminants
is name or type. -/
theorem clock_update_body (cmd : Command) :
    (buildClockUpdate cmd).get "name" = cmd.clockName ∧
    (cmd.clockType = .str "0" →
      buildClockUpdate cmd = .obj
        [ ("name", cmd.clockName), ("type", .str "countdown"), ("duration", cmd.clockTime),
          ("allows_overrun", .bool (cmd.clockOverrun.strictEq (.str "1"))) ]) ∧
    (cmd.clockType = .str "1" →
      buildClockUpdate cmd = .obj
        [ ("name", cmd.clockName), ("type", .str "countdown_to_time"),
          ("time_of_day", cmd.clockElapsedTime) ]) ∧
    (cmd.clockType = .str "2" →
      buildClockUpdate cmd = .obj [ ("name", cmd.clockName), ("type", .str "elapsed") ]) ∧
    (∀ other : Command, ∀ s t : String,
      cmd.clockType = .str s → other.clockType = .str t →
      s ∈ ["0", "1", "2"] → t ∈ ["0", "1", "2"] → s ≠ t →
      ∀ key, key ∈ (buildClockUpdate cmd).keys → key ∈ (buildClockUpdate other).keys →
        key = "name" ∨ key = "type") := by
  refine ⟨?_, ?_, ?_, ?_, ?_⟩
  · unfold buildClockUpdate
    split
    · rfl
    · split
      · rfl
      · split <;> rfl
  · intro h
    simp [buildClockUpdate, h, JSValue.strictEq]
  · intro h
    simp [buildClockUpdate, h, JSValue.strictEq]
  · intro h
    simp [buildClockUpdate, h, JSValue.strictEq]
  · intro other s t hs ht hsm htm hne key hk hk2
    simp only [List.mem_cons, List.mem_singleton, List.not_mem_nil, or_false] at hsm htm
    rcases hsm with rfl | rfl | rfl <;> rcases htm with rfl | rfl | rfl <;>
      first
      | exact absurd rfl hne
      | (simp [buildClockUpdate, hs, ht, JSValue.strictEq, mem_keys] at hk hk2
         aesop)

end ProWebRemote

namespace ProWebRemote

/-- C12 (witness): a countdown clock allowed to overrun. -/
theorem clock_update_body_witness :
    ({ action := "clockUpdate", clockName := .str "Sermon", clockType := .str "0",
       clockTime := .str "00:05:00", clockOverrun := .str "1" } : Command).clockType = .str "0" ∧
    buildClockUpdate
        { action := "clockUpdate", clockName := .str "Sermon", clockType := .str "0",
          clockTime := .str "00:05:00", clockOverrun := .str "1" }
      = .obj
        [ ("name", .str "Sermon"), ("type", .str "countdown"), ("duration", .str "00:05:00"),
          ("allows_overrun", .bool ((JSValue.str "1").strictEq (.str "1"))) ] :=
  ⟨rfl,
    (clock_update_body
      { action := "clockUpdate", clockName := .str "Sermon", clockType := .str "0",
        clockTime := .str "00:05:00", clockOverrun := .str "1" }).2.1 rfl⟩

theorem setField_of_not_mem (key : String) (v : JSValue) (body : List (String × JSValue))
    (h : key ∉ body.map Prod.fst) : JSValue.setField key v body = body ++ [(key, v)] := by
  induction body with
  | nil => rfl
  | cons kv rest ih =>
    obtain ⟨k, w⟩ := kv
    simp only [List.map_cons, List.mem_cons, not_or] at h
    have hk : ¬ k = key := fun e => h.1 e.symm
    simp [JSValue.setField, hk, ih h.2]

theorem messageLoop_eq_zip (values : List JSValue) :
    ∀ (ks : List JSValue) (i : Nat) (body : List (String × JSValue)),
      (ks.map JSValue.toStr).Nodup → "__proto__" ∉ ks.map JSValue.toStr →
      (∀ k ∈ ks.map JSValue.toStr, k ∉ body.map Prod.fst) →
      i + ks.length ≤ values.length →
      messageLoop values ks i body
        = body ++ List.zip (ks.map JSValue.toStr) (values.drop i) := by
  intro ks
  induction ks with
  | nil => intro i body _ _ _ _; simp [messageLoop]
  | cons k ks ih =>
    intro i body hnodup hproto hfresh hlen
    simp only [List.map_cons, List.nodup_cons, List.mem_cons, not_or, List.length_cons] at *
    have hi : i < values.length := by omega
    have hk : k.toStr ∉ body.map Prod.fst := hfresh k.toStr (Or.inl rfl)
    have hne : ¬ k.toStr = "__proto__" := fun e => hproto.1 e.symm
    have hdrop : values.drop i = values.getD i .undefined :: values.drop (i + 1) := by
      rw [List.drop_eq_getElem_cons hi]
      simp [List.getD_eq_getElem?_getD, List.getElem?_eq_getElem hi]
    unfold messageLoop
    rw [assignField, if_neg hne, setField_of_not_mem _ _ _ hk,
      ih (i + 1) _ hnodup.2 hproto.2 ?_ (by omega), hdrop]
    · simp
    · intro k2 hk2
      simp only [List.map_append, List.map_cons, List.map_nil, List.mem_append,
        List.mem_singleton, not_or]
      refine ⟨hfresh k2 (Or.inr hk2), ?_⟩
      intro e
      exact hnodup.1 (e ▸ hk2)

theorem lookup_zip (ks : List String) :
    ∀ (values : List JSValue) (i : Nat) (hk : i < ks.length) (hv : i < values.length),
      ks.Nodup → JSValue.lookup (ks.get ⟨i, hk⟩) (List.zip ks values) = values.get ⟨i, hv⟩ := by
  induction ks with
  | nil => intro values i hk; exact absurd hk (Nat.not_lt_zero _)
  | cons k ks ih =>
    intro values i hk hv hnodup
    cases values with
    | nil => exact absurd hv (Nat.not_lt_zero _)
    | cons v values =>
      cases i with
      | zero => simp [JSValue.lookup]
      | succ i =>
        simp only [List.nodup_cons] at hnodup
        simp only [List.length_cons, Nat.add_lt_add_iff_right] at hk hv
        have hne : ¬ k = ks.get ⟨i, hk⟩ := fun e => hnodup.1 (e ▸ List.get_mem _ _ _)
        simp only [List.zip_cons_cons, JSValue.lookup, List.get_cons_succ, hne, if_false]
        exact ih values i hk hv hnodup.2

/-- C13 (counterexample): for the single key "__proto__" with value "x" the body has
no own property: the assignment goes to the accessor of Object.prototype. -/
theorem message_body_drops_proto_key :
    buildMessageBody
        { action := "messageSend", messageKeys := some [.str "__proto__"],
          messageValues := some [.str "x"] }
      = .obj [] ∧
    (buildMessageBody
        { action := "messageSend", messageKeys := some [.str "__proto__"],
          messageValues := some [.str "x"] }).keys = [] := by
  exact ⟨rfl, rfl⟩

/-- C13 (amended): for every command whose messageKeys and messageValues are lists of
equal length with pairwise-distinct keys, none of them "__proto__", the body is the
mapping of the keys to the values: reading messageKeys[i] in it gives messageValues[i]
for every i, and a name is an own property of the body exactly when it is one of the
keys.  When either list is absent the body is the empty mapping.  Nothing is said of the
order in which the body lists its properties. -/
theorem message_body_zip (cmd : Command) :
    (∀ keys values : List JSValue,
      cmd.messageKeys = some keys → cmd.messageValues = some values →
      keys.length = values.length → (keys.map JSValue.toStr).Nodup →
      "__proto__" ∉ keys.map JSValue.toStr →
      (∀ (i : Nat) (hk : i < keys.length) (hv : i < values.length),
        (buildMessageBody cmd).get (keys.get ⟨i, hk⟩).toStr = values.get ⟨i, hv⟩) ∧
      (∀ name : String, name ∈ (buildMessageBody cmd).keys ↔ name ∈ keys.map JSValue.toStr)) ∧
    ((cmd.messageKeys = none ∨ cmd.messageValues = none) → buildMessageBody cmd = .obj []) := by
  constructor
  · intro keys values hk hv hlen hnodup hproto
    have hbody : buildMessageBody cmd = .obj (List.zip (keys.map JSValue.toStr) values) := by
      unfold buildMessageBody
      rw [hk, hv]
      simp only
      rw [messageLoop_eq_zip values keys 0 [] hnodup hproto (by simp) (by omega)]
      simp
    refine ⟨?_, ?_⟩
    · intro i hki hvi
      rw [hbody]
      have hki2 : i < (keys.map JSValue.toStr).length := by simpa using hki
      have := lookup_zip (keys.map JSValue.toStr) values i hki2 hvi hnodup
      simpa [JSValue.get, JSValue.prop] using this
    · intro name
      rw [hbody, mem_keys, List.map_fst_zip]
      simp [hlen]
  · intro h
    unfold buildMessageBody
    rcases h with h | h
    · rw [h]
    · rw [h]
      cases cmd.messageKeys <;> rfl

/-- C13 (witness): the keys "b", "1", "a", "0", which a JavaScript object lists as "0", "1",
"b", "a": each key reads back its own value. -/
theorem message_body_zip_witness :
    [JSValue.str "b", JSValue.str "1", JSValue.str "a", JSValue.str "0"].length
      = [JSValue.str "Ann", JSValue.num 4, JSValue.null, JSValue.bool true].length ∧
    ([JSValue.str "b", JSValue.str "1", JSValue.str "a", JSValue.str "0"].map
      JSValue.toStr).Nodup ∧
    "__proto__" ∉ [JSValue.str "b", JSValue.str "1", JSValue.str "a", JSValue.str "0"].map
      JSValue.toStr ∧
    (buildMessageBody
        { action := "messageSend",
          messageKeys := some [.str "b", .str "1", .str "a", .str "0"],
          messageValues := some [.str "Ann", .num 4, .null, .bool true] }).get "1"
      = .num 4 ∧
    ("0" ∈ (buildMessageBody
        { action := "messageSend",
          messageKeys := some [.str "b", .str "1", .str "a", .str "0"],
          messageValues := some [.str "Ann", .num 4, .null, .bool true] }).keys ↔
      "0" ∈ [JSValue.str "b", JSValue.str "1", JSValue.str "a", JSValue.str "0"].map
        JSValue.toStr) :=
  ⟨rfl, by decide, by decide,
    ((message_body_zip
      { action := "messageSend",
        messageKeys := some [.str "b", .str "1", .str "a", .str "0"],
        messageValues := some [.str "Ann", .num 4, .null, .bool true] }).1
      [.str "b", .str "1", .str "a", .str "0"] [.str "Ann", .num 4, .null, .bool true]
      rfl rfl rfl (by decide) (by decide)).1 1 (by decide) (by decide),
    ((message_body_zip
      { action := "messageSend",
        messageKeys := some [.str "b", .str "1", .str "a", .str "0"],
        messageValues := some [.str "Ann", .num 4, .null, .bool true] }).1
      [.str "b", .str "1", .str "a", .str "0"] [.str "Ann", .num 4, .null, .bool true]
      rfl rfl rfl (by decide) (by decide)).2 "0"⟩

end ProWebRemote

/-! ## Stream reader: framing -/

namespace ProWebRemote

theorem splitChars_cons_sep (sep : Char) (cs : List Char) :
    splitChars sep (sep :: cs) = [] :: splitChars sep cs := by
  simp [splitChars]

theorem splitChars_cons_ne (sep c : Char) (cs x : List Char) (t : List (List Char))
    (hc : ¬ c = sep) (h : splitChars sep cs = x :: t) :
    splitChars sep (c :: cs) = (c :: x) :: t := by
  simp [splitChars, hc, h]

theorem splitChars_append_of (sep : Char) (b : List Char) :
    ∀ (a : List Char) (front : List (List Char)) (last : List Char),
      splitChars sep a = front ++ [last] →
      splitChars sep (a ++ b) = front ++ splitChars sep (last ++ b) := by
  intro a
  induction a with
  | nil =>
    intro front last h
    cases front with
    | nil =>
      simp only [splitChars, List.nil_append, List.cons.injEq, and_true] at h
      subst h
      rfl
    | cons f front => cases front <;> simp [splitChars] at h
  | cons c a ih =>
    intro front last h
    by_cases hc : c = sep
    · subst hc
      rw [splitChars_cons_sep] at h
      cases front with
      | nil =>
        simp only [List.nil_append, List.cons.injEq] at h
        exact absurd h.2 (splitChars_ne_nil c a)
      | cons f front =>
        simp only [List.cons_append, List.cons.injEq] at h
        rw [List.cons_append, splitChars_cons_sep, ih front last h.2, ← h.1, List.cons_append]
    · cases hS : splitChars sep a with
      | nil => exact absurd hS (splitChars_ne_nil sep a)
      | cons x t =>
        rw [splitChars_cons_ne sep c a x t hc hS] at h
        cases front with
        | nil =>
          simp only [List.nil_append, List.cons.injEq] at h
          obtain ⟨h1, h2⟩ := h
          subst h1 h2
          have hx := ih [] x (by simpa using hS)
          rw [List.nil_append] at hx
          cases hxb : splitChars sep (x ++ b) with
          | nil => exact absurd hxb (splitChars_ne_nil sep _)
          | cons y u =>
            rw [hxb] at hx
            rw [List.nil_append, List.cons_append, List.cons_append,
              splitChars_cons_ne sep c (a ++ b) y u hc hx,
              splitChars_cons_ne sep c (x ++ b) y u hc hxb]
        | cons f front =>
          simp only [List.cons_append, List.cons.injEq] at h
          obtain ⟨h1, h2⟩ := h
          subst h1 h2
          have hx := ih (x :: front) last (by simpa using hS)
          rw [List.cons_append] at hx
          rw [List.cons_append, List.cons_append, splitChars_cons_ne sep c (a ++ b) _ _ hc hx]

theorem split_last (s : String) (sep : Char) :
    split s sep = (split s sep).dropLast ++ [lastPart (split s sep)] := by
  have hne : split s sep ≠ [] := by
    unfold split
    simpa using splitChars_ne_nil sep s.data
  have h1 := List.dropLast_append_getLast hne
  have h2 : lastPart (split s sep) = (split s sep).getLast hne := by
    unfold lastPart
    rw [List.getLastD_eq_getLast?, List.getLast?_eq_getLast _ hne]
    rfl
  rw [h2]
  exact h1.symm

theorem split_append (a b : String) (sep : Char) :
    split (a ++ b) sep = (split a sep).dropLast ++ split (lastPart (split a sep) ++ b) sep := by
  have hdecomp := split_last a sep
  have hchars : splitChars sep a.data
      = ((split a sep).dropLast.map String.data) ++ [(lastPart (split a sep)).data] := by
    have : (split a sep).map String.data = splitChars sep a.data := by
      unfold split
      rw [List.map_map]
      exact List.map_id _
    rw [← this]
    conv_lhs => rw [hdecomp]
    simp
  have := splitChars_append_of sep b.data a.data _ _ hchars
  unfold split at *
  rw [String.data_append, this, String.data_append, List.map_append, List.map_map]
  congr 1
  exact List.map_id _

theorem split_ne_nil (s : String) (sep : Char) : split s sep ≠ [] := by
  unfold split
  simpa using splitChars_ne_nil sep s.data

theorem split_of_no_sep (s : String) (sep : Char) (h : sep ∉ s.data) : split s sep = [s] := by
  unfold split
  rw [splitChars_of_no_sep sep s.data h]
  rfl

theorem lastPart_split_no_newline (s : String) (sep : Char) :
    sep ∉ (lastPart (split s sep)).data := by
  have hne := splitChars_ne_nil sep s.data
  have hmem := splitChars_no_sep sep s.data
  unfold lastPart split
  rw [List.getLastD_eq_getLast?, List.getLast?_map]
  cases hl : (splitChars sep s.data).getLast? with
  | none => simp [List.getLast?_eq_none_iff] at hl; exact absurd hl hne
  | some part =>
    simp only [Option.map_some', Option.getD_some]
    exact hmem part (List.mem_of_getLast?_eq_some hl)

theorem forEachLine_append {σ : Type} (onLine : σ → String → σ) (s : σ) (xs ys : List String) :
    forEachLine onLine s (xs ++ ys) = forEachLine onLine (forEachLine onLine s xs) ys := by
  simp [forEachLine, List.foldl_append]

theorem forEachLine_eq_filter {σ : Type} (onLine : σ → String → σ) (lines : List String) :
    ∀ s : σ, forEachLine onLine s lines
      = (lines.filter (fun line => !isBlankLine line)).foldl onLine s := by
  induction lines with
  | nil => intro s; rfl
  | cons line rest ih =>
    intro s
    by_cases hb : isBlankLine line = true
    · simpa [forEachLine, hb, List.filter] using ih s
    · simp only [Bool.not_eq_true] at hb
      simpa [forEachLine, hb, List.filter] using ih (onLine s line)

theorem lastPart_append (xs ys : List String) (hne : ys ≠ []) :
    lastPart (xs ++ ys) = lastPart ys := by
  unfold lastPart
  rw [List.getLastD_eq_getLast?, List.getLastD_eq_getLast?, List.getLast?_append,
    List.getLast?_eq_getLast _ hne]
  rfl

theorem readChunk_eq {σ : Type} (onLine : σ → String → σ) (r : StreamReader σ) (c : String) :
    readChunk onLine r c
      = { buffer := lastPart (split (r.buffer ++ c) '\n'),
          state := forEachLine onLine r.state (completeLines (r.buffer ++ c)) } := rfl

/-- The read loop after any chunks: the buffer is the last fragment of the text seen so
far and the callback has run on its complete lines. -/
theorem readLoop_eq {σ : Type} (onLine : σ → String → σ) (chunks : List String) :
    ∀ r : StreamReader σ, '\n' ∉ r.buffer.data →
      readLoop onLine r chunks
        = { buffer := lastPart (split (r.buffer ++ streamText chunks) '\n'),
            state := forEachLine onLine r.state (completeLines (r.buffer ++ streamText chunks)) } := by
  induction chunks with
  | nil =>
    intro r hr
    have hsplit : split (r.buffer ++ "") '\n' = [r.buffer] := by
      rw [String.append_empty]
      exact split_of_no_sep _ _ hr
    simp only [readLoop, List.foldl_nil, streamText, List.foldr_nil, completeLines, hsplit]
    rfl
  | cons c cs ih =>
    intro r _
    have hstep : readLoop onLine r (c :: cs) = readLoop onLine (readChunk onLine r c) cs := rfl
    have hbuf : '\n' ∉ (readChunk onLine r c).buffer.data :=
      lastPart_split_no_newline (r.buffer ++ c) '\n'
    have htext : r.buffer ++ streamText (c :: cs) = (r.buffer ++ c) ++ streamText cs := by
      simp [streamText, String.append_assoc]
    have hsplit := split_append (r.buffer ++ c) (streamText cs) '\n'
    have hne := split_ne_nil (lastPart (split (r.buffer ++ c) '\n') ++ streamText cs) '\n'
    rw [hstep, ih _ hbuf, htext, readChunk_eq]
    unfold completeLines
    rw [hsplit, lastPart_append _ _ hne, List.dropLast_append_of_ne_nil _ hne,
      forEachLine_append]

end ProWebRemote

/-! ## Decimal round trip of `parseInt` -/

namespace ProWebRemote

/-- Value of a run of decimal digits read after the value `a`. -/
theorem leadingDigits_digits :
    ∀ (ds : List Char) (acc : Option Nat), (∀ c ∈ ds, c.isDigit = true) → ds ≠ [] →
      JSValue.leadingDigits ds acc
        = some (ds.foldl (fun a c => a * 10 + (c.toNat - 48)) (acc.getD 0)) := by
  intro ds
  induction ds with
  | nil => intro acc _ h; exact absurd rfl h
  | cons c cs ih =>
    intro acc hd _
    have hc : c.isDigit = true := hd c (List.mem_cons_self _ _)
    have hcs : ∀ x ∈ cs, x.isDigit = true := fun x hx => hd x (List.mem_cons_of_mem _ hx)
    cases cs with
    | nil => simp [JSValue.leadingDigits, hc]
    | cons c2 cs2 =>
      rw [JSValue.leadingDigits, if_pos hc, ih _ hcs (by simp)]
      rfl

theorem digitChar_isDigit (k : Nat) (hk : k < 10) :
    (Nat.digitChar k).isDigit = true ∧ (Nat.digitChar k).toNat - 48 = k := by
  interval_cases k <;> decide

/-- The digits `toDigitsCore` puts in front of its accumulator. -/
theorem toDigitsCore_spec :
    ∀ (fuel n : Nat), n < fuel →
      ∃ pre : List Char, (∀ ds, Nat.toDigitsCore 10 fuel n ds = pre ++ ds) ∧
        (∀ c ∈ pre, c.isDigit = true) ∧ pre ≠ [] ∧
        ∀ a, pre.foldl (fun a c => a * 10 + (c.toNat - 48)) a = a * 10 ^ pre.length + n := by
  intro fuel
  induction fuel with
  | zero => intro n h; exact absurd h (Nat.not_lt_zero _)
  | succ fuel ih =>
    intro n hn
    have hd := digitChar_isDigit (n % 10) (Nat.mod_lt _ (by decide))
    by_cases h0 : n / 10 = 0
    · refine ⟨[Nat.digitChar (n % 10)], ?_, ?_, by simp, ?_⟩
      · intro ds
        simp [Nat.toDigitsCore, h0]
      · intro c hc
        simp only [List.mem_singleton] at hc
        rw [hc]
        exact hd.1
      · intro a
        have hlt : n < 10 := by
          by_contra hge
          have : 1 ≤ n / 10 := Nat.div_pos (by omega) (by decide)
          omega
        simp only [List.foldl_cons, List.foldl_nil, hd.2, List.length_singleton, pow_one]
        rw [Nat.mod_eq_of_lt hlt]
    · have hlt : n / 10 < fuel := by
        have : n / 10 < n := Nat.div_lt_self (by
          by_contra hz
          have : n = 0 := by omega
          simp [this] at h0) (by decide)
        omega
      obtain ⟨pre, hpre, hdig, _, hval⟩ := ih (n / 10) hlt
      refine ⟨pre ++ [Nat.digitChar (n % 10)], ?_, ?_, by simp, ?_⟩
      · intro ds
        simp [Nat.toDigitsCore, h0, hpre]
      · intro c hc
        rcases List.mem_append.mp hc with h | h
        · exact hdig c h
        · simp only [List.mem_singleton] at h
          rw [h]
          exact hd.1
      · intro a
        simp only [List.foldl_append, List.foldl_cons, List.foldl_nil, hval, hd.2,
          List.length_append, List.length_singleton, pow_succ]
        have := Nat.div_add_mod n 10
        nlinarith [Nat.div_add_mod n 10]

theorem toDigits_spec (n : Nat) :
    (∀ c ∈ Nat.toDigits 10 n, c.isDigit = true) ∧ Nat.toDigits 10 n ≠ [] ∧
    (Nat.toDigits 10 n).foldl (fun a c => a * 10 + (c.toNat - 48)) 0 = n := by
  obtain ⟨pre, hpre, hdig, hne, hval⟩ := toDigitsCore_spec (n + 1) n (Nat.lt_succ_self n)
  have h : Nat.toDigits 10 n = pre := by
    unfold Nat.toDigits
    rw [hpre, List.append_nil]
  rw [h]
  refine ⟨hdig, hne, ?_⟩
  rw [hval 0]
  simp

theorem isDigit_bounds (c : Char) (h : c.isDigit = true) : 48 ≤ c.toNat ∧ c.toNat ≤ 57 := by
  simp only [Char.isDigit, Bool.and_eq_true, decide_eq_true_eq] at h
  exact ⟨h.1, h.2⟩

theorem parseDigits_digits (ds : List Char) (hd : ∀ c ∈ ds, c.isDigit = true) :
    JSValue.parseDigits ds = JSValue.leadingDigits ds none := by
  unfold JSValue.parseDigits
  split
  · have := isDigit_bounds 'x' (hd 'x' (by simp))
    exact absurd this (by decide)
  · have := isDigit_bounds 'X' (hd 'X' (by simp))
    exact absurd this (by decide)
  · rfl

theorem dropWhile_isSpace_digits (ds : List Char) (c : Char) (hc : c.isDigit = true ∨ c = '-') :
    (c :: ds).dropWhile JSValue.isSpace = c :: ds := by
  have hns : JSValue.isSpace c = false := by
    rcases hc with h | h
    · have hb := isDigit_bounds c h
      simp only [JSValue.isSpace, Bool.or_eq_false_iff, decide_eq_false_iff_not,
        Bool.and_eq_false_imp, decide_eq_true_eq]
      simp only [List.mem_cons, List.mem_singleton, List.not_mem_nil, or_false]
      omega
    · subst h; decide
  simp [List.dropWhile, hns]

theorem log2Floor_le (k : Nat) :
    ∀ (fuel n : Nat), n < 2 ^ (k + 1) → JSValue.log2Floor fuel n ≤ k := by
  induction k with
  | zero =>
    intro fuel n hn
    cases fuel with
    | zero => simp [JSValue.log2Floor]
    | succ fuel =>
      have h2 : n < 2 := by simpa using hn
      simp [JSValue.log2Floor, h2]
  | succ k ih =>
    intro fuel n hn
    cases fuel with
    | zero => simp [JSValue.log2Floor]
    | succ fuel =>
      unfold JSValue.log2Floor
      split
      · exact Nat.zero_le _
      · have hhalf : n / 2 < 2 ^ (k + 1) := by
          rw [Nat.div_lt_iff_lt_mul (by decide)]
          calc n < 2 ^ (k + 1 + 1) := hn
            _ = 2 ^ (k + 1) * 2 := by rw [pow_succ]
        have := ih fuel (n / 2) hhalf
        omega

/-- Rounding is exact on an integer that fits the significand. -/
theorem roundDouble_exact (x e : Nat) (he : e ≤ 1074) :
    (x <<< 1074) / (1 <<< e) = x * 2 ^ (1074 - e) ∧ (x <<< 1074) % (1 <<< e) = 0 := by
  obtain ⟨d, hd⟩ : ∃ d, 1074 = e + d := ⟨1074 - e, by omega⟩
  have hpos : 0 < 2 ^ e := Nat.two_pow_pos _
  have hsplit : x <<< 1074 = 2 ^ e * (x * 2 ^ d) := by
    rw [Nat.shiftLeft_eq, hd, pow_add]
    ring
  have hb : (1 : Nat) <<< e = 2 ^ e := by rw [Nat.shiftLeft_eq, one_mul]
  have hde : 1074 - e = d := by omega
  rw [hsplit, hb, hde]
  exact ⟨Nat.mul_div_cancel_left _ hpos, Nat.mul_mod_right _ _⟩

/-- Every integer below `2 ^ 53` is a Number: rounding leaves it as it is. -/
theorem doubleInteger_small (x : Nat) (hx : x < 9007199254740992) :
    JSValue.doubleInteger x 1 = some x := by
  have hL : JSValue.log2Floor x x ≤ 52 := log2Floor_le 52 x x (by simpa using hx)
  have h1 : JSValue.log2Floor 1 1 = 0 := by decide
  unfold JSValue.doubleInteger JSValue.roundDouble
  simp only [h1, Nat.sub_zero]
  generalize hE : (if x <<< 1022 < 1 <<< (JSValue.log2Floor x x + 1022)
    then JSValue.log2Floor x x + 1022 - 1 else JSValue.log2Floor x x + 1022) = e
  have he : e ≤ 1074 := by
    rw [← hE]
    split <;> omega
  obtain ⟨hdiv, hmod⟩ := roundDouble_exact x e he
  rw [hdiv, hmod]
  have hne : ¬ ((1 : Nat) <<< e < 2 * 0 ∨ ((1 : Nat) <<< e = 2 * 0 ∧ x * 2 ^ (1074 - e) % 2 = 1)) := by
    have hpos : 0 < 2 ^ e := Nat.two_pow_pos _
    rw [Nat.shiftLeft_eq, one_mul]
    omega
  rw [if_neg hne]
  have hv : (x * 2 ^ (1074 - e)) <<< e = x * 2 ^ 1074 := by
    have hsum : 1074 - e + e = 1074 := by omega
    rw [Nat.shiftLeft_eq, mul_assoc, ← pow_add, hsum]
  simp only [hv]
  have hmk : ∀ k : Nat, x * 2 ^ k % (1 <<< k) = 0 := by
    intro k
    rw [Nat.shiftLeft_eq, one_mul]
    exact Nat.mul_mod_left _ _
  have hm : x * 2 ^ 1074 % (1 <<< 1074) = 0 := hmk 1074
  have hltk : ∀ j k : Nat, x < 2 ^ j → x * 2 ^ k < 1 <<< (j + k) := by
    intro j k hj
    rw [Nat.shiftLeft_eq, one_mul, pow_add]
    exact Nat.mul_lt_mul_of_pos_right hj (Nat.two_pow_pos _)
  have h53 : ∀ k : Nat, 53 ≤ k → x < 2 ^ k := by
    intro k hk
    have h2 : (9007199254740992 : Nat) = 2 ^ 53 := by norm_num
    exact lt_of_lt_of_le (h2 ▸ hx) (Nat.pow_le_pow_right (Nat.succ_pos 1) hk)
  have hlt : x * 2 ^ 1074 < 1 <<< 2098 := hltk 1024 1074 (h53 1024 (by decide))
  have hshift : ∀ k : Nat, (x * 2 ^ k) >>> k = x := by
    intro k
    rw [Nat.shiftRight_eq_div_pow]
    exact Nat.mul_div_cancel _ (Nat.two_pow_pos _)
  rw [if_pos ⟨hm, hlt⟩, hshift 1074]

theorem closest_mem (x : Nat) :
    ∀ (l : List JSValue.Digits) (c : JSValue.Digits), JSValue.closest x l = some c → c ∈ l := by
  intro l
  induction l with
  | nil => intro c h; simp [JSValue.closest] at h
  | cons a rest ih =>
    intro c h
    unfold JSValue.closest at h
    cases hr : JSValue.closest x rest with
    | none =>
      rw [hr] at h
      simp only [Option.some.injEq] at h
      subst h
      exact List.mem_cons_self _ _
    | some b =>
      rw [hr] at h
      simp only at h
      split at h
      · simp only [Option.some.injEq] at h
        subst h
        exact List.mem_cons_self _ _
      · simp only [Option.some.injEq] at h
        subst h
        exact List.mem_cons_of_mem _ (ih b hr)

/-- The digits printed for a Number denote a value that rounds back to it. -/
theorem shortestDigits_round (x : Nat) (hx : JSValue.doubleInteger x 1 = some x) :
    JSValue.doubleInteger (JSValue.shortestDigits x).value 1 = some x := by
  unfold JSValue.shortestDigits
  simp only
  split
  · rename_i c hc
    obtain ⟨i, _, hi⟩ := List.exists_of_findSome?_eq_some hc
    have hmem := closest_mem x _ c hi
    unfold JSValue.digitCandidates at hmem
    rw [List.mem_filter] at hmem
    have := hmem.2
    simp only [Bool.and_eq_true, beq_iff_eq] at this
    exact this.2
  · simpa [JSValue.Digits.value] using hx

/-- The call `parseInt` on a text made of the decimal digits of `v`. -/
theorem parseInt_digits (w : JSValue) (v x : Nat) (hw : w.toStr.data = Nat.toDigits 10 v)
    (hx : JSValue.doubleInteger v 1 = some x) : w.parseInt = some (Int.ofNat x) := by
  obtain ⟨hdig, hne, hval⟩ := toDigits_spec v
  unfold JSValue.parseInt
  rw [hw]
  cases hds : Nat.toDigits 10 v with
  | nil => exact absurd hds hne
  | cons c ds =>
    rw [hds] at hdig hval
    have hc : c.isDigit = true := hdig c (List.mem_cons_self _ _)
    have hcb := isDigit_bounds c hc
    rw [dropWhile_isSpace_digits ds c (Or.inl hc)]
    split
    · rename_i heq
      simp only [List.cons.injEq] at heq
      rw [heq.1] at hcb
      exact absurd hcb (by decide)
    · rename_i heq
      simp only [List.cons.injEq] at heq
      rw [heq.1] at hcb
      exact absurd hcb (by decide)
    · rw [parseDigits_digits _ hdig, leadingDigits_digits _ _ hdig (by simp)]
      simp only [Option.getD_none, hval, Option.some_bind, hx, Option.map_some']

/-- The call `parseInt` on a minus sign followed by the decimal digits of `v`. -/
theorem parseInt_minus_digits (w : JSValue) (v x : Nat)
    (hw : w.toStr.data = '-' :: Nat.toDigits 10 v)
    (hx : JSValue.doubleInteger v 1 = some x) : w.parseInt = some (- Int.ofNat x) := by
  obtain ⟨hdig, hne, hval⟩ := toDigits_spec v
  unfold JSValue.parseInt
  rw [hw, dropWhile_isSpace_digits _ '-' (Or.inr rfl)]
  simp only
  rw [parseDigits_digits _ hdig, leadingDigits_digits _ _ hdig hne]
  simp only [Option.getD_none, hval, Option.some_bind, hx, Option.map_some']

/-- The call `parseInt(n)` on an integer Number of magnitude below `10 ^ 21` gives the
Number back. -/
theorem parseInt_num (n : Int) (hlt : n.natAbs < 1000000000000000000000)
    (hnum : JSValue.isNumber n = true) : (JSValue.num n).parseInt = some n := by
  have hx : JSValue.doubleInteger n.natAbs 1 = some n.natAbs := by
    simpa [JSValue.isNumber] using hnum
  by_cases hsmall : n.natAbs < 9007199254740992
  · have hstr : (JSValue.num n).toStr = toString n := by
      show JSValue.numberToString n = toString n
      unfold JSValue.numberToString
      rw [if_pos hsmall]
    cases n with
    | ofNat m =>
      have hw : (JSValue.num (Int.ofNat m)).toStr.data = Nat.toDigits 10 m := by
        rw [hstr]; rfl
      exact parseInt_digits _ m m hw hx
    | negSucc m =>
      have hw : (JSValue.num (Int.negSucc m)).toStr.data = '-' :: Nat.toDigits 10 (m + 1) := by
        rw [hstr]; rfl
      exact parseInt_minus_digits _ (m + 1) (m + 1) hw hx
  · have hr := shortestDigits_round n.natAbs hx
    cases n with
    | ofNat m =>
      have hneg : ¬ (Int.ofNat m < 0) := by simp
      have hw : (JSValue.num (Int.ofNat m)).toStr.data
          = Nat.toDigits 10 (JSValue.shortestDigits m).value := by
        have hm : (Int.ofNat m).natAbs = m := rfl
        rw [hm] at hsmall hlt hx
        show (JSValue.numberToString (Int.ofNat m)).data = _
        unfold JSValue.numberToString
        rw [if_neg (by rw [hm]; exact hsmall), hm]
        simp only [hx]
        rw [if_pos hlt, if_neg hneg, String.data_append]
        rfl
      exact parseInt_digits _ _ m hw hr
    | negSucc m =>
      have hneg : Int.negSucc m < 0 := Int.negSucc_lt_zero m
      have hw : (JSValue.num (Int.negSucc m)).toStr.data
          = '-' :: Nat.toDigits 10 (JSValue.shortestDigits (m + 1)).value := by
        have hm : (Int.negSucc m).natAbs = m + 1 := rfl
        rw [hm] at hsmall hlt hx
        show (JSValue.numberToString (Int.negSucc m)).data = _
        unfold JSValue.numberToString
        rw [if_neg (by rw [hm]; exact hsmall), hm]
        simp only [hx]
        rw [if_pos hlt, if_pos hneg, String.data_append]
        rfl
      exact parseInt_minus_digits _ _ (m + 1) hw hr

/-- Every integer of magnitude below `2 ^ 53` is a Number. -/
theorem isNumber_small (n : Int) (h : n.natAbs < 9007199254740992) :
    JSValue.isNumber n = true := by
  simp [JSValue.isNumber, doubleInteger_small _ h]

end ProWebRemote

/-! ## Stream reader and update router -/

namespace ProWebRemote

theorem foldl_snoc {α : Type} (xs : List α) :
    ∀ acc : List α, xs.foldl (fun acc x => acc ++ [x]) acc = acc ++ xs := by
  induction xs with
  | nil => intro acc; simp
  | cons x xs ih => intro acc; simp [ih]

/-- C14: for every text stream and every way of cutting it into chunks, the read loop
ends in the same reader as when the whole text arrives as one chunk: the line callback
has run, in order, on exactly the non-blank complete (newline-terminated) lines of the
text, and the unterminated last fragment stays in the buffer without being dispatched. -/
theorem stream_framing_chunk_independent {σ : Type} (onLine : σ → String → σ) (s : σ)
    (chunks : List String) :
    readLoop onLine { buffer := "", state := s } chunks
      = readLoop onLine { buffer := "", state := s } [streamText chunks] ∧
    (readLoop onLine { buffer := "", state := s } chunks).state
      = ((completeLines (streamText chunks)).filter (fun line => !isBlankLine line)).foldl
          onLine s ∧
    (readLoop onLine { buffer := "", state := s } chunks).buffer
      = lastPart (split (streamText chunks) '\n') ∧
    (readLoop (fun (acc : List String) line => acc ++ [line])
        { buffer := "", state := [] } chunks).state
      = (completeLines (streamText chunks)).filter (fun line => !isBlankLine line) := by
  have hempty : '\n' ∉ ("" : String).data := by decide
  have hone : streamText [streamText chunks] = streamText chunks := by
    simp [streamText]
  have hgen : ∀ {τ : Type} (f : τ → String → τ) (t : τ),
      readLoop f { buffer := "", state := t } chunks
        = { buffer := lastPart (split (streamText chunks) '\n'),
            state := forEachLine f t (completeLines (streamText chunks)) } := by
    intro τ f t
    have := readLoop_eq f chunks { buffer := "", state := t } hempty
    simpa using this
  refine ⟨?_, ?_, ?_, ?_⟩
  · rw [hgen]
    have := readLoop_eq onLine [streamText chunks] { buffer := "", state := s } hempty
    rw [this, hone]
    simp
  · rw [hgen, forEachLine_eq_filter]
  · rw [hgen]
  · rw [hgen, forEachLine_eq_filter, foldl_snoc]
    simp

theorem foldl_dispatchLine {σ : Type} (parse : String → Option JSValue)
    (route : σ → JSValue → σ) (lines : List String) :
    ∀ s : σ, lines.foldl (dispatchLine parse route) s
      = (lines.filterMap parse).foldl route s := by
  induction lines with
  | nil => intro s; rfl
  | cons line rest ih =>
    intro s
    cases hp : parse line with
    | none => simpa [dispatchLine, hp, List.filterMap_cons] using ih s
    | some update => simpa [dispatchLine, hp, List.filterMap_cons] using ih (route s update)

/-- C15: for every sequence of complete stream lines, the effect of the line loop is
that of handing to the router, in stream order, exactly the parses of the non-blank lines
that parse; a line that fails to parse changes nothing and the loop goes on with the next
line.  As blank lines never parse, these are the parses of all well-formed lines. -/
theorem parse_failure_isolated {σ : Type} (parse : String → Option JSValue)
    (route : σ → JSValue → σ) (s : σ) (lines : List String) :
    forEachLine (dispatchLine parse route) s lines
      = ((lines.filter (fun line => !isBlankLine line)).filterMap parse).foldl route s ∧
    forEachLine (dispatchLine parse (fun (acc : List JSValue) update => acc ++ [update])) [] lines
      = (lines.filter (fun line => !isBlankLine line)).filterMap parse ∧
    ((∀ line, isBlankLine line = true → parse line = none) →
      forEachLine (dispatchLine parse route) s lines = (lines.filterMap parse).foldl route s ∧
      forEachLine (dispatchLine parse (fun (acc : List JSValue) update => acc ++ [update])) []
          lines
        = lines.filterMap parse) := by
  have hfilter : (∀ line, isBlankLine line = true → parse line = none) →
      (lines.filter (fun line => !isBlankLine line)).filterMap parse = lines.filterMap parse := by
    intro hblank
    induction lines with
    | nil => rfl
    | cons line rest ih =>
      by_cases hb : isBlankLine line = true
      · simp [List.filter, hb, hblank line hb, ih]
      · simp only [Bool.not_eq_true] at hb
        simp [List.filter, hb, List.filterMap_cons, ih]
  have h1 : ∀ {τ : Type} (r : τ → JSValue → τ) (t : τ),
      forEachLine (dispatchLine parse r) t lines
        = ((lines.filter (fun line => !isBlankLine line)).filterMap parse).foldl r t := by
    intro τ r t
    rw [forEachLine_eq_filter, foldl_dispatchLine]
  refine ⟨h1 route s, ?_, ?_⟩
  · rw [h1, foldl_snoc]
    simp
  · intro hblank
    rw [h1, h1, hfilter hblank, foldl_snoc]
    simp

/-- C15 (witness): three lines, the middle one malformed, with a parser that accepts
only the text of an empty array. -/
theorem parse_failure_isolated_witness :
    (∀ line, isBlankLine line = true →
      (fun l : String => if l = "[]" then some (JSValue.arr []) else none) line = none) ∧
    (forEachLine
        (dispatchLine (fun l : String => if l = "[]" then some (JSValue.arr []) else none)
          (fun (n : Nat) _ => n + 1)) 0 ["[]", "oops", "[]"]
      = (["[]", "oops", "[]"].filterMap
          (fun l : String => if l = "[]" then some (JSValue.arr []) else none)).foldl
          (fun (n : Nat) _ => n + 1) 0) :=
  have hblank : ∀ line, isBlankLine line = true →
      (fun l : String => if l = "[]" then some (JSValue.arr []) else none) line = none := by
    intro line hb
    by_cases h : line = "[]"
    · subst h
      exact absurd hb (by decide)
    · simp [h]
  ⟨hblank,
    ((parse_failure_isolated
      (fun l : String => if l = "[]" then some (JSValue.arr []) else none)
      (fun (n : Nat) _ => n + 1) 0 ["[]", "oops", "[]"]).2.2 hblank).1⟩

/-- C16 (counterexample): the router passes the index through `parseInt`, which reads
the text of the number, and a Number of magnitude `10 ^ 21` or more is written in
exponent form.  The update of topic presentation/slide_index with index `10 ^ 21`
(`1e+21`) emits slideIndex 1, the update with index `-2 * 10 ^ 21` emits slideIndex -2;
both indices are Number values. -/
theorem slide_index_exponent_form :
    JSValue.isNumber 1000000000000000000000 = true ∧
    JSValue.isNumber (-2000000000000000000000) = true ∧
    (JSValue.num 1000000000000000000000).toStr = "1e+21" ∧
    handleStatusUpdate (fun _ => "") idleBridge
        (.obj [ ("url", .str "presentation/slide_index"),
                ("data", .obj [ ("presentation_index", .obj
                  [ ("index", .num 1000000000000000000000),
                    ("presentation_id", .obj [("uuid", .str "abc")]) ]) ]) ])
      = (simulateMessage idleBridge
          (.obj [ ("action", .str "presentationSlideIndex"), ("slideIndex", .num 1),
                  ("presentationPath", .str "abc") ]), none) ∧
    handleStatusUpdate (fun _ => "") idleBridge
        (.obj [ ("url", .str "presentation/slide_index"),
                ("data", .obj [ ("presentation_index", .obj
                  [ ("index", .num (-2000000000000000000000)),
                    ("presentation_id", .obj [("uuid", .str "abc")]) ]) ]) ])
      = (simulateMessage idleBridge
          (.obj [ ("action", .str "presentationSlideIndex"), ("slideIndex", .num (-2)),
                  ("presentationPath", .str "abc") ]), none) :=
  have hp : (JSValue.num 1000000000000000000000).parseInt = some 1 := by decide
  have hm : (JSValue.num (-2000000000000000000000)).parseInt = some (-2) := by decide
  ⟨by decide, by decide, by decide,
    by simp [handleStatusUpdate, slideIndexUpdate, slideIndexMessage, JSValue.get, JSValue.prop,
      JSValue.lookup, JSValue.truthy, JSValue.strictEq, JSValue.isDefined, JSValue.ofNumber, hp],
    by simp [handleStatusUpdate, slideIndexUpdate, slideIndexMessage, JSValue.get, JSValue.prop,
      JSValue.lookup, JSValue.truthy, JSValue.strictEq, JSValue.isDefined, JSValue.ofNumber, hm]⟩

/-- C16 (amended): for every integer Number n of magnitude below `10 ^ 21` (every integer
of magnitude below `2 ^ 53` is one) and non-empty UUID u, the update of topic
presentation/slide_index with payload presentation_index = (index n, presentation_id with
uuid u) makes the router call simulateMessage once, with the message of action
presentationSlideIndex, slideIndex n and presentationPath u, and raise nothing; the update
of topic announcement/slide_index carrying n and u under announcement_index does the
same, with the same message. -/
theorem slide_index_update (rgbHex : JSValue → String) (st : BridgeState) (n : Int)
    (u : String) (hn : n.natAbs < 1000000000000000000000) (hnum : JSValue.isNumber n = true)
    (hu : u ≠ "") :
    handleStatusUpdate rgbHex st
        (.obj [ ("url", .str "presentation/slide_index"),
                ("data", .obj [ ("presentation_index", .obj
                  [ ("index", .num n), ("presentation_id", .obj [("uuid", .str u)]) ]) ]) ])
      = (simulateMessage st
          (.obj [ ("action", .str "presentationSlideIndex"), ("slideIndex", .num n),
                  ("presentationPath", .str u) ]), none) ∧
    handleStatusUpdate rgbHex st
        (.obj [ ("url", .str "announcement/slide_index"),
                ("data", .obj [ ("announcement_index", .obj
                  [ ("index", .num n), ("presentation_id", .obj [("uuid", .str u)]) ]) ]) ])
      = (simulateMessage st
          (.obj [ ("action", .str "presentationSlideIndex"), ("slideIndex", .num n),
                  ("presentationPath", .str u) ]), none) ∧
    (st.onMessage = true →
      (handleStatusUpdate rgbHex st
        (.obj [ ("url", .str "presentation/slide_index"),
                ("data", .obj [ ("presentation_index", .obj
                  [ ("index", .num n), ("presentation_id", .obj [("uuid", .str u)]) ]) ]) ])).1.delivered
      = st.delivered ++
          [ .obj [ ("action", .str "presentationSlideIndex"), ("slideIndex", .num n),
                   ("presentationPath", .str u) ] ]) := by
  have hmsg : slideIndexMessage (.num n) (.str u)
      = .obj [ ("action", .str "presentationSlideIndex"), ("slideIndex", .num n),
               ("presentationPath", .str u) ] := by
    simp only [slideIndexMessage, parseInt_num n hn hnum, JSValue.ofNumber]
  have hut : (JSValue.str u).truthy = true := by simp [JSValue.truthy, hu]
  have h1 : handleStatusUpdate rgbHex st
        (.obj [ ("url", .str "presentation/slide_index"),
                ("data", .obj [ ("presentation_index", .obj
                  [ ("index", .num n), ("presentation_id", .obj [("uuid", .str u)]) ]) ]) ])
      = (simulateMessage st
          (.obj [ ("action", .str "presentationSlideIndex"), ("slideIndex", .num n),
                  ("presentationPath", .str u) ]), none) := by
    rw [← hmsg]
    simp [handleStatusUpdate, slideIndexUpdate, JSValue.get, JSValue.prop, JSValue.lookup,
      JSValue.truthy, JSValue.strictEq, JSValue.isDefined, hu]
  refine ⟨h1, ?_, ?_⟩
  · rw [← hmsg]
    simp [handleStatusUpdate, slideIndexUpdate, JSValue.get, JSValue.prop, JSValue.lookup,
      JSValue.truthy, JSValue.strictEq, JSValue.isDefined, hu]
  · intro hcb
    rw [h1]
    exact simulateMessage_delivered _ _ hcb

/-- C16 (witness): the scenario of the specification, index 3 of presentation "abc". -/
theorem slide_index_update_witness :
    (3 : Int).natAbs < 1000000000000000000000 ∧ JSValue.isNumber 3 = true ∧ "abc" ≠ "" ∧
    handleStatusUpdate (fun _ => "") idleBridge
        (.obj [ ("url", .str "presentation/slide_index"),
                ("data", .obj [ ("presentation_index", .obj
                  [ ("index", .num 3), ("presentation_id", .obj [("uuid", .str "abc")]) ]) ]) ])
      = (simulateMessage idleBridge
          (.obj [ ("action", .str "presentationSlideIndex"), ("slideIndex", .num 3),
                  ("presentationPath", .str "abc") ]), none) :=
  ⟨by decide, by decide, by decide,
    (slide_index_update (fun _ => "") idleBridge 3 "abc" (by decide) (by decide) (by decide)).1⟩

end ProWebRemote

/-! ## Global slide index -/

namespace ProWebRemote

theorem prop_of_not_nullish (v : JSValue) (key : String) (h : v.isNullish = false) :
    v.prop key = .ok (v.get key) := by
  cases v <;> simp_all [JSValue.isNullish, JSValue.prop, JSValue.get]

theorem transcodeSlide_ok (b : String) (p : JSValue) (c : Command) (slide : JSValue) (i : Nat)
    (h : slide.isNullish = false) :
    ∃ x, transcodeSlide b p c slide i = .ok x ∧ x.get "slideIndex" = .num (Int.ofNat i) ∧
      x.get "slideImage" = .str (slideImage b p i c) := by
  unfold transcodeSlide
  simp only [prop_of_not_nullish _ _ h]
  exact ⟨_, rfl, rfl, rfl⟩

theorem announcementSlide_ok (b : String) (p : JSValue) (c : Command) (slide : JSValue)
    (i : Nat) (h : slide.isNullish = false) :
    ∃ x, announcementSlide b p c slide i = .ok x ∧ x.get "slideIndex" = .num (Int.ofNat i) ∧
      x.get "slideImage" = .str (slideImage b p i c) := by
  unfold announcementSlide
  simp only [prop_of_not_nullish _ _ h]
  exact ⟨_, rfl, rfl, rfl⟩

theorem transcodeSlides_ok (b : String) (p : JSValue) (c : Command) :
    ∀ (items : List JSValue) (g : Nat), (∀ s ∈ items, s.isNullish = false) →
      ∃ xs, transcodeSlides b p c items g = .ok (xs, g + items.length) ∧
        xs.length = items.length ∧
        xs.map (fun x => x.get "slideIndex")
          = (List.range' g items.length).map (fun i : Nat => JSValue.num (Int.ofNat i)) ∧
        xs.map (fun x => x.get "slideImage")
          = (List.range' g items.length).map (fun i : Nat => JSValue.str (slideImage b p i c)) := by
  intro items
  induction items with
  | nil => intro g _; exact ⟨[], rfl, rfl, rfl, rfl⟩
  | cons s rest ih =>
    intro g hs
    obtain ⟨x, hx, hxi, hxm⟩ := transcodeSlide_ok b p c s g (hs s (List.mem_cons_self _ _))
    obtain ⟨xs, hxs, hlen, hidx, himg⟩ :=
      ih (g + 1) (fun t ht => hs t (List.mem_cons_of_mem _ ht))
    refine ⟨x :: xs, ?_, by simp [hlen], ?_, ?_⟩
    · simp only [transcodeSlides, hx, hxs, List.length_cons]
      have : g + 1 + rest.length = g + (rest.length + 1) := by omega
      rw [← this]
      rfl
    · simp [List.range', hxi, hidx]
    · simp [List.range', hxm, himg]

theorem announcementSlides_ok (b : String) (p : JSValue) (c : Command) :
    ∀ (items : List JSValue) (g : Nat), (∀ s ∈ items, s.isNullish = false) →
      ∃ xs, announcementSlides b p c items g = .ok (xs, g + items.length) ∧
        xs.length = items.length ∧
        xs.map (fun x => x.get "slideIndex")
          = (List.range' g items.length).map (fun i : Nat => JSValue.num (Int.ofNat i)) ∧
        xs.map (fun x => x.get "slideImage")
          = (List.range' g items.length).map (fun i : Nat => JSValue.str (slideImage b p i c)) := by
  intro items
  induction items with
  | nil => intro g _; exact ⟨[], rfl, rfl, rfl, rfl⟩
  | cons s rest ih =>
    intro g hs
    obtain ⟨x, hx, hxi, hxm⟩ := announcementSlide_ok b p c s g (hs s (List.mem_cons_self _ _))
    obtain ⟨xs, hxs, hlen, hidx, himg⟩ :=
      ih (g + 1) (fun t ht => hs t (List.mem_cons_of_mem _ ht))
    refine ⟨x :: xs, ?_, by simp [hlen], ?_, ?_⟩
    · simp only [announcementSlides, hx, hxs, List.length_cons]
      have : g + 1 + rest.length = g + (rest.length + 1) := by omega
      rw [← this]
      rfl
    · simp [List.range', hxi, hidx]
    · simp [List.range', hxm, himg]

end ProWebRemote

namespace ProWebRemote

theorem wellFormedGroup_cases (group : JSValue) (h : wellFormedGroup group = true) :
    group.isNullish = false ∧ (∀ s ∈ backendSlides group, s.isNullish = false) ∧
    (group.get "slides" = .arr (backendSlides group) ∨
      ((group.get "slides").truthy = false ∧ backendSlides group = [])) := by
  unfold wellFormedGroup at h
  simp only [Bool.and_eq_true, Bool.not_eq_true'] at h
  obtain ⟨hn, hs⟩ := h
  refine ⟨hn, ?_, ?_⟩
  · unfold backendSlides
    cases hsl : group.get "slides" with
    | arr items =>
      rw [hsl] at hs
      intro s hmem
      have := List.all_eq_true.mp hs s hmem
      simpa using this
    | _ => intro s hmem; cases hmem
  · unfold backendSlides
    cases hsl : group.get "slides" with
    | arr items => exact Or.inl rfl
    | _ =>
      rw [hsl] at hs
      right
      simp_all

theorem arr_length_gtZero (x : JSValue) (xs : List JSValue) :
    ((JSValue.arr (x :: xs)).get "length").gtZero = true := by
  simp [JSValue.get, JSValue.prop, JSValue.gtZero, JSValue.toNumber]

theorem announcementGroupSlides_ok (b : String) (p : JSValue) (c : Command) (group : JSValue)
    (g : Nat) (h : wellFormedGroup group = true) :
    announcementGroupSlides b p c (group.get "slides") g
      = announcementSlides b p c (backendSlides group) g := by
  obtain ⟨_, _, hcase⟩ := wellFormedGroup_cases group h
  unfold announcementGroupSlides
  rcases hcase with h1 | ⟨h1, h2⟩
  · rw [h1]
    cases hitems : backendSlides group with
    | nil => rfl
    | cons x xs => simp [JSValue.truthy, arr_length_gtZero]
  · rw [h2]
    simp [h1]
    rfl

theorem transcodeGroup_ok (b : String) (p : JSValue) (c : Command) (group : JSValue) (g : Nat)
    (h : wellFormedGroup group = true) :
    ∃ x, transcodeGroup b p c group g = .ok (x, g + (backendSlides group).length) ∧
      (emittedSlides x).length = (backendSlides group).length ∧
      x.get "groupName" = (group.get "name").orElse (.str "") ∧
      (emittedSlides x).map (fun s => s.get "slideIndex")
        = (List.range' g (backendSlides group).length).map (fun i : Nat => JSValue.num (Int.ofNat i)) ∧
      (emittedSlides x).map (fun s => s.get "slideImage")
        = (List.range' g (backendSlides group).length).map
            (fun i : Nat => JSValue.str (slideImage b p i c)) := by
  obtain ⟨hn, hslides, hcase⟩ := wellFormedGroup_cases group h
  obtain ⟨xs, hxs, hlen, hidx, himg⟩ := transcodeSlides_ok b p c (backendSlides group) g hslides
  have hor : (group.get "slides").orElse (.arr []) = .arr (backendSlides group) := by
    rcases hcase with h1 | ⟨h1, h2⟩
    · rw [h1]; rfl
    · rw [h2]
      simp [JSValue.orElse, h1]
  refine ⟨.obj [ ("groupName", (group.get "name").orElse (.str "")),
      ("groupColor", if (group.get "color").truthy then
        ((group.get "color").get "hex").orElse (group.get "color") else .str ""),
      ("groupSlides", .arr xs) ], ?_, hlen, rfl, hidx, himg⟩
  unfold transcodeGroup
  simp only [prop_of_not_nullish _ _ hn]
  show (match (group.get "slides").orElse (.arr []) with
    | .arr items => _
    | _ => _) = _
  rw [hor]
  simp only [hxs]
  rfl

theorem announcementGroup_ok (rgbHex : JSValue → String) (b : String) (p : JSValue)
    (c : Command) (group : JSValue) (g : Nat) (h : wellFormedGroup group = true) :
    ∃ x, announcementGroup rgbHex b p c group g = .ok (x, g + (backendSlides group).length) ∧
      (emittedSlides x).length = (backendSlides group).length ∧
      x.get "groupName" = (group.get "name").orElse (.str "") ∧
      (emittedSlides x).map (fun s => s.get "slideIndex")
        = (List.range' g (backendSlides group).length).map (fun i : Nat => JSValue.num (Int.ofNat i)) ∧
      (emittedSlides x).map (fun s => s.get "slideImage")
        = (List.range' g (backendSlides group).length).map
            (fun i : Nat => JSValue.str (slideImage b p i c)) := by
  obtain ⟨hn, hslides, hcase⟩ := wellFormedGroup_cases group h
  obtain ⟨xs, hxs, hlen, hidx, himg⟩ :=
    announcementSlides_ok b p c (backendSlides group) g hslides
  refine ⟨.obj [ ("groupName", (group.get "name").orElse (.str "")),
      ("groupColor", if (group.get "color").truthy then .str (rgbHex (group.get "color"))
        else .str ""),
      ("groupSlides", .arr xs) ], ?_, hlen, rfl, hidx, himg⟩
  unfold announcementGroup
  rw [prop_of_not_nullish _ _ hn]
  simp only [bind, Except.bind, announcementGroupSlides_ok b p c group g h, hxs]
  rfl

end ProWebRemote

namespace ProWebRemote

theorem slideTotal_cons (group : JSValue) (rest : List JSValue) :
    slideTotal (group :: rest) = (backendSlides group).length + slideTotal rest := by
  simp [slideTotal]

theorem slideFields_cons (key : String) (x : JSValue) (xs : List JSValue) :
    slideFields key (x :: xs)
      = (emittedSlides x).map (fun s => s.get key) ++ slideFields key xs := by
  simp [slideFields]

theorem transcodeGroups_ok (b : String) (p : JSValue) (c : Command) :
    ∀ (gs : List JSValue) (g : Nat), (∀ x ∈ gs, wellFormedGroup x = true) →
      ∃ out, transcodeGroups b p c gs g = .ok (out, g + slideTotal gs) ∧
        out.map (fun x => (emittedSlides x).length)
          = gs.map (fun x => (backendSlides x).length) ∧
        out.map (fun x => x.get "groupName")
          = gs.map (fun x => (x.get "name").orElse (.str "")) ∧
        slideFields "slideIndex" out
          = (List.range' g (slideTotal gs)).map (fun i : Nat => JSValue.num (Int.ofNat i)) ∧
        slideFields "slideImage" out
          = (List.range' g (slideTotal gs)).map
              (fun i : Nat => JSValue.str (slideImage b p i c)) := by
  intro gs
  induction gs with
  | nil => intro g _; exact ⟨[], rfl, rfl, rfl, rfl, rfl⟩
  | cons x rest ih =>
    intro g hwf
    obtain ⟨y, hy, hlen, hname, hidx, himg⟩ :=
      transcodeGroup_ok b p c x g (hwf x (List.mem_cons_self _ _))
    obtain ⟨ys, hys, hsizes, hnames, hidxs, himgs⟩ :=
      ih (g + (backendSlides x).length) (fun t ht => hwf t (List.mem_cons_of_mem _ ht))
    refine ⟨y :: ys, ?_, ?_, ?_, ?_, ?_⟩
    · simp only [transcodeGroups, bind, Except.bind, hy, hys, slideTotal_cons]
      rw [Nat.add_assoc]
      rfl
    · simp [hlen, hsizes]
    · simp [hname, hnames]
    · rw [slideFields_cons, hidx, hidxs, slideTotal_cons, ← List.map_append,
        List.range'_append_1, Nat.add_comm (slideTotal rest)]
    · rw [slideFields_cons, himg, himgs, slideTotal_cons, ← List.map_append,
        List.range'_append_1, Nat.add_comm (slideTotal rest)]

theorem announcementGroups_ok (rgbHex : JSValue → String) (b : String) (p : JSValue)
    (c : Command) :
    ∀ (gs : List JSValue) (g : Nat), (∀ x ∈ gs, wellFormedGroup x = true) →
      ∃ out, announcementGroups rgbHex b p c gs g = .ok (out, g + slideTotal gs) ∧
        out.map (fun x => (emittedSlides x).length)
          = gs.map (fun x => (backendSlides x).length) ∧
        out.map (fun x => x.get "groupName")
          = gs.map (fun x => (x.get "name").orElse (.str "")) ∧
        slideFields "slideIndex" out
          = (List.range' g (slideTotal gs)).map (fun i : Nat => JSValue.num (Int.ofNat i)) ∧
        slideFields "slideImage" out
          = (List.range' g (slideTotal gs)).map
              (fun i : Nat => JSValue.str (slideImage b p i c)) := by
  intro gs
  induction gs with
  | nil => intro g _; exact ⟨[], rfl, rfl, rfl, rfl, rfl⟩
  | cons x rest ih =>
    intro g hwf
    obtain ⟨y, hy, hlen, hname, hidx, himg⟩ :=
      announcementGroup_ok rgbHex b p c x g (hwf x (List.mem_cons_self _ _))
    obtain ⟨ys, hys, hsizes, hnames, hidxs, himgs⟩ :=
      ih (g + (backendSlides x).length) (fun t ht => hwf t (List.mem_cons_of_mem _ ht))
    refine ⟨y :: ys, ?_, ?_, ?_, ?_, ?_⟩
    · simp only [announcementGroups, bind, Except.bind, hy, hys, slideTotal_cons]
      rw [Nat.add_assoc]
      rfl
    · simp [hlen, hsizes]
    · simp [hname, hnames]
    · rw [slideFields_cons, hidx, hidxs, slideTotal_cons, ← List.map_append,
        List.range'_append_1, Nat.add_comm (slideTotal rest)]
    · rw [slideFields_cons, himg, himgs, slideTotal_cons, ← List.map_append,
        List.range'_append_1, Nat.add_comm (slideTotal rest)]

end ProWebRemote

namespace ProWebRemote

theorem get_eq_obj_is_obj (w : JSValue) (key : String) (f : List (String × JSValue))
    (h : w.get key = .obj f) : ∃ fields, w = .obj fields := by
  cases w with
  | obj fields => exact ⟨fields, rfl⟩
  | str s =>
    simp only [JSValue.get, JSValue.prop] at h
    split at h <;> cases h
  | arr items =>
    simp only [JSValue.get, JSValue.prop] at h
    split at h <;> cases h
  | undefined => simp [JSValue.get, JSValue.prop] at h
  | null => simp [JSValue.get, JSValue.prop] at h
  | bool b => simp [JSValue.get, JSValue.prop] at h
  | num n => simp [JSValue.get, JSValue.prop] at h

theorem get_eq_str_is_obj (w : JSValue) (key u : String) (h : w.get key = .str u) :
    ∃ fields, w = .obj fields := by
  cases w with
  | obj fields => exact ⟨fields, rfl⟩
  | str s =>
    simp only [JSValue.get, JSValue.prop] at h
    split at h <;> cases h
  | arr items =>
    simp only [JSValue.get, JSValue.prop] at h
    split at h <;> cases h
  | undefined => simp [JSValue.get, JSValue.prop] at h
  | null => simp [JSValue.get, JSValue.prop] at h
  | bool b => simp [JSValue.get, JSValue.prop] at h
  | num n => simp [JSValue.get, JSValue.prop] at h

/-- C18: for every presentation with a non-empty list of groups, handlePresentationRequest
emits one group per backend group, in the same order (same names) and with the same
sizes; the slideIndex values read in group order are exactly 0, 1, ..., total - 1, and the
slideImage of each slide is the thumbnail address built from that same index and the
presentation id. -/
theorem presentation_global_slide_index (st : BridgeState) (data : JSValue) (cmd : Command)
    (gs : List JSValue)
    (hdata : data.truthy = true)
    (hid : (presentationId ((data.get "presentation").orElse data) cmd).truthy = true)
    (hgroups : ((data.get "presentation").orElse data).get "groups" = .arr gs)
    (hne : gs ≠ [])
    (hwf : ∀ g ∈ gs, wellFormedGroup g = true) :
    ∃ out : List JSValue,
      handlePresentationRequest st data cmd
        = .ok (emitPresentation st (presentationId ((data.get "presentation").orElse data) cmd)
            (presentationName ((data.get "presentation").orElse data)) out cmd) ∧
      (st.onMessage = true →
        ∃ m, (emitPresentation st (presentationId ((data.get "presentation").orElse data) cmd)
            (presentationName ((data.get "presentation").orElse data)) out cmd).delivered
          = st.delivered ++ [m] ∧
          (m.get "presentation").get "presentationSlideGroups" = .arr out) ∧
      out.map (fun x => (emittedSlides x).length)
        = gs.map (fun x => (backendSlides x).length) ∧
      out.map (fun x => x.get "groupName")
        = gs.map (fun x => (x.get "name").orElse (.str "")) ∧
      slideFields "slideIndex" out
        = (List.range (slideTotal gs)).map (fun i : Nat => JSValue.num (Int.ofNat i)) ∧
      slideFields "slideImage" out
        = (List.range (slideTotal gs)).map
            (fun i : Nat => JSValue.str (slideImage st.baseURL
              (presentationId ((data.get "presentation").orElse data) cmd) i cmd)) := by
  obtain ⟨out, hout, hsizes, hnames, hidx, himg⟩ :=
    transcodeGroups_ok st.baseURL (presentationId ((data.get "presentation").orElse data) cmd)
      cmd gs 0 hwf
  have hgroupsOk : presentationGroups st.baseURL
      (presentationId ((data.get "presentation").orElse data) cmd) cmd
      ((data.get "presentation").orElse data) = .ok out := by
    unfold presentationGroups
    simp only [hgroups]
    cases gs with
    | nil => exact absurd rfl hne
    | cons x xs =>
      simp only [JSValue.truthy, arr_length_gtZero, Bool.and_self, if_true, hout]
      rfl
  refine ⟨out, ?_, ?_, hsizes, hnames, ?_, ?_⟩
  · unfold handlePresentationRequest
    simp only [hdata, hid, Bool.not_true, Bool.false_eq_true, if_false, hgroupsOk]
    rfl
  · intro hcb
    refine ⟨_, emitPresentation_delivered _ _ _ _ _ hcb, ?_⟩
    rw [presentationMessage_presentation]
    exact (presentationData_groups _ _ _ _).1
  · rw [List.range_eq_range']
    exact hidx
  · rw [List.range_eq_range']
    exact himg

/-- C17: for every announcement/active update carrying an announcement with UUID u and
well-formed groups, the router sets currentAnnouncementUUID to u, issues no fetch, raises
nothing and calls simulateMessage once with a presentationCurrent message whose
presentation has presentationDestination 1 and one group per backend group, in the same
order and with the same sizes, the slide indices read in group order being exactly
0, 1, ..., total - 1. -/
theorem announcement_active_update (rgbHex : JSValue → String) (st : BridgeState)
    (ann : JSValue) (u : String) (gs : List JSValue)
    (hu : u ≠ "")
    (hid : (ann.get "id").get "uuid" = .str u)
    (hgroups : ann.get "groups" = .arr gs)
    (hwf : ∀ g ∈ gs, wellFormedGroup g = true) :
    ∃ out : List JSValue,
      handleStatusUpdate rgbHex st
          (.obj [ ("url", .str "announcement/active"), ("data", .obj [("announcement", ann)]) ])
        = (simulateMessage { st with currentAnnouncementUUID := .str u }
            (.obj
              [ ("action", .str "presentationCurrent"),
                ("presentationPath", .str u),
                ("presentation", .obj
                  [ ("presentationName", (ann.get "id").get "name"),
                    ("presentationPath", .str u),
                    ("presentationSlideGroups", .arr out),
                    ("presentationDestination", .num 1) ]) ]), none) ∧
      (handleStatusUpdate rgbHex st
          (.obj [ ("url", .str "announcement/active"), ("data", .obj [("announcement", ann)]) ])
        ).1.currentAnnouncementUUID = .str u ∧
      (handleStatusUpdate rgbHex st
          (.obj [ ("url", .str "announcement/active"), ("data", .obj [("announcement", ann)]) ])
        ).1.requests = st.requests ∧
      out.map (fun x => (emittedSlides x).length)
        = gs.map (fun x => (backendSlides x).length) ∧
      out.map (fun x => x.get "groupName")
        = gs.map (fun x => (x.get "name").orElse (.str "")) ∧
      slideFields "slideIndex" out
        = (List.range (slideTotal gs)).map (fun i : Nat => JSValue.num (Int.ofNat i)) := by
  obtain ⟨out, hout, hsizes, hnames, hidx, _⟩ :=
    announcementGroups_ok rgbHex st.baseURL (.str u)
      { action := "presentationRequest", presentationPath := some u,
        presentationSlideQuality := .str "300" } gs 0 hwf
  obtain ⟨idFields, hidObj⟩ := get_eq_str_is_obj _ _ _ hid
  obtain ⟨annFields, hannObj⟩ := get_eq_obj_is_obj _ _ _ hidObj
  have hidT : (ann.get "id").truthy = true := by rw [hidObj]; rfl
  have hannT : ann.truthy = true := by rw [hannObj]; rfl
  have hannN : ann.isNullish = false := by rw [hannObj]; rfl
  have huT : (JSValue.str u).truthy = true := by simp [JSValue.truthy, hu]
  have hdata : handleAnnouncementData rgbHex { st with currentAnnouncementUUID := .str u } ann
      { action := "presentationRequest", presentationPath := some u,
        presentationSlideQuality := .str "300" }
      = .ok (simulateMessage { st with currentAnnouncementUUID := .str u }
          (announcementMessage
            { action := "presentationRequest", presentationPath := some u,
              presentationSlideQuality := .str "300" }
            (.str u) ((ann.get "id").get "name") out)) := by
    unfold handleAnnouncementData
    rw [prop_of_not_nullish _ _ hannN]
    simp only [bind, Except.bind, hidT, if_true, hid, hgroups]
    cases gs with
    | nil =>
      have : out = [] := by
        simp only [announcementGroups, pure, Except.pure, Except.ok.injEq, Prod.mk.injEq] at hout
        exact hout.1.symm
      subst this
      rfl
    | cons x xs =>
      simp only [JSValue.truthy, arr_length_gtZero, Bool.and_self, if_true, hout]
      rfl
  have hmain : handleStatusUpdate rgbHex st
      (.obj [ ("url", .str "announcement/active"), ("data", .obj [("announcement", ann)]) ])
      = (simulateMessage { st with currentAnnouncementUUID := .str u }
          (announcementMessage
            { action := "presentationRequest", presentationPath := some u,
              presentationSlideQuality := .str "300" }
            (.str u) ((ann.get "id").get "name") out), none) := by
    have hget : (JSValue.obj [("announcement", ann)]).prop "announcement" = .ok ann := by
      simp [JSValue.prop, JSValue.lookup]
    have hurl : (JSValue.obj
        [ ("url", .str "announcement/active"), ("data", .obj [("announcement", ann)]) ]).get "url"
        = .str "announcement/active" := rfl
    have hd : (JSValue.obj
        [ ("url", .str "announcement/active"), ("data", .obj [("announcement", ann)]) ]).get "data"
        = .obj [("announcement", ann)] := rfl
    unfold handleStatusUpdate
    simp only [hurl, hd, hget, hannT, hidT, hid, huT, JSValue.toStr]
    simp [JSValue.truthy, JSValue.strictEq, hdata]
  refine ⟨out, hmain, ?_, ?_, hsizes, hnames, ?_⟩
  · rw [hmain]
    unfold simulateMessage
    split <;> rfl
  · rw [hmain]
    unfold simulateMessage
    split <;> rfl
  · rw [List.range_eq_range']
    exact hidx

end ProWebRemote

/-! ## Witnesses for the slide index statements -/

namespace ProWebRemote

theorem sampleGroups_wellFormed :
    ∀ g ∈ [sampleGroup "Welcome" 2, sampleGroup "News" 3], wellFormedGroup g = true := by
  intro g hg
  simp only [List.mem_cons, List.mem_singleton, List.not_mem_nil, or_false] at hg
  rcases hg with rfl | rfl <;> rfl

/-- C17 (witness): the scenario of the specification, an announcement with two groups
of 2 and 3 slides. -/
theorem announcement_active_update_witness :
    "a1" ≠ "" ∧
    (∀ g ∈ [sampleGroup "Welcome" 2, sampleGroup "News" 3], wellFormedGroup g = true) ∧
    ∃ out : List JSValue,
      (handleStatusUpdate (fun _ => "") idleBridge
          (.obj [ ("url", .str "announcement/active"),
                  ("data", .obj [("announcement", sampleAnnouncement)]) ])
        ).1.currentAnnouncementUUID = .str "a1" ∧
      out.map (fun x => (emittedSlides x).length)
        = [sampleGroup "Welcome" 2, sampleGroup "News" 3].map
            (fun x => (backendSlides x).length) ∧
      slideFields "slideIndex" out
        = (List.range (slideTotal [sampleGroup "Welcome" 2, sampleGroup "News" 3])).map
            (fun i : Nat => JSValue.num (Int.ofNat i)) :=
  ⟨by decide, sampleGroups_wellFormed,
    match announcement_active_update (fun _ => "") idleBridge sampleAnnouncement "a1"
        [sampleGroup "Welcome" 2, sampleGroup "News" 3] (by decide) rfl rfl
        sampleGroups_wellFormed with
    | ⟨out, _, huuid, _, hsizes, _, hidx⟩ => ⟨out, huuid, hsizes, hidx⟩⟩

/-- C18 (witness): a presentation "4f2a" with two groups of 2 and 3 slides. -/
theorem presentation_global_slide_index_witness :
    [sampleGroup "Verse" 2, sampleGroup "Chorus" 3] ≠ [] ∧
    (∀ g ∈ [sampleGroup "Verse" 2, sampleGroup "Chorus" 3], wellFormedGroup g = true) ∧
    ∃ out : List JSValue,
      out.map (fun x => (emittedSlides x).length)
        = [sampleGroup "Verse" 2, sampleGroup "Chorus" 3].map
            (fun x => (backendSlides x).length) ∧
      slideFields "slideIndex" out
        = (List.range (slideTotal [sampleGroup "Verse" 2, sampleGroup "Chorus" 3])).map
            (fun i : Nat => JSValue.num (Int.ofNat i)) :=
  have hwf : ∀ g ∈ [sampleGroup "Verse" 2, sampleGroup "Chorus" 3],
      wellFormedGroup g = true := by
    intro g hg
    simp only [List.mem_cons, List.mem_singleton, List.not_mem_nil, or_false] at hg
    rcases hg with rfl | rfl <;> rfl
  ⟨by simp, hwf,
    match presentation_global_slide_index idleBridge
        (.obj [ ("presentation", .obj
          [ ("id", .obj [("uuid", .str "4f2a")]),
            ("groups", .arr [sampleGroup "Verse" 2, sampleGroup "Chorus" 3]) ]) ])
        requestCommand [sampleGroup "Verse" 2, sampleGroup "Chorus" 3] rfl rfl rfl (by simp)
        hwf with
    | ⟨out, _, _, hsizes, _, hidx, _⟩ => ⟨out, hsizes, hidx⟩⟩

end ProWebRemote

/-! ## Audio transcoders: deduplication -/

namespace ProWebRemote

theorem simulateMessage_audio (st : BridgeState) (m : JSValue) :
    (simulateMessage st m).lastAudioTrackUUID = st.lastAudioTrackUUID ∧
    (simulateMessage st m).lastAudioTrackName = st.lastAudioTrackName ∧
    (simulateMessage st m).lastAudioTrackArtist = st.lastAudioTrackArtist ∧
    (simulateMessage st m).lastAudioPlayingState = st.lastAudioPlayingState ∧
    (simulateMessage st m).onMessage = st.onMessage := by
  unfold simulateMessage
  split <;> exact ⟨rfl, rfl, rfl, rfl, rfl⟩

theorem strictEq_str (x y : String) :
    (JSValue.str x).strictEq (.str y) = decide (x = y) := by
  by_cases h : x = y <;> simp [JSValue.strictEq, h]

theorem orElse_str_empty (x : String) : (JSValue.str x).orElse (.str "") = .str x := by
  by_cases h : x = "" <;> simp [JSValue.orElse, JSValue.truthy, h]

/-- C19 (counterexample): from the initial cache, the payload of an idle player (every
field null) fed twice emits no message at all. -/
theorem audio_current_idle_payload_emits_nothing :
    idleBridge.lastAudioTrackUUID = .null ∧ idleBridge.onMessage = true ∧
    handleAudioCurrent idleBridge noTrack = idleBridge ∧
    (handleAudioCurrent (handleAudioCurrent idleBridge noTrack) noTrack).delivered = [] := by
  exact ⟨rfl, rfl, rfl, rfl⟩

/-- C19 (amended): starting from the initial cache, feeding handleAudioCurrent twice in a
row the same payload of strings uuid, name, artist whose name is not empty calls
simulateMessage once with an audioCurrentSong message (the second call leaves the whole
state, cache included, unchanged); feeding afterwards a payload of strings that differs
in uuid, name or artist calls simulateMessage a second time with an audioCurrentSong
message. -/
theorem audio_current_dedup (st : BridgeState) (u n a : String) (hn : n ≠ "")
    (h0 : st.lastAudioTrackUUID = .null) (h1 : st.lastAudioTrackName = .str "")
    (h2 : st.lastAudioTrackArtist = .str "") :
    handleAudioCurrent st (audioTrack u n a)
      = simulateMessage
          { st with
            lastAudioTrackUUID := .str u, lastAudioTrackName := .str n,
            lastAudioTrackArtist := .str a }
          (.obj [ ("action", .str "audioCurrentSong"), ("audioName", .str n),
                  ("audioArtist", .str a), ("audioUuid", .str u) ]) ∧
    handleAudioCurrent (handleAudioCurrent st (audioTrack u n a)) (audioTrack u n a)
      = handleAudioCurrent st (audioTrack u n a) ∧
    (∀ u2 n2 a2 : String, (u2 ≠ u ∨ n2 ≠ n ∨ a2 ≠ a) →
      ∃ (st2 : BridgeState) (m : JSValue),
        handleAudioCurrent (handleAudioCurrent st (audioTrack u n a)) (audioTrack u2 n2 a2)
          = simulateMessage st2 m ∧
        m.get "action" = .str "audioCurrentSong" ∧
        st2.delivered = (handleAudioCurrent st (audioTrack u n a)).delivered ∧
        st2.onMessage = st.onMessage) := by
  have hnT : (JSValue.str n).truthy = true := by simp [JSValue.truthy, hn]
  have hget : (audioTrack u n a).get "uuid" = .str u ∧ (audioTrack u n a).get "name" = .str n ∧
      (audioTrack u n a).get "artist" = .str a ∧ (audioTrack u n a).truthy = true :=
    ⟨rfl, rfl, rfl, rfl⟩
  have hfirst : handleAudioCurrent st (audioTrack u n a)
      = simulateMessage
          { st with
            lastAudioTrackUUID := .str u, lastAudioTrackName := .str n,
            lastAudioTrackArtist := .str a }
          (.obj [ ("action", .str "audioCurrentSong"), ("audioName", .str n),
                  ("audioArtist", .str a), ("audioUuid", .str u) ]) := by
    unfold handleAudioCurrent
    simp only [hget.1, hget.2.1, hget.2.2.1, hget.2.2.2, hnT, h0, h1, h2, strictEq_str,
      JSValue.strictEq]
    simp [hn, audioCurrentMessage, orElse_str_empty]
  obtain ⟨c1, c2, c3, _, c5⟩ := simulateMessage_audio
    { st with
      lastAudioTrackUUID := .str u, lastAudioTrackName := .str n,
      lastAudioTrackArtist := .str a }
    (.obj [ ("action", .str "audioCurrentSong"), ("audioName", .str n),
            ("audioArtist", .str a), ("audioUuid", .str u) ])
  rw [← hfirst] at c1 c2 c3 c5
  refine ⟨hfirst, ?_, ?_⟩
  · generalize handleAudioCurrent st (audioTrack u n a) = st1 at c1 c2 c3 c5 ⊢
    unfold handleAudioCurrent
    simp only [hget.1, hget.2.1, hget.2.2.1, hget.2.2.2, hnT, c1, c2, c3, strictEq_str]
    simp
  · intro u2 n2 a2 hdiff
    generalize handleAudioCurrent st (audioTrack u n a) = st1 at c1 c2 c3 c5 ⊢
    have hget2 : (audioTrack u2 n2 a2).get "uuid" = .str u2 ∧
        (audioTrack u2 n2 a2).get "name" = .str n2 ∧
        (audioTrack u2 n2 a2).get "artist" = .str a2 ∧ (audioTrack u2 n2 a2).truthy = true :=
      ⟨rfl, rfl, rfl, rfl⟩
    by_cases hn2 : n2 = ""
    · subst hn2
      refine ⟨{ st1 with
          lastAudioTrackUUID := .null, lastAudioTrackName := .str "",
          lastAudioTrackArtist := .str "" }, audioClearedMessage, ?_, rfl, rfl, c5⟩
      unfold handleAudioCurrent
      simp only [hget2.1, hget2.2.1, hget2.2.2.1, hget2.2.2.2, c1]
      simp [JSValue.truthy, JSValue.strictEq]
    · have hn2T : (JSValue.str n2).truthy = true := by simp [JSValue.truthy, hn2]
      refine ⟨{ st1 with
          lastAudioTrackUUID := .str u2, lastAudioTrackName := .str n2,
          lastAudioTrackArtist := .str a2 },
        audioCurrentMessage (.str u2) (.str n2) (.str a2), ?_, rfl, rfl, c5⟩
      unfold handleAudioCurrent
      simp only [hget2.1, hget2.2.1, hget2.2.2.1, hget2.2.2.2, hn2T, c1, c2, c3, strictEq_str]
      have hcond : (!decide (u2 = u) || !decide (n2 = n) || !decide (a2 = a)) = true := by
        rcases hdiff with h | h | h <;> simp [h]
      simp [hcond]

/-- C19 (witness): the track "u1" played from the initial cache. -/
theorem audio_current_dedup_witness :
    "Song" ≠ "" ∧ idleBridge.lastAudioTrackUUID = .null ∧
    handleAudioCurrent (handleAudioCurrent idleBridge (audioTrack "u1" "Song" "Ann"))
        (audioTrack "u1" "Song" "Ann")
      = handleAudioCurrent idleBridge (audioTrack "u1" "Song" "Ann") :=
  ⟨by decide, rfl,
    (audio_current_dedup idleBridge "u1" "Song" "Ann" (by decide) rfl rfl rfl).2.1⟩

end ProWebRemote

namespace ProWebRemote

theorem audioStatus_cases (data : JSValue) :
    audioStatus data = .str "Playing" ∨ audioStatus data = .str "Pause" ∨
      audioStatus data = .null := by
  unfold audioStatus
  split
  · exact Or.inl rfl
  · split
    · exact Or.inr (Or.inl rfl)
    · exact Or.inr (Or.inr rfl)

theorem audioStatus_strictEq_self (data : JSValue) :
    (audioStatus data).strictEq (audioStatus data) = true := by
  rcases audioStatus_cases data with h | h | h <;> rw [h] <;> rfl

theorem handleAudioPlaying_onMessage (st : BridgeState) (data : JSValue) :
    (handleAudioPlaying st data).onMessage = st.onMessage := by
  unfold handleAudioPlaying
  simp only
  split
  · exact (simulateMessage_audio _ _).2.2.2.2
  · rfl

/-- The messages delivered by a run of handleAudioPlaying. -/
theorem audio_playing_run (payloads : List JSValue) :
    ∀ st : BridgeState,
      ∃ new : List JSValue,
        (payloads.foldl handleAudioPlaying st).delivered = st.delivered ++ new ∧
        (∀ m ∈ new, m.get "action" = .str "audioIsPlaying" ∧
          ∃ data, m.get "audioIsPlaying" = audioStatus data) ∧
        List.Chain' (fun m1 m2 => m1.get "audioIsPlaying" ≠ m2.get "audioIsPlaying") new ∧
        (∀ m, new.head? = some m →
          (m.get "audioIsPlaying").strictEq st.lastAudioPlayingState = false) ∧
        (st.onMessage = false → new = []) := by
  induction payloads with
  | nil =>
    intro st
    exact ⟨[], by simp, by simp, List.chain'_nil, by simp, fun _ => rfl⟩
  | cons p rest ih =>
    intro st
    by_cases hsame : (audioStatus p).strictEq st.lastAudioPlayingState = true
    · have hstep : handleAudioPlaying st p = st := by
        unfold handleAudioPlaying
        simp [hsame]
      obtain ⟨new, h1, h2, h3, h4, h5⟩ := ih st
      refine ⟨new, ?_, h2, h3, h4, h5⟩
      rw [List.foldl_cons, hstep]
      exact h1
    · simp only [Bool.not_eq_true] at hsame
      have hstep : handleAudioPlaying st p
          = simulateMessage { st with lastAudioPlayingState := audioStatus p }
              (audioPlayingMessage (audioStatus p)) := by
        unfold handleAudioPlaying
        simp [hsame]
      obtain ⟨new, h1, h2, h3, h4, h5⟩ := ih (handleAudioPlaying st p)
      have hlast : (handleAudioPlaying st p).lastAudioPlayingState = audioStatus p := by
        rw [hstep]
        exact (simulateMessage_audio _ _).2.2.2.1
      by_cases hcb : st.onMessage = true
      · have hdel : (handleAudioPlaying st p).delivered
            = st.delivered ++ [audioPlayingMessage (audioStatus p)] := by
          rw [hstep]
          exact simulateMessage_delivered _ _ hcb
        refine ⟨audioPlayingMessage (audioStatus p) :: new, ?_, ?_, ?_, ?_, ?_⟩
        · rw [List.foldl_cons, h1, hdel]
          simp
        · intro m hm
          rcases List.mem_cons.mp hm with h | h
          · subst h
            exact ⟨rfl, p, rfl⟩
          · exact h2 m h
        · cases new with
          | nil => exact List.chain'_singleton _
          | cons m2 new2 =>
            refine List.Chain'.cons ?_ h3
            have hm2 := h4 m2 rfl
            rw [hlast] at hm2
            intro heq
            have hval : (audioPlayingMessage (audioStatus p)).get "audioIsPlaying"
                = audioStatus p := rfl
            rw [hval] at heq
            rw [← heq, audioStatus_strictEq_self] at hm2
            exact absurd hm2 (by decide)
        · intro m hm
          simp only [List.head?_cons, Option.some.injEq] at hm
          subst hm
          exact hsame
        · intro hoff
          rw [hoff] at hcb
          exact absurd hcb (by decide)
      · simp only [Bool.not_eq_true] at hcb
        have hoff : (handleAudioPlaying st p).onMessage = false := by
          rw [handleAudioPlaying_onMessage, hcb]
        have hnil := h5 hoff
        subst hnil
        have hdel : (handleAudioPlaying st p).delivered = st.delivered := by
          rw [hstep]
          simp [simulateMessage, hcb]
        refine ⟨[], ?_, by simp, List.chain'_nil, by simp, fun _ => rfl⟩
        rw [List.foldl_cons, h1, hdel]

/-- C20: handleAudioPlaying derives one of three statuses from the payload (Playing when
is_playing is set; Pause when it is not but a track name is present; null otherwise); it
emits an audioIsPlaying message carrying that status, and overwrites the cached status,
exactly when the status differs from the cached one, and otherwise changes nothing; hence
in every sequence of payloads no two consecutive delivered audioIsPlaying messages carry
the same status. -/
theorem audio_playing_dedup (st : BridgeState) (data : JSValue) (payloads : List JSValue) :
    ((data.truthy = true ∧ (data.get "is_playing").truthy = true) →
      audioStatus data = .str "Playing") ∧
    (¬ (data.truthy = true ∧ (data.get "is_playing").truthy = true) →
      (data.truthy = true ∧ (data.get "name").truthy = true) →
      audioStatus data = .str "Pause") ∧
    (¬ (data.truthy = true ∧ (data.get "is_playing").truthy = true) →
      ¬ (data.truthy = true ∧ (data.get "name").truthy = true) →
      audioStatus data = .null) ∧
    ((audioStatus data).strictEq st.lastAudioPlayingState = false →
      handleAudioPlaying st data
        = simulateMessage { st with lastAudioPlayingState := audioStatus data }
            (.obj [ ("action", .str "audioIsPlaying"), ("audioIsPlaying", audioStatus data) ])) ∧
    ((audioStatus data).strictEq st.lastAudioPlayingState = true →
      handleAudioPlaying st data = st) ∧
    ∃ new : List JSValue,
      (payloads.foldl handleAudioPlaying st).delivered = st.delivered ++ new ∧
      (∀ m ∈ new, m.get "action" = .str "audioIsPlaying") ∧
      List.Chain' (fun m1 m2 => m1.get "audioIsPlaying" ≠ m2.get "audioIsPlaying") new := by
  refine ⟨?_, ?_, ?_, ?_, ?_, ?_⟩
  · intro h
    simp [audioStatus, h.1, h.2]
  · intro h1 h2
    have a1 : (data.truthy && (data.get "is_playing").truthy) = false := by
      simpa using h1
    have a2 : (data.truthy && (data.get "name").truthy) = true := by
      simp [h2.1, h2.2]
    simp only [audioStatus, a1, a2]
    simp
  · intro h1 h2
    have a1 : (data.truthy && (data.get "is_playing").truthy) = false := by
      simpa using h1
    have a2 : (data.truthy && (data.get "name").truthy) = false := by
      simpa using h2
    simp only [audioStatus, a1, a2]
    simp
  · intro h
    unfold handleAudioPlaying
    simp [h, audioPlayingMessage]
  · intro h
    unfold handleAudioPlaying
    simp [h]
  · obtain ⟨new, h1, h2, h3, _, _⟩ := audio_playing_run payloads st
    exact ⟨new, h1, fun m hm => (h2 m hm).1, h3⟩

/-- C20 (witness): a player that starts playing on an idle bridge. -/
theorem audio_playing_dedup_witness :
    (audioStatus (.obj [("is_playing", .bool true), ("name", .str "Song")])).strictEq
        idleBridge.lastAudioPlayingState = false ∧
    handleAudioPlaying idleBridge (.obj [("is_playing", .bool true), ("name", .str "Song")])
      = simulateMessage { idleBridge with lastAudioPlayingState := .str "Playing" }
          (.obj [ ("action", .str "audioIsPlaying"), ("audioIsPlaying", .str "Playing") ]) :=
  ⟨rfl,
    (audio_playing_dedup idleBridge (.obj [("is_playing", .bool true), ("name", .str "Song")])
      []).2.2.2.1 rfl⟩

end ProWebRemote

/-! ## Request executor: failures of other commands -/

namespace ProWebRemote

/-- C23: for a command whose action is not `presentationRequest`, issuing the request
delivers no message and leaves the pending counter as it was, and a fetch that fails
(non-success status or network error) then leaves the bridge state exactly as it is
when the failure arrives and leaves no rejection behind, whatever the handler table:
no message is delivered, no handler runs, the pending counter keeps its value. -/
theorem failed_request_swallowed (ext : Handler → HandlerFn) (e : Endpoint) (cmd : Command)
    (st later : BridgeState) (status : Nat) (h : cmd.action ≠ "presentationRequest") :
    (executeOpenAPIRequest st (.descriptor e) cmd).delivered = st.delivered ∧
    (executeOpenAPIRequest st (.descriptor e) cmd).pendingPresentationRequests
      = st.pendingPresentationRequests ∧
    (executeOpenAPIRequest st (.descriptor e) cmd).presentationRequestsPending
      = st.presentationRequestsPending ∧
    settle ext e cmd (.httpError status) later = (later, none) ∧
    settle ext e cmd .networkError later = (later, none) := by
  refine ⟨?_, ?_, ?_, ?_, ?_⟩
  · unfold executeOpenAPIRequest
    simp only [h, if_false]
    split <;> rfl
  · unfold executeOpenAPIRequest
    simp only [h, if_false]
    split <;> rfl
  · unfold executeOpenAPIRequest
    simp only [h, if_false]
    split <;> rfl
  · simp [settle, onRejected, h]
  · simp [settle, onRejected, h]

/-- C23 (witness): a `libraryRequest` issued on an idle bridge fails with status 500. -/
theorem failed_request_swallowed_witness :
    settle noHandlers
        { method := "GET", path := some "/v1/libraries", handler := some .handleLibraryRequest }
        { action := "libraryRequest" } (.httpError 500)
        (executeOpenAPIRequest idleBridge
          (.descriptor
            { method := "GET", path := some "/v1/libraries",
              handler := some .handleLibraryRequest })
          { action := "libraryRequest" })
      = (executeOpenAPIRequest idleBridge
          (.descriptor
            { method := "GET", path := some "/v1/libraries",
              handler := some .handleLibraryRequest })
          { action := "libraryRequest" }, none) :=
  (failed_request_swallowed noHandlers
    { method := "GET", path := some "/v1/libraries", handler := some .handleLibraryRequest }
    { action := "libraryRequest" } idleBridge _ 500 (by decide)).2.2.2.1

end ProWebRemote

/-! ## Presentation transcoder: announcement tag and implicit group -/

namespace ProWebRemote

theorem strictEq_truthy (a b : JSValue) (h : a.strictEq b = true) (ha : a.truthy = true) :
    b.truthy = true := by
  cases a <;> cases b <;> simp_all [JSValue.strictEq, JSValue.truthy]

theorem truthy_ne_null (a : JSValue) (h : a.truthy = true) : a ≠ .null := by
  intro hn
  subst hn
  simp [JSValue.truthy] at h

theorem handlePresentationRequest_emits (st : BridgeState) (data : JSValue) (cmd : Command)
    (groups : List JSValue) (hdata : data.truthy = true)
    (hid : (presentationId (responsePresentation data) cmd).truthy = true)
    (hgroups : presentationGroups st.baseURL (presentationId (responsePresentation data) cmd) cmd
      (responsePresentation data) = .ok groups) :
    handlePresentationRequest st data cmd
      = .ok (emitPresentation st (presentationId (responsePresentation data) cmd)
          (presentationName (responsePresentation data)) groups cmd) := by
  unfold responsePresentation at hid hgroups
  unfold handlePresentationRequest
  simp only [hdata, hid, hgroups, Bool.not_true, Bool.false_eq_true, if_false, responsePresentation]
  rfl

/-- C26: when `handlePresentationRequest` emits a presentation, the emitted object
carries `presentationDestination` equal to 1 exactly when `currentAnnouncementUUID` is
not null and strictly equals the presentation identifier; in the other case the object
has no key `presentationDestination`. -/
theorem presentation_destination_tag (st : BridgeState) (data : JSValue) (cmd : Command)
    (groups : List JSValue) (hdata : data.truthy = true)
    (hid : (presentationId (responsePresentation data) cmd).truthy = true)
    (hgroups : presentationGroups st.baseURL (presentationId (responsePresentation data) cmd) cmd
      (responsePresentation data) = .ok groups) :
    handlePresentationRequest st data cmd
      = .ok (simulateMessage
          { st with presentationCache :=
              (JSValue.setField (presentationId (responsePresentation data) cmd).toStr
                (presentationData st (presentationId (responsePresentation data) cmd)
                  (presentationName (responsePresentation data)) groups) st.presentationCache) }
          (presentationMessage cmd
            (presentationData st (presentationId (responsePresentation data) cmd)
              (presentationName (responsePresentation data)) groups))) ∧
    (((presentationData st (presentationId (responsePresentation data) cmd)
          (presentationName (responsePresentation data)) groups).get "presentationDestination"
        = .num 1) ↔
      (st.currentAnnouncementUUID ≠ .null ∧
        (presentationId (responsePresentation data) cmd).strictEq st.currentAnnouncementUUID
          = true)) ∧
    (¬ (st.currentAnnouncementUUID ≠ .null ∧
        (presentationId (responsePresentation data) cmd).strictEq st.currentAnnouncementUUID
          = true) →
      "presentationDestination" ∉
        (presentationData st (presentationId (responsePresentation data) cmd)
          (presentationName (responsePresentation data)) groups).keys) := by
  refine ⟨?_, ?_, ?_⟩
  · rw [handlePresentationRequest_emits st data cmd groups hdata hid hgroups]
    rfl
  · by_cases heq : (presentationId (responsePresentation data) cmd).strictEq
        st.currentAnnouncementUUID = true
    · have ht := strictEq_truthy _ _ heq hid
      have hn := truthy_ne_null _ ht
      simp [presentationData, ht, heq, hn, JSValue.get, JSValue.prop, JSValue.lookup]
    · simp [presentationData, heq, JSValue.get, JSValue.prop, JSValue.lookup]
  · intro hnot
    have heq : (presentationId (responsePresentation data) cmd).strictEq
        st.currentAnnouncementUUID = false := by
      by_cases heq : (presentationId (responsePresentation data) cmd).strictEq
          st.currentAnnouncementUUID = true
      · exact absurd ⟨truthy_ne_null _ (strictEq_truthy _ _ heq hid), heq⟩ hnot
      · simpa using heq
    simp [presentationData, heq, JSValue.keys]

/-- C26 (witness): the announcement "a1" is on the layer; the response for "a1" is
tagged. -/
theorem presentation_destination_tag_witness :
    ((presentationData { idleBridge with currentAnnouncementUUID := .str "a1" }
        (presentationId (responsePresentation (.obj [("id", .obj [("uuid", .str "a1")])]))
          requestCommand)
        (presentationName (responsePresentation (.obj [("id", .obj [("uuid", .str "a1")])])))
        [implicitGroup []]).get "presentationDestination" = .num 1) ↔
      ((JSValue.str "a1") ≠ .null ∧
        (presentationId (responsePresentation (.obj [("id", .obj [("uuid", .str "a1")])]))
          requestCommand).strictEq (.str "a1") = true) :=
  (presentation_destination_tag { idleBridge with currentAnnouncementUUID := .str "a1" }
    (.obj [("id", .obj [("uuid", .str "a1")])]) requestCommand [implicitGroup []]
    rfl rfl rfl).2.1

end ProWebRemote

namespace ProWebRemote

theorem placeholder_indices (b : String) (p : JSValue) (c : Command) (n : Nat) :
    ((List.range n).map (placeholderSlide b p c)).map (fun slide => slide.get "slideIndex")
      = (List.range n).map (fun i : Nat => JSValue.num (Int.ofNat i)) := by
  rw [List.map_map]
  apply List.map_congr_left
  intro i _
  rfl

theorem presentationGroups_no_groups (b : String) (p : JSValue) (c : Command)
    (presentation : JSValue) (count : Nat)
    (hgroups : presentation.get "groups" = .undefined ∨ presentation.get "groups" = .arr [])
    (hcount : presentation.get "slide_count" = .num (Int.ofNat count) ∨
      (presentation.get "slide_count" = .undefined ∧ count = 0)) :
    presentationGroups b p c presentation
      = .ok [implicitGroup ((List.range count).map (placeholderSlide b p c))] := by
  have hc : loopCount ((presentation.get "slide_count").orElse (.num 0)) = count := by
    rcases hcount with h | ⟨h, h0⟩
    · rw [h]
      by_cases hz : count = 0
      · subst hz
        rfl
      · have ht : (JSValue.num (Int.ofNat count)).truthy = true := by
          simp [JSValue.truthy]
          exact hz
        unfold JSValue.orElse
        rw [if_pos ht]
        simp [loopCount, JSValue.toNumber]
    · rw [h, h0]
      rfl
  unfold presentationGroups
  rcases hgroups with h | h
  · simp only [h, hc]
    rfl
  · simp only [h, hc]
    rfl

/-- C27: when the presentation in the response has no groups (`groups` absent or an
empty list), `handlePresentationRequest` emits a presentation with exactly one group,
whose name and colour are empty and whose slides number `slide_count`, with indices
0, 1, .., `slide_count` - 1 in this order; no slide when `slide_count` is absent. -/
theorem no_groups_one_implicit_group (st : BridgeState) (data : JSValue) (cmd : Command)
    (count : Nat) (hdata : data.truthy = true)
    (hid : (presentationId (responsePresentation data) cmd).truthy = true)
    (hgroups : (responsePresentation data).get "groups" = .undefined ∨
      (responsePresentation data).get "groups" = .arr [])
    (hcount : (responsePresentation data).get "slide_count" = .num (Int.ofNat count) ∨
      ((responsePresentation data).get "slide_count" = .undefined ∧ count = 0)) :
    ∃ slides : List JSValue,
      slides.length = count ∧
      slides.map (fun slide => slide.get "slideIndex")
        = (List.range count).map (fun i : Nat => JSValue.num (Int.ofNat i)) ∧
      handlePresentationRequest st data cmd
        = .ok (emitPresentation st (presentationId (responsePresentation data) cmd)
            (presentationName (responsePresentation data))
            [ .obj [ ("groupName", .str ""), ("groupColor", .str ""),
                ("groupSlides", .arr slides) ] ] cmd) ∧
      (presentationData st (presentationId (responsePresentation data) cmd)
          (presentationName (responsePresentation data))
          [ .obj [ ("groupName", .str ""), ("groupColor", .str ""),
              ("groupSlides", .arr slides) ] ]).get "presentationSlideGroups"
        = .arr [ .obj [ ("groupName", .str ""), ("groupColor", .str ""),
            ("groupSlides", .arr slides) ] ] := by
  refine ⟨(List.range count).map
    (placeholderSlide st.baseURL (presentationId (responsePresentation data) cmd) cmd),
    by simp, placeholder_indices _ _ _ _, ?_, (presentationData_groups _ _ _ _).1⟩
  exact handlePresentationRequest_emits st data cmd _ hdata hid
    (presentationGroups_no_groups _ _ _ _ count hgroups hcount)

/-- C27 (witness): a response with an identifier, no groups and `slide_count` 3. -/
theorem no_groups_one_implicit_group_witness :
    ∃ slides : List JSValue,
      slides.length = 3 ∧
      slides.map (fun slide => slide.get "slideIndex")
        = (List.range 3).map (fun i : Nat => JSValue.num (Int.ofNat i)) ∧
      handlePresentationRequest idleBridge
          (.obj [("id", .obj [("uuid", .str "4f2a")]), ("slide_count", .num 3)]) requestCommand
        = .ok (emitPresentation idleBridge
            (presentationId (responsePresentation
              (.obj [("id", .obj [("uuid", .str "4f2a")]), ("slide_count", .num 3)]))
              requestCommand)
            (presentationName (responsePresentation
              (.obj [("id", .obj [("uuid", .str "4f2a")]), ("slide_count", .num 3)])))
            [ .obj [ ("groupName", .str ""), ("groupColor", .str ""),
                ("groupSlides", .arr slides) ] ] requestCommand) ∧
      (presentationData idleBridge
          (presentationId (responsePresentation
            (.obj [("id", .obj [("uuid", .str "4f2a")]), ("slide_count", .num 3)]))
            requestCommand)
          (presentationName (responsePresentation
            (.obj [("id", .obj [("uuid", .str "4f2a")]), ("slide_count", .num 3)])))
          [ .obj [ ("groupName", .str ""), ("groupColor", .str ""),
              ("groupSlides", .arr slides) ] ]).get "presentationSlideGroups"
        = .arr [ .obj [ ("groupName", .str ""), ("groupColor", .str ""),
            ("groupSlides", .arr slides) ] ] :=
  no_groups_one_implicit_group idleBridge
    (.obj [("id", .obj [("uuid", .str "4f2a")]), ("slide_count", .num 3)]) requestCommand 3
    rfl rfl (Or.inl rfl) (Or.inl rfl)

end ProWebRemote

/-! ## Clear-group registry -/

namespace ProWebRemote

theorem get_truthy_not_nullish (w : JSValue) (key : String) (h : (w.get key).truthy = true) :
    w.isNullish = false := by
  cases w <;> simp_all [JSValue.get, JSValue.prop, JSValue.truthy, JSValue.isNullish]

theorem toLowerCase_eq_clear_all (s : String) :
    toLowerCase s = "clear all" ↔ equalsIgnoringCase s "clear all" = true := by
  unfold toLowerCase equalsIgnoringCase
  constructor
  · intro h
    have hd := congrArg String.data h
    simp only at hd
    rw [hd]
    decide
  · intro h
    have hd : List.map Char.toLower s.data = List.map Char.toLower "clear all".data := by
      simpa using h
    rw [hd]
    decide

theorem clearGroupName_match (g : JSValue) (h : isClearAll g = true) :
    clearGroupName g = .ok "clear all" := by
  unfold isClearAll at h
  split at h
  next s hs =>
    have hlow := (toLowerCase_eq_clear_all s).2 h
    have hne : s ≠ "" := by
      intro he
      subst he
      revert h
      decide
    have hname : ((g.get "id").get "name").truthy = true := by
      rw [hs]
      simp [JSValue.truthy, hne]
    have hidn : (g.get "id").isNullish = false := get_truthy_not_nullish _ _ hname
    have hid : (g.get "id").truthy = true := by
      obtain ⟨f, hf⟩ := get_eq_str_is_obj _ _ _ hs
      rw [hf]
      rfl
    have hg : g.isNullish = false := get_truthy_not_nullish _ _ hid
    rw [hs] at hname
    unfold clearGroupName
    simp only [prop_of_not_nullish g "id" hg, bind, Except.bind, hid, hs, hname, Bool.and_self,
      if_true, pure, Except.pure, hlow]
  next => cases h

theorem clearGroupName_eq_clear_all (g : JSValue) (h : clearGroupName g = .ok "clear all") :
    isClearAll g = true := by
  unfold clearGroupName at h
  cases hp : g.prop "id" with
  | error e => simp [hp, bind, Except.bind] at h
  | ok id =>
    have hgid : g.get "id" = id := by
      unfold JSValue.get
      rw [hp]
    simp only [hp, bind, Except.bind] at h
    by_cases hc : (id.truthy && (id.get "name").truthy) = true
    · simp only [hc, if_true] at h
      cases hn : id.get "name" with
      | str s =>
        simp only [hn, pure, Except.pure, Except.ok.injEq] at h
        unfold isClearAll
        rw [hgid, hn]
        exact (toLowerCase_eq_clear_all s).1 h
      | undefined => simp [hn] at h
      | null => simp [hn] at h
      | bool b => simp [hn] at h
      | num n => simp [hn] at h
      | arr xs => simp [hn] at h
      | obj f => simp [hn] at h
    · simp only [hc, Bool.false_eq_true, if_false, pure, Except.pure, Except.ok.injEq] at h
      have hempty : toLowerCase "" ≠ "clear all" := by decide
      exact absurd h hempty

theorem clearGroupName_wellFormed (p : JSValue) (hw : wellFormedClearGroup p = true)
    (hn : isClearAll p = false) : ∃ n, clearGroupName p = .ok n ∧ n ≠ "clear all" := by
  unfold wellFormedClearGroup at hw
  simp only [Bool.and_eq_true, Bool.not_eq_true'] at hw
  obtain ⟨hg, hname⟩ := hw
  have key : ∀ n, clearGroupName p = .ok n → n ≠ "clear all" := by
    intro n hk he
    rw [he] at hk
    rw [clearGroupName_eq_clear_all p hk] at hn
    cases hn
  suffices h : ∃ n, clearGroupName p = .ok n by
    obtain ⟨n, hk⟩ := h
    exact ⟨n, hk, key n hk⟩
  unfold clearGroupName
  simp only [prop_of_not_nullish p "id" hg, bind, Except.bind]
  cases hnm : (p.get "id").get "name" with
  | str s =>
    by_cases hc : ((p.get "id").truthy && (JSValue.str s).truthy) = true
    · simp only [hc, if_true]
      exact ⟨_, rfl⟩
    · simp only [hc, Bool.false_eq_true, if_false]
      exact ⟨_, rfl⟩
  | undefined => simp [JSValue.truthy, pure, Except.pure]
  | null => simp [JSValue.truthy, pure, Except.pure]
  | bool b =>
    rw [hnm] at hname
    have hb : b = false := by simpa [JSValue.truthy] using hname
    subst hb
    simp [JSValue.truthy, pure, Except.pure]
  | num n =>
    rw [hnm] at hname
    have hz : n = 0 := by simpa [JSValue.truthy] using hname
    subst hz
    simp [JSValue.truthy, pure, Except.pure]
  | arr xs =>
    rw [hnm] at hname
    simp [JSValue.truthy] at hname
  | obj f =>
    rw [hnm] at hname
    simp [JSValue.truthy] at hname

theorem findClearAll_first (pre : List JSValue) (g : JSValue) (post : List JSValue)
    (hpre : ∀ p ∈ pre, wellFormedClearGroup p = true ∧ isClearAll p = false)
    (hg : isClearAll g = true) :
    findClearAll (pre ++ g :: post) = .ok (some ((g.get "id").get "uuid")) := by
  induction pre with
  | nil =>
    simp only [List.nil_append, findClearAll, clearGroupName_match g hg, bind, Except.bind,
      if_true, pure, Except.pure]
  | cons p rest ih =>
    obtain ⟨n, hk, hne⟩ := clearGroupName_wellFormed p (hpre p (List.mem_cons_self _ _)).1
      (hpre p (List.mem_cons_self _ _)).2
    simp only [List.cons_append, findClearAll, hk, bind, Except.bind, hne, if_false]
    exact ih (fun q hq => hpre q (List.mem_cons_of_mem _ hq))

theorem findClearAll_none (items : List JSValue) (h : ∀ g ∈ items, isClearAll g = false) :
    findClearAll items = .ok none ∨ ∃ e, findClearAll items = .error e := by
  induction items with
  | nil => exact Or.inl rfl
  | cons p rest ih =>
    unfold findClearAll
    cases hk : clearGroupName p with
    | error e => exact Or.inr ⟨e, rfl⟩
    | ok n =>
      have hne : n ≠ "clear all" := by
        intro he
        rw [he] at hk
        have hp := h p (List.mem_cons_self _ _)
        rw [clearGroupName_eq_clear_all p hk] at hp
        cases hp
      simp only [bind, Except.bind, hne, if_false]
      exact ih (fun q hq => h q (List.mem_cons_of_mem _ hq))

end ProWebRemote

namespace ProWebRemote

/-- C24: given the fetched list of clear groups, `fetchClearGroups` sets
`clearAllGroupUUID` to the `id.uuid` of the first group whose `id.name` equals
`clear all` up to letter case (the groups before it being clear groups that do not
match); when no group of the list matches, or the response is not a list or did not
arrive, `clearAllGroupUUID` keeps its value. -/
theorem clear_group_resolution (st : BridgeState) (response : Option JSValue) :
    (∀ pre g post, response = some (.arr (pre ++ g :: post)) →
      (∀ p ∈ pre, wellFormedClearGroup p = true ∧ isClearAll p = false) →
      isClearAll g = true →
      (fetchClearGroups st response).clearAllGroupUUID = (g.get "id").get "uuid") ∧
    ((∀ items, response = some (.arr items) → ∀ g ∈ items, isClearAll g = false) →
      (fetchClearGroups st response).clearAllGroupUUID = st.clearAllGroupUUID) := by
  constructor
  · intro pre g post hr hpre hg
    subst hr
    simp only [fetchClearGroups, onClearGroups, findClearAll_first pre g post hpre hg]
  · intro hnone
    cases response with
    | none => rfl
    | some groups =>
      cases groups with
      | arr items =>
        rcases findClearAll_none items (hnone items rfl) with h | ⟨e, h⟩
        · simp only [fetchClearGroups, onClearGroups, h]
        · simp only [fetchClearGroups, onClearGroups, h]
      | undefined => rfl
      | null => rfl
      | bool b => rfl
      | num n => rfl
      | str s => rfl
      | obj f => rfl

/-- C24 (witness): of three groups the second and third match; the second is taken.
A response that is not a list changes nothing. -/
theorem clear_group_resolution_witness :
    (fetchClearGroups idleBridge
        (some (.arr ([clearGroup "u0" "Clear Slides"] ++
          clearGroup "u1" "CLEAR All" :: [clearGroup "u2" "clear all"])))).clearAllGroupUUID
      = ((clearGroup "u1" "CLEAR All").get "id").get "uuid" ∧
    (fetchClearGroups idleBridge (some (.str "busy"))).clearAllGroupUUID
      = idleBridge.clearAllGroupUUID :=
  ⟨(clear_group_resolution idleBridge _).1 [clearGroup "u0" "Clear Slides"]
      (clearGroup "u1" "CLEAR All") [clearGroup "u2" "clear all"] rfl
      (by
        intro p hp
        rw [List.mem_singleton] at hp
        subst hp
        exact ⟨by decide, by decide⟩)
      (by decide),
    (clear_group_resolution idleBridge (some (.str "busy"))).2
      (by
        intro items h
        cases h)⟩

/-- C25 (counterexample): starting from the initial state, a first resolution sets
`clearAllGroupUUID` to "u1"; a second resolution, on a list whose `Clear All` group has
the UUID "u2", overwrites it. -/
theorem clear_all_uuid_overwritten :
    (fetchClearGroups idleBridge
        (some (.arr [clearGroup "u1" "Clear All"]))).clearAllGroupUUID = .str "u1" ∧
    (fetchClearGroups
        (fetchClearGroups idleBridge (some (.arr [clearGroup "u1" "Clear All"])))
        (some (.arr [clearGroup "u2" "Clear All"]))).clearAllGroupUUID = .str "u2" ∧
    (JSValue.str "u2").strictEq (.str "u1") = false := by
  have h1 := findClearAll_first [] (clearGroup "u1" "Clear All") [] (by simp) (by decide)
  have h2 := findClearAll_first [] (clearGroup "u2" "Clear All") [] (by simp) (by decide)
  simp only [List.nil_append] at h1 h2
  refine ⟨?_, ?_, by decide⟩
  · simp only [fetchClearGroups, onClearGroups, h1]
    rfl
  · simp only [fetchClearGroups, onClearGroups, h1, h2]
    rfl

theorem simulateMessage_clearAll (st : BridgeState) (m : JSValue) :
    (simulateMessage st m).clearAllGroupUUID = st.clearAllGroupUUID := by
  unfold simulateMessage
  split <;> rfl

theorem executeOpenAPIRequest_clearAll (st : BridgeState) (endpoint : MapResult)
    (cmd : Command) :
    (executeOpenAPIRequest st endpoint cmd).clearAllGroupUUID = st.clearAllGroupUUID := by
  unfold executeOpenAPIRequest
  cases endpoint with
  | undefined => rfl
  | null => rfl
  | inherited => rfl
  | descriptor e =>
    simp only
    split
    · simp only
      split <;> rfl
    · rfl

theorem sendOpenAPI_clearAll (st : BridgeState) (parsed : Option Command) :
    (sendOpenAPI st parsed).clearAllGroupUUID = st.clearAllGroupUUID := by
  unfold sendOpenAPI
  cases parsed with
  | none => rfl
  | some cmd =>
    simp only
    split
    · rfl
    · rfl
    · exact executeOpenAPIRequest_clearAll _ _ _

theorem handlePresentationRequest_clearAll (st st1 : BridgeState) (data : JSValue)
    (cmd : Command) (h : handlePresentationRequest st data cmd = .ok st1) :
    st1.clearAllGroupUUID = st.clearAllGroupUUID := by
  unfold handlePresentationRequest at h
  split at h
  · cases h
    rfl
  · simp only at h
    split at h
    · cases h
      rfl
    · cases hg : presentationGroups st.baseURL
          (presentationId ((data.get "presentation").orElse data) cmd) cmd
          ((data.get "presentation").orElse data) with
      | error e => simp [hg, bind, Except.bind] at h
      | ok groups =>
        simp only [hg, bind, Except.bind, pure, Except.pure, Except.ok.injEq] at h
        rw [← h]
        unfold emitPresentation
        exact simulateMessage_clearAll _ _

theorem handleAudioCurrent_clearAll (st : BridgeState) (data : JSValue) :
    (handleAudioCurrent st data).clearAllGroupUUID = st.clearAllGroupUUID := by
  unfold handleAudioCurrent
  split
  · simp only
    split
    · exact simulateMessage_clearAll _ _
    · rfl
  · split
    · exact simulateMessage_clearAll _ _
    · rfl

theorem handleAudioPlaying_clearAll (st : BridgeState) (data : JSValue) :
    (handleAudioPlaying st data).clearAllGroupUUID = st.clearAllGroupUUID := by
  unfold handleAudioPlaying
  simp only
  split
  · exact simulateMessage_clearAll _ _
  · rfl

theorem slideIndexUpdate_clearAll (st : BridgeState) (data : JSValue) (key : String) :
    (slideIndexUpdate st data key).1.clearAllGroupUUID = st.clearAllGroupUUID := by
  unfold slideIndexUpdate
  split
  · rfl
  · split
    · exact simulateMessage_clearAll _ _
    · rfl

theorem bind_ok_elim {α β : Type} (x : Except JSError α) (f : α → Except JSError β) (b : β)
    (h : x.bind f = .ok b) : ∃ a, x = .ok a ∧ f a = .ok b := by
  cases x with
  | error e => cases h
  | ok a => exact ⟨a, rfl, h⟩

theorem handleAnnouncementData_clearAll (rgbHex : JSValue → String) (st st1 : BridgeState)
    (announcement : JSValue) (cmd : Command)
    (h : handleAnnouncementData rgbHex st announcement cmd = .ok st1) :
    st1.clearAllGroupUUID = st.clearAllGroupUUID := by
  unfold handleAnnouncementData at h
  simp only [bind] at h
  obtain ⟨id, _, h⟩ := bind_ok_elim _ _ _ h
  have key : ∀ (x : Except JSError (List JSValue)) (f : List JSValue → JSValue),
      (x.bind fun y => pure (simulateMessage st (f y))) = .ok st1 →
        st1.clearAllGroupUUID = st.clearAllGroupUUID := by
    intro x f hx
    obtain ⟨g, _, hg⟩ := bind_ok_elim _ _ _ hx
    simp only [pure, Except.pure, Except.ok.injEq] at hg
    rw [← hg]
    exact simulateMessage_clearAll _ _
  split at h
  · split at h
    · exact key _ _ h
    · exact key _ _ h
  · exact key _ _ h

theorem updateClearButtonStates_clearAll (st st1 : BridgeState) (layerStatus : JSValue)
    (h : updateClearButtonStates st layerStatus = .ok st1) :
    st1.clearAllGroupUUID = st.clearAllGroupUUID := by
  unfold updateClearButtonStates at h
  split at h
  · cases h
  · cases h
    rfl

theorem handleStatusUpdate_clearAll (rgbHex : JSValue → String) (st : BridgeState)
    (update : JSValue) :
    (handleStatusUpdate rgbHex st update).1.clearAllGroupUUID = st.clearAllGroupUUID := by
  unfold handleStatusUpdate
  split
  · rfl
  · simp only
    split
    · exact slideIndexUpdate_clearAll _ _ _
    · split
      · exact slideIndexUpdate_clearAll _ _ _
      · split
        · split
          · rfl
          · split
            · exact executeOpenAPIRequest_clearAll _ _ _
            · rfl
        · split
          · split
            · rfl
            · split
              · exact executeOpenAPIRequest_clearAll _ _ _
              · rfl
          · split
            · split
              · rfl
              · split
                · split
                  next st2 h2 => exact (handleAnnouncementData_clearAll _ _ _ _ _ h2).trans rfl
                  next => rfl
                · rfl
            · split
              · split
                next st1 h1 => exact updateClearButtonStates_clearAll _ _ _ h1
                next => rfl
              · split
                · simp only
                  rw [handleAudioPlaying_clearAll, handleAudioCurrent_clearAll]
                · rfl

end ProWebRemote

namespace ProWebRemote

theorem invokeHandler_clearAll (ext : Handler → HandlerFn)
    (hext : ∀ h d c s, (ext h d c s).1.clearAllGroupUUID = s.clearAllGroupUUID)
    (h : Handler) (data : JSValue) (cmd : Command) (st : BridgeState) :
    (invokeHandler ext h data cmd st).1.clearAllGroupUUID = st.clearAllGroupUUID := by
  cases h
  case handlePresentationRequest =>
    simp only [invokeHandler]
    split
    next st1 h1 => exact handlePresentationRequest_clearAll _ _ _ _ h1
    next => rfl
  case handleAudioCurrent => exact handleAudioCurrent_clearAll _ _
  case handleAudioPlaying => exact handleAudioPlaying_clearAll _ _
  all_goals exact hext _ _ _ _

theorem onRejected_clearAll (ext : Handler → HandlerFn)
    (hext : ∀ h d c s, (ext h d c s).1.clearAllGroupUUID = s.clearAllGroupUUID)
    (e : Endpoint) (cmd : Command) (st : BridgeState) :
    (onRejected ext e cmd st).1.clearAllGroupUUID = st.clearAllGroupUUID := by
  unfold onRejected
  by_cases ha : cmd.action = "presentationRequest"
  · simp only [ha, if_true]
    cases e.handler with
    | none => rfl
    | some h => exact (invokeHandler_clearAll ext hext h _ _ _).trans rfl
  · simp only [ha, if_false]

theorem onFulfilled_clearAll (ext : Handler → HandlerFn)
    (hext : ∀ h d c s, (ext h d c s).1.clearAllGroupUUID = s.clearAllGroupUUID)
    (e : Endpoint) (cmd : Command) (data : JSValue) (st : BridgeState) :
    (onFulfilled ext e cmd data st).1.clearAllGroupUUID = st.clearAllGroupUUID := by
  unfold onFulfilled
  by_cases ha : cmd.action = "presentationRequest"
  · simp only [ha, if_true]
    cases e.handler with
    | none => rfl
    | some h => exact (invokeHandler_clearAll ext hext h _ _ _).trans rfl
  · simp only [ha, if_false]
    cases e.handler with
    | none => rfl
    | some h => exact invokeHandler_clearAll ext hext h _ _ _

theorem settle_clearAll (ext : Handler → HandlerFn)
    (hext : ∀ h d c s, (ext h d c s).1.clearAllGroupUUID = s.clearAllGroupUUID)
    (e : Endpoint) (cmd : Command) (outcome : FetchOutcome) (st : BridgeState) :
    (settle ext e cmd outcome st).1.clearAllGroupUUID = st.clearAllGroupUUID := by
  cases outcome with
  | httpError status => exact onRejected_clearAll ext hext e cmd st
  | networkError => exact onRejected_clearAll ext hext e cmd st
  | ok body =>
    simp only [settle]
    have h1 := onFulfilled_clearAll ext hext e cmd (body.getD .null) st
    split
    next st1 heq =>
      rw [heq] at h1
      exact h1
    next st1 err heq =>
      rw [heq] at h1
      exact (onRejected_clearAll ext hext e cmd st1).trans h1

theorem findClearAll_some (items : List JSValue) (u : JSValue)
    (h : findClearAll items = .ok (some u)) :
    ∃ g, g ∈ items ∧ isClearAll g = true ∧ u = (g.get "id").get "uuid" := by
  induction items with
  | nil => cases h
  | cons p rest ih =>
    unfold findClearAll at h
    cases hk : clearGroupName p with
    | error e => simp [hk, bind, Except.bind] at h
    | ok n =>
      simp only [hk, bind, Except.bind] at h
      by_cases hn : n = "clear all"
      · simp only [hn, if_true, pure, Except.pure, Except.ok.injEq, Option.some.injEq] at h
        rw [hn] at hk
        exact ⟨p, List.mem_cons_self _ _, clearGroupName_eq_clear_all p hk, h.symm⟩
      · simp only [hn, if_false] at h
        obtain ⟨g, hg, hc, hu⟩ := ih h
        exact ⟨g, List.mem_cons_of_mem _ hg, hc, hu⟩

theorem sendBody_clearAll (parse : String → Except JSError Command) (st st1 : BridgeState)
    (jsonString : String) (h : sendBody parse st jsonString = .ok st1) :
    st1.clearAllGroupUUID = st.clearAllGroupUUID := by
  cases hp : parse jsonString with
  | error err => simp [sendBody, hp] at h
  | ok cmd =>
    rw [sendBody_ok parse st jsonString cmd hp] at h
    cases h
    exact sendOpenAPI_clearAll st (some cmd)

theorem send_clearAll (parse : String → Except JSError Command) (st st1 : BridgeState)
    (jsonString : String) (h : send parse st jsonString = .ok st1) :
    st1.clearAllGroupUUID = st.clearAllGroupUUID := by
  unfold send at h
  split at h
  next st2 h2 =>
    cases h
    exact sendBody_clearAll parse st _ jsonString h2
  next =>
    cases h
    rfl

/-- For an endpoint without handler, or with one of the three handlers the executor
model holds, the handlers supplied from outside are never called. -/
theorem settle_modelled (ext : Handler → HandlerFn) (e : Endpoint) (cmd : Command)
    (outcome : FetchOutcome) (st : BridgeState)
    (hh : e.handler ∈ [none, some Handler.handlePresentationRequest,
      some Handler.handleAudioCurrent, some Handler.handleAudioPlaying]) :
    settle ext e cmd outcome st = settle noHandlers e cmd outcome st := by
  simp only [List.mem_cons, List.mem_singleton, List.not_mem_nil, or_false] at hh
  rcases hh with h | h | h | h <;>
    simp only [settle, onFulfilled, onRejected, h, invokeHandler]

theorem handleLibraryRequest_clearAll (st : BridgeState) (libraries : FetchOutcome)
    (contents : Nat → FetchOutcome) (completion : List Nat) :
    (handleLibraryRequest st libraries contents completion).clearAllGroupUUID
      = st.clearAllGroupUUID := by
  unfold handleLibraryRequest
  repeat' split
  all_goals exact simulateMessage_clearAll _ _

theorem handlePlaylistRequest_clearAll (st st1 : BridgeState) (data : JSValue)
    (outcome : Nat → Option Nat → FetchOutcome)
    (h : handlePlaylistRequest st data outcome = .ok st1) :
    st1.clearAllGroupUUID = st.clearAllGroupUUID := by
  unfold handlePlaylistRequest at h
  simp only [bind] at h
  split at h
  · obtain ⟨fetched, _, hf⟩ := bind_ok_elim _ _ _ h
    cases hf
    exact simulateMessage_clearAll _ _
  · cases h
    exact simulateMessage_clearAll _ _

theorem handleAudioRequest_clearAll (st st1 : BridgeState) (data : JSValue)
    (details : Nat → FetchOutcome) (completion : List Nat)
    (h : handleAudioRequest st data details completion = .ok st1) :
    st1.clearAllGroupUUID = st.clearAllGroupUUID := by
  unfold handleAudioRequest at h
  split at h
  · simp only [bind] at h
    obtain ⟨fetches, _, hf⟩ := bind_ok_elim _ _ _ h
    cases hf
    exact simulateMessage_clearAll _ _
  · cases h
    exact simulateMessage_clearAll _ _

theorem handleClockRequest_clearAll (st st1 : BridgeState) (data : JSValue)
    (h : handleClockRequest st data = .ok st1) :
    st1.clearAllGroupUUID = st.clearAllGroupUUID := by
  unfold handleClockRequest at h
  split at h
  · simp only [bind] at h
    obtain ⟨clocks, _, hf⟩ := bind_ok_elim _ _ _ h
    cases hf
    exact simulateMessage_clearAll _ _
  · cases h
    exact simulateMessage_clearAll _ _

theorem asHandler_clearAll (st : BridgeState) (r : Except JSError BridgeState)
    (h : ∀ st1, r = .ok st1 → st1.clearAllGroupUUID = st.clearAllGroupUUID) :
    (asHandler st r).1.clearAllGroupUUID = st.clearAllGroupUUID := by
  cases r with
  | ok st1 => exact h st1 rfl
  | error err => rfl

theorem handleAudioPlayPause_clearAll (st : BridgeState) (toggled : Bool)
    (updated : Option JSValue) :
    (handleAudioPlayPause st toggled updated).clearAllGroupUUID = st.clearAllGroupUUID := by
  unfold handleAudioPlayPause
  split
  · split
    · exact handleAudioPlaying_clearAll _ _
    · rfl
  · rfl

theorem handlePresentationCurrent_clearAll (st st1 : BridgeState) (data : JSValue)
    (h : handlePresentationCurrent st data = .ok st1) :
    st1.clearAllGroupUUID = st.clearAllGroupUUID := by
  unfold handlePresentationCurrent at h
  split at h
  · cases h
    rfl
  · simp only [bind] at h
    split at h
    · obtain ⟨groups, _, hf⟩ := bind_ok_elim _ _ _ h
      cases hf
      exact simulateMessage_clearAll _ _
    · cases h
      exact simulateMessage_clearAll _ _

theorem handleSlideIndex_clearAll (st st1 : BridgeState) (data : JSValue)
    (h : handleSlideIndex st data = .ok st1) :
    st1.clearAllGroupUUID = st.clearAllGroupUUID := by
  unfold handleSlideIndex at h
  split at h
  · simp only [bind] at h
    obtain ⟨index, _, h2⟩ := bind_ok_elim _ _ _ h
    obtain ⟨text, _, h3⟩ := bind_ok_elim _ _ _ h2
    cases h3
    exact simulateMessage_clearAll _ _
  · cases h
    rfl

theorem handleClockCurrentTime_clearAll (st st1 : BridgeState) (data : JSValue)
    (h : handleClockCurrentTime st data = .ok st1) :
    st1.clearAllGroupUUID = st.clearAllGroupUUID := by
  unfold handleClockCurrentTime at h
  split at h
  · simp only [bind] at h
    obtain ⟨times, _, hf⟩ := bind_ok_elim _ _ _ h
    cases hf
    exact simulateMessage_clearAll _ _
  · cases h
    rfl

theorem handleMessageRequest_clearAll (st st1 : BridgeState) (data : JSValue)
    (h : handleMessageRequest st data = .ok st1) :
    st1.clearAllGroupUUID = st.clearAllGroupUUID := by
  unfold handleMessageRequest at h
  split at h
  · simp only [bind] at h
    obtain ⟨messages, _, hf⟩ := bind_ok_elim _ _ _ h
    cases hf
    exact simulateMessage_clearAll _ _
  · cases h
    exact simulateMessage_clearAll _ _

theorem stageSend_clearAll (st : BridgeState) (screens : List JSValue)
    (layouts : Option JSValue) :
    (stageSend st screens layouts).clearAllGroupUUID = st.clearAllGroupUUID := by
  unfold stageSend
  split
  · split <;> exact simulateMessage_clearAll _ _
  · exact simulateMessage_clearAll _ _

theorem handleStageDisplaySets_clearAll (st st1 : BridgeState) (data : JSValue)
    (layouts : Option JSValue) (h : handleStageDisplaySets st data layouts = .ok st1) :
    st1.clearAllGroupUUID = st.clearAllGroupUUID := by
  unfold handleStageDisplaySets at h
  split at h
  · simp only [bind] at h
    obtain ⟨screens, _, hf⟩ := bind_ok_elim _ _ _ h
    cases hf
    exact stageSend_clearAll _ _ _
  · cases h
    exact stageSend_clearAll _ _ _

/-- No response handler of the source assigns `clearAllGroupUUID`, whatever the outcomes
of its supplementary fetches. -/
theorem sourceHandlers_clearAll (env : SubFetches) (h : Handler) (data : JSValue)
    (cmd : Command) (st : BridgeState) :
    (sourceHandlers env h data cmd st).1.clearAllGroupUUID = st.clearAllGroupUUID := by
  cases h
  case handleLibraryRequest => exact handleLibraryRequest_clearAll _ _ _ _
  case handlePlaylistRequest =>
    exact asHandler_clearAll _ _ (fun _ h => handlePlaylistRequest_clearAll _ _ _ _ h)
  case handleAudioRequest =>
    exact asHandler_clearAll _ _ (fun _ h => handleAudioRequest_clearAll _ _ _ _ _ h)
  case handleAudioCurrent => exact handleAudioCurrent_clearAll _ _
  case handleAudioPlaying => exact handleAudioPlaying_clearAll _ _
  case handleAudioPlayPause => exact handleAudioPlayPause_clearAll _ _ _
  case handlePresentationRequest =>
    exact asHandler_clearAll _ _ (fun _ h => handlePresentationRequest_clearAll _ _ _ _ h)
  case handlePresentationCurrent =>
    exact asHandler_clearAll _ _ (fun _ h => handlePresentationCurrent_clearAll _ _ _ h)
  case handleSlideIndex =>
    exact asHandler_clearAll _ _ (fun _ h => handleSlideIndex_clearAll _ _ _ h)
  case handlePresentationTrigger => exact simulateMessage_clearAll _ _
  case handleClockRequest =>
    exact asHandler_clearAll _ _ (fun _ h => handleClockRequest_clearAll _ _ _ h)
  case handleClockCurrentTime =>
    exact asHandler_clearAll _ _ (fun _ h => handleClockCurrentTime_clearAll _ _ _ h)
  case handleMessageRequest =>
    exact asHandler_clearAll _ _ (fun _ h => handleMessageRequest_clearAll _ _ _ h)
  case handleStageDisplaySets =>
    exact asHandler_clearAll _ _ (fun _ h => handleStageDisplaySets_clearAll _ _ _ _ h)

/-- With the table of the handlers of the source, the callbacks of the executor leave
`clearAllGroupUUID` as it was for every endpoint, command and outcome of the fetches. -/
theorem settle_sourceHandlers_clearAll (env : SubFetches) (e : Endpoint) (cmd : Command)
    (outcome : FetchOutcome) (st : BridgeState) :
    (settle (sourceHandlers env) e cmd outcome st).1.clearAllGroupUUID
      = st.clearAllGroupUUID :=
  settle_clearAll (sourceHandlers env) (sourceHandlers_clearAll env) e cmd outcome st

/-- C25 (amended): outside a clear-group resolution nothing changes `clearAllGroupUUID`:
not `send` up to the issue of its request; not the callbacks on the outcome of that
request, for every endpoint and with every response handler of the source, whatever the
outcomes of the supplementary fetches of the handlers; not a stream update; not
`connectOpenAPI` up to its probe.  A clear-group resolution leaves the variable as it was
or overwrites it with the `id.uuid` of a group of the fetched list named `clear all` up
to case, whether or not it had been set before. -/
theorem clear_all_uuid_changed_only_by_resolution (parse : String → Except JSError Command)
    (rgbHex : JSValue → String) (st : BridgeState) :
    (∀ jsonString st1, send parse st jsonString = .ok st1 →
      st1.clearAllGroupUUID = st.clearAllGroupUUID) ∧
    (∀ env e cmd outcome,
      (settle (sourceHandlers env) e cmd outcome st).1.clearAllGroupUUID
        = st.clearAllGroupUUID) ∧
    (∀ env h data cmd,
      (sourceHandlers env h data cmd st).1.clearAllGroupUUID = st.clearAllGroupUUID) ∧
    (∀ update,
      (handleStatusUpdate rgbHex st update).1.clearAllGroupUUID = st.clearAllGroupUUID) ∧
    (∀ base, (connectOpenAPI st base).clearAllGroupUUID = st.clearAllGroupUUID) ∧
    (∀ response,
      (fetchClearGroups st response).clearAllGroupUUID = st.clearAllGroupUUID ∨
      ∃ items g, response = some (.arr items) ∧ g ∈ items ∧ isClearAll g = true ∧
        (fetchClearGroups st response).clearAllGroupUUID = (g.get "id").get "uuid") := by
  refine ⟨fun _ _ h => send_clearAll _ _ _ _ h,
    fun env e cmd outcome => settle_sourceHandlers_clearAll env e cmd outcome st,
    fun env h data cmd => sourceHandlers_clearAll env h data cmd st,
    fun update => handleStatusUpdate_clearAll rgbHex st update, fun _ => rfl, ?_⟩
  intro response
  cases response with
  | none => exact Or.inl rfl
  | some groups =>
    cases groups with
    | arr items =>
      cases hf : findClearAll items with
      | error e =>
        left
        simp only [fetchClearGroups, onClearGroups, hf]
      | ok r =>
        cases r with
        | none =>
          left
          simp only [fetchClearGroups, onClearGroups, hf]
        | some u =>
          right
          obtain ⟨g, hg, hc, hu⟩ := findClearAll_some items u hf
          refine ⟨items, g, rfl, hg, hc, ?_⟩
          simp only [fetchClearGroups, onClearGroups, hf]
          exact hu
    | undefined => exact Or.inl rfl
    | null => exact Or.inl rfl
    | bool b => exact Or.inl rfl
    | num n => exact Or.inl rfl
    | str s => exact Or.inl rfl
    | obj f => exact Or.inl rfl

/-- C25 (witness): the command `libraryRequest` sent on a bridge whose variable is "u1",
and the callbacks of a stage-screen request whose layouts fetch fails. -/
theorem clear_all_uuid_changed_only_by_resolution_witness :
    send sampleParse resolvedBridge libraryText
      = .ok (sendOpenAPI resolvedBridge (some { action := "libraryRequest" })) ∧
    (sendOpenAPI resolvedBridge (some { action := "libraryRequest" })).clearAllGroupUUID
      = resolvedBridge.clearAllGroupUUID ∧
    (settle (sourceHandlers sampleFetches)
      { method := "GET", path := some "/v1/stage/screens",
        handler := some .handleStageDisplaySets }
      { action := "stageDisplaySets" }
      (.ok (some (.arr [.obj [("id", .obj [("uuid", .str "s1")]), ("name", .str "Main")]])))
      resolvedBridge).1.clearAllGroupUUID = resolvedBridge.clearAllGroupUUID :=
  ⟨rfl,
    (clear_all_uuid_changed_only_by_resolution sampleParse (fun _ => "") resolvedBridge).1
      libraryText _ rfl,
    (clear_all_uuid_changed_only_by_resolution sampleParse (fun _ => "") resolvedBridge).2.1
      sampleFetches _ _ _⟩

/-- The stage-screen request of the witness delivers its message without layouts. -/
theorem stage_request_without_layouts :
    (settle (sourceHandlers sampleFetches)
      { method := "GET", path := some "/v1/stage/screens",
        handler := some .handleStageDisplaySets }
      { action := "stageDisplaySets" }
      (.ok (some (.arr [.obj [("id", .obj [("uuid", .str "s1")]), ("name", .str "Main")]])))
      idleBridge).1.delivered
      = [ stageMessage
          [ .obj [ ("stageScreenUUID", .str "s1"), ("stageScreenName", .str "Main"),
                   ("stageLayoutSelectedLayoutUUID", .str "") ] ] [] ] := by
  rfl

end ProWebRemote

/-! ## Library transcoder -/

namespace ProWebRemote

theorem libraryItemPath_ok (library item : JSValue) (h : item.isNullish = false) :
    libraryItemPath ((library.get "name").orElse (.str "")) item
      = .ok (compositePath library item) := by
  unfold libraryItemPath
  simp only [prop_of_not_nullish item _ h, bind, Except.bind, pure, Except.pure]
  rfl

theorem pushLibraryItems_append (name : JSValue) (xs : List JSValue) (paths : List String) :
    (pushLibraryItems name xs paths).1 = paths ++ (pushLibraryItems name xs []).1 := by
  induction xs generalizing paths with
  | nil => simp [pushLibraryItems]
  | cons x rest ih =>
    unfold pushLibraryItems
    cases libraryItemPath name x with
    | error e => simp
    | ok path =>
      simp only
      rw [ih (paths ++ [path]), ih ([] ++ [path])]
      simp

theorem pushLibraryItems_ok (library : JSValue) (xs : List JSValue)
    (h : ∀ item ∈ xs, item.isNullish = false) :
    (pushLibraryItems ((library.get "name").orElse (.str "")) xs []).1
      = xs.map (compositePath library) := by
  induction xs with
  | nil => rfl
  | cons x rest ih =>
    unfold pushLibraryItems
    rw [libraryItemPath_ok library x (h x (List.mem_cons_self _ _))]
    simp only
    rw [pushLibraryItems_append, ih (fun item hi => h item (List.mem_cons_of_mem _ hi))]
    rfl

theorem libraryContents_append (name : JSValue) (outcome : FetchOutcome) (paths : List String) :
    libraryContents name outcome paths = paths ++ libraryContents name outcome [] := by
  unfold libraryContents
  split
  · split
    · simp
    · split
      · exact pushLibraryItems_append _ _ _
      · simp
  · simp

theorem libraryContents_ok (library body : JSValue) (h : wellFormedBody body = true) :
    libraryContents ((library.get "name").orElse (.str "")) (.ok (some body)) []
      = (bodyItems body).map (compositePath library) := by
  unfold wellFormedBody at h
  simp only [Bool.and_eq_true, Bool.not_eq_true'] at h
  obtain ⟨hb, hitems⟩ := h
  unfold libraryContents bodyItems
  simp only [prop_of_not_nullish body _ hb]
  cases hi : body.get "items" with
  | arr xs =>
    rw [hi] at hitems
    simp only [List.all_eq_true, Bool.not_eq_true'] at hitems
    simp only [JSValue.orElse, JSValue.truthy, if_true]
    exact pushLibraryItems_ok library xs hitems
  | undefined => rfl
  | null => rfl
  | bool b =>
    rw [hi] at hitems
    have hb2 : b = false := by simpa [JSValue.truthy] using hitems
    subst hb2
    rfl
  | num n =>
    rw [hi] at hitems
    have hz : n = 0 := by simpa [JSValue.truthy] using hitems
    subst hz
    rfl
  | str s =>
    rw [hi] at hitems
    have hs : s = "" := by simpa [JSValue.truthy] using hitems
    subst hs
    rfl
  | obj f =>
    rw [hi] at hitems
    simp [JSValue.truthy] at hitems

theorem libraryContents_failed (name : JSValue) (outcome : FetchOutcome)
    (h : outcome.succeeded = false) : libraryContents name outcome [] = [] := by
  unfold libraryContents
  split
  · simp [FetchOutcome.succeeded] at h
  · rfl

/-- What one settled contents fetch adds to `libraryPaths`. -/
theorem gatherLibraries_eq (fetches : List LibraryFetch) (contents : Nat → FetchOutcome)
    (completion : List Nat) :
    gatherLibraries fetches contents completion
      = completion.flatMap (fun i =>
          match fetches.get? i with
          | some f => libraryContents f.libraryName (contents i) []
          | none => []) := by
  unfold gatherLibraries
  suffices h : ∀ acc : List String,
      completion.foldl
          (fun paths i =>
            match fetches.get? i with
            | some f => libraryContents f.libraryName (contents i) paths
            | none => paths) acc
        = acc ++ completion.flatMap (fun i =>
            match fetches.get? i with
            | some f => libraryContents f.libraryName (contents i) []
            | none => []) by
    simpa using h []
  induction completion with
  | nil => simp
  | cons i rest ih =>
    intro acc
    simp only [List.foldl_cons, List.flatMap_cons]
    rw [ih]
    cases fetches.get? i with
    | none => simp
    | some f =>
      simp only
      rw [libraryContents_append, List.append_assoc]

theorem orElse_empty_truthy (v : JSValue) : (v.orElse (.str "")).truthy = v.truthy := by
  unfold JSValue.orElse
  by_cases h : v.truthy = true
  · simp [h]
  · simp only [h, Bool.false_eq_true, if_false]
    simp only [Bool.not_eq_true] at h
    rfl

theorem collectLibraries_ok (items : List JSValue) (acc : List LibraryFetch)
    (h : ∀ library ∈ items, library.isNullish = false) :
    collectLibraries items acc
      = (acc ++ (librariesWithUuid items).map (fun library =>
          { libraryId := (library.get "uuid").orElse (.str ""),
            libraryName := (library.get "name").orElse (.str "") }), none) := by
  induction items generalizing acc with
  | nil => simp [collectLibraries, librariesWithUuid]
  | cons x rest ih =>
    have hrest : ∀ library ∈ rest, library.isNullish = false :=
      fun l hl => h l (List.mem_cons_of_mem _ hl)
    unfold collectLibraries
    simp only [prop_of_not_nullish x _ (h x (List.mem_cons_self _ _)), orElse_empty_truthy]
    by_cases hu : (x.get "uuid").truthy = true
    · simp only [hu, if_true]
      rw [ih _ hrest]
      simp [librariesWithUuid, List.filter_cons, hu]
    · simp only [hu, Bool.false_eq_true, if_false]
      rw [ih _ hrest]
      simp [librariesWithUuid, List.filter_cons, hu]

end ProWebRemote

namespace ProWebRemote

theorem libraryContents_expected (library : JSValue) (outcome : FetchOutcome)
    (h : ∀ body, outcome = .ok (some body) → wellFormedBody body = true) :
    libraryContents ((library.get "name").orElse (.str "")) outcome []
      = expectedLibraryPaths library outcome := by
  cases outcome with
  | httpError s => rfl
  | networkError => rfl
  | ok body =>
    cases body with
    | none => rfl
    | some b => exact libraryContents_ok library b (h b rfl)

theorem gatherLibraries_perm (items : List JSValue) (contents : Nat → FetchOutcome)
    (completion : List Nat)
    (hbody : ∀ i body, i < (librariesWithUuid items).length → contents i = .ok (some body) →
      wellFormedBody body = true)
    (hperm : completion.Perm (List.range (librariesWithUuid items).length)) :
    (gatherLibraries
        ((librariesWithUuid items).map (fun library =>
          ({ libraryId := (library.get "uuid").orElse (.str ""),
             libraryName := (library.get "name").orElse (.str "") } : LibraryFetch)))
        contents completion).Perm (expectedLibrary items contents) := by
  rw [gatherLibraries_eq]
  refine (List.Perm.flatMap_right _ hperm).trans ?_
  unfold expectedLibrary
  rw [List.flatMap_def, List.flatMap_def]
  apply List.Perm.of_eq
  congr 1
  apply List.map_congr_left
  intro i hi
  have hlt : i < (librariesWithUuid items).length := List.mem_range.1 hi
  simp only [List.get?_eq_getElem?, List.getElem?_map, List.getElem?_eq_getElem hlt,
    Option.map_some', List.getD_eq_getElem?_getD, Option.getD_some]
  exact libraryContents_expected _ _ (fun body hb => hbody i body hlt hb)

theorem succeeded_some (body : JSValue)
    (h : (FetchOutcome.ok (some body)).succeeded = false) : False := by
  cases h

/-- C30: whatever the outcomes of the fetches and the order in which they settle,
`handleLibraryRequest` sends one `libraryRequest` message.  When the library list
arrived, its library list is a rearrangement of the composite paths of the items of the
libraries that have a UUID and whose contents arrived, one path per item; a library
whose fetch failed adds nothing.  When the fetch of the library list failed, the list
is empty. -/
theorem library_request_aggregate (st : BridgeState) (libraries : FetchOutcome)
    (contents : Nat → FetchOutcome) (completion : List Nat) :
    ∃ paths : List String,
      handleLibraryRequest st libraries contents completion
        = simulateMessage st (libraryMessage paths) ∧
      (∀ items, libraries = .ok (some (.arr items)) →
        (∀ library ∈ items, library.isNullish = false) →
        (∀ i body, i < (librariesWithUuid items).length → contents i = .ok (some body) →
          wellFormedBody body = true) →
        completion.Perm (List.range (librariesWithUuid items).length) →
        paths.Perm (expectedLibrary items contents)) ∧
      (libraries.succeeded = false → paths = []) := by
  cases libraries with
  | httpError s => exact ⟨[], rfl, fun items h => (by cases h), fun _ => rfl⟩
  | networkError => exact ⟨[], rfl, fun items h => (by cases h), fun _ => rfl⟩
  | ok body =>
    cases body with
    | none => exact ⟨[], rfl, fun items h => (by cases h), fun _ => rfl⟩
    | some data =>
      cases data with
      | arr items =>
        cases hc : collectLibraries items [] with
        | mk fetches raised =>
          cases raised with
          | some e =>
            refine ⟨[], ?_, ?_, ?_⟩
            · simp only [handleLibraryRequest, hc]
            · intro items2 h hwf _ _
              simp only [FetchOutcome.ok.injEq, Option.some.injEq, JSValue.arr.injEq] at h
              subst h
              rw [collectLibraries_ok items [] hwf] at hc
              simp at hc
            · exact fun h => (succeeded_some _ h).elim
          | none =>
            refine ⟨gatherLibraries fetches contents completion, ?_, ?_, ?_⟩
            · simp only [handleLibraryRequest, hc]
            · intro items2 h hwf hbody hperm
              simp only [FetchOutcome.ok.injEq, Option.some.injEq, JSValue.arr.injEq] at h
              subst h
              rw [collectLibraries_ok items [] hwf] at hc
              simp only [List.nil_append, Prod.mk.injEq, and_true] at hc
              rw [← hc]
              exact gatherLibraries_perm items contents completion hbody hperm
            · exact fun h => (succeeded_some _ h).elim
      | undefined =>
        exact ⟨[], rfl, fun items h => (by cases h), fun h => (succeeded_some _ h).elim⟩
      | null =>
        exact ⟨[], rfl, fun items h => (by cases h), fun h => (succeeded_some _ h).elim⟩
      | bool b =>
        exact ⟨[], rfl, fun items h => (by cases h), fun h => (succeeded_some _ h).elim⟩
      | num n =>
        exact ⟨[], rfl, fun items h => (by cases h), fun h => (succeeded_some _ h).elim⟩
      | str s =>
        exact ⟨[], rfl, fun items h => (by cases h), fun h => (succeeded_some _ h).elim⟩
      | obj f =>
        exact ⟨[], rfl, fun items h => (by cases h), fun h => (succeeded_some _ h).elim⟩

/-- C30 (witness): three libraries of which two have a UUID; the contents of the second
settle first and fail, those of the first yield one item. -/
theorem library_request_aggregate_witness :
    ∃ paths : List String,
      handleLibraryRequest idleBridge (.ok (some (.arr sampleLibraries))) sampleContents [1, 0]
        = simulateMessage idleBridge (libraryMessage paths) ∧
      paths.Perm (expectedLibrary sampleLibraries sampleContents) ∧
      expectedLibrary sampleLibraries sampleContents = ["OpenAPI/Libraries/Hymns/Abide/p1"] :=
  match library_request_aggregate idleBridge (.ok (some (.arr sampleLibraries))) sampleContents
    [1, 0] with
  | ⟨paths, hsend, hperm, _⟩ =>
    ⟨paths, hsend,
      hperm sampleLibraries rfl
        (by
          intro library hl
          simp only [sampleLibraries, List.mem_cons, List.mem_singleton, List.not_mem_nil,
            or_false] at hl
          rcases hl with h | h | h <;> subst h <;> rfl)
        (by
          intro i body _ hb
          cases i with
          | zero =>
            simp only [sampleContents, FetchOutcome.ok.injEq, Option.some.injEq] at hb
            subst hb
            rfl
          | succ k => simp [sampleContents] at hb)
        (List.Perm.swap 0 1 []),
      by decide⟩

end ProWebRemote

/-! ## Playlist transcoder: item types -/

namespace ProWebRemote

theorem mappedType_eq (t : JSValue) :
    (if (t.orElse (.str "presentation")).strictEq (.str "header") then "playlistItemTypeHeader"
      else if (t.orElse (.str "presentation")).strictEq (.str "placeholder") then
        "playlistItemTypePlaceholder"
      else if (t.orElse (.str "presentation")).strictEq (.str "video") then
        "playlistItemTypeVideo"
      else if (t.orElse (.str "presentation")).strictEq (.str "audio") then
        "playlistItemTypeAudio"
      else "playlistItemTypePresentation") = itemTypeName t := by
  cases t with
  | str s =>
    by_cases he : s = ""
    · subst he
      rfl
    · have ht : (JSValue.str s).orElse (.str "presentation") = .str s := by
        simp [JSValue.orElse, JSValue.truthy, he]
      rw [ht]
      simp only [strictEq_str, decide_eq_true_eq, itemTypeName]
  | undefined => rfl
  | null => rfl
  | bool b => cases b <;> rfl
  | num n =>
    by_cases hz : n = 0
    · subst hz
      rfl
    · have ht : (JSValue.num n).orElse (.str "presentation") = .num n := by
        simp [JSValue.orElse, JSValue.truthy, hz]
      rw [ht]
      rfl
  | arr xs => rfl
  | obj f => rfl

/-- C29: the field `playlistItemType` of an emitted playlist item is the enumeration
value of the backend `type`: the four named types map to their four names, every
other value and a missing `type` map to `playlistItemTypePresentation`; the item of a
top-level playlist and the item of a playlist nested in a group get the same value. -/
theorem playlist_item_type_enumeration (item : JSValue) (h : item.isNullish = false) :
    (∃ top nested,
      playlistItem item = .ok top ∧ nestedPlaylistItem item = .ok nested ∧
      top.get "playlistItemType" = .str (itemTypeName (item.get "type")) ∧
      nested.get "playlistItemType" = .str (itemTypeName (item.get "type"))) ∧
    itemTypeName (.str "header") = "playlistItemTypeHeader" ∧
    itemTypeName (.str "placeholder") = "playlistItemTypePlaceholder" ∧
    itemTypeName (.str "video") = "playlistItemTypeVideo" ∧
    itemTypeName (.str "audio") = "playlistItemTypeAudio" ∧
    (∀ t : JSValue, itemTypeName t = "playlistItemTypePresentation" ∨ t = .str "header" ∨
      t = .str "placeholder" ∨ t = .str "video" ∨ t = .str "audio") := by
  refine ⟨?_, rfl, rfl, rfl, rfl, ?_⟩
  · unfold playlistItem nestedPlaylistItem
    simp only [prop_of_not_nullish item _ h, bind, Except.bind, pure, Except.pure, mappedType_eq]
    exact ⟨_, _, rfl, rfl, rfl, rfl⟩
  · intro t
    cases t with
    | str s =>
      by_cases h1 : s = "header"
      · exact Or.inr (Or.inl (by rw [h1]))
      · by_cases h2 : s = "placeholder"
        · exact Or.inr (Or.inr (Or.inl (by rw [h2])))
        · by_cases h3 : s = "video"
          · exact Or.inr (Or.inr (Or.inr (Or.inl (by rw [h3]))))
          · by_cases h4 : s = "audio"
            · exact Or.inr (Or.inr (Or.inr (Or.inr (by rw [h4]))))
            · left
              simp [itemTypeName, h1, h2, h3, h4]
    | undefined => exact Or.inl rfl
    | null => exact Or.inl rfl
    | bool b => exact Or.inl rfl
    | num n => exact Or.inl rfl
    | arr xs => exact Or.inl rfl
    | obj f => exact Or.inl rfl

/-- C29 (witness): an item of type `video`. -/
theorem playlist_item_type_enumeration_witness :
    ∃ top nested,
      playlistItem (.obj [("type", .str "video")]) = .ok top ∧
      nestedPlaylistItem (.obj [("type", .str "video")]) = .ok nested ∧
      top.get "playlistItemType"
        = .str (itemTypeName ((JSValue.obj [("type", .str "video")]).get "type")) ∧
      nested.get "playlistItemType"
        = .str (itemTypeName ((JSValue.obj [("type", .str "video")]).get "type")) :=
  (playlist_item_type_enumeration (.obj [("type", .str "video")]) rfl).1

end ProWebRemote

/-! ## Playlist transcoder: groups -/

namespace ProWebRemote

/-- C21: the group "Sunday" has two child playlists with an id; the fetch for
"Morning" succeeds, the one for "Evening" fails with status 500.  The emitted group
node holds one child node: "Evening" is removed, not kept with an empty item list (the
`catch` of a nested playlist returns `null`, which the group filters out).  The same
failure on a top-level playlist keeps its node, with an empty item list (the `catch`
of a top-level playlist returns the node): the two branches disagree. -/
theorem failed_child_removed :
    (handlePlaylistRequest idleBridge (.arr [sampleFolder]) folderOutcomes).map
        (fun st => st.delivered)
      = .ok [ playlistAllMessage
          [ playlistNode (.str "g1") (.str "Sunday") "playlistTypeGroup"
              [ playlistNode (.str "c1") (.str "Morning") "playlistTypePlaylist" [] ] ] ] ∧
    folderOutcomes 0 (some 1) = .httpError 500 ∧
    (handlePlaylistRequest idleBridge (.arr [playlistEntry "c2" "Evening" "playlist"])
        (fun _ _ => .httpError 500)).map (fun st => st.delivered)
      = .ok [ playlistAllMessage
          [ playlistNode (.str "c2") (.str "Evening") "playlistTypePlaylist" [] ] ] :=
  ⟨rfl, rfl, rfl⟩

/-- C28 (counterexample): the group "Sunday" holds the group "Services", which holds
the playlist "Morning"; every fetch succeeds.  The emitted node for "Sunday" has an
empty `playlist`: there is no node for "Services" nor for "Morning". -/
theorem nested_group_dropped :
    (handlePlaylistRequest idleBridge (.arr [nestedFolder])
        (fun _ _ => .ok (some (.obj [("items", .arr [])])))).map (fun st => st.delivered)
      = .ok [ playlistAllMessage
          [ playlistNode (.str "g1") (.str "Sunday") "playlistTypeGroup" [] ] ] := by
  rfl

end ProWebRemote

namespace ProWebRemote

theorem get_truthy_is_obj (w : JSValue) (key : String) (hk : key ≠ "length")
    (h : (w.get key).truthy = true) : ∃ fields, w = .obj fields := by
  cases w with
  | obj fields => exact ⟨fields, rfl⟩
  | str s => simp [JSValue.get, JSValue.prop, hk, JSValue.truthy] at h
  | arr items => simp [JSValue.get, JSValue.prop, hk, JSValue.truthy] at h
  | undefined => simp [JSValue.get, JSValue.prop, JSValue.truthy] at h
  | null => simp [JSValue.get, JSValue.prop, JSValue.truthy] at h
  | bool b => simp [JSValue.get, JSValue.prop, JSValue.truthy] at h
  | num n => simp [JSValue.get, JSValue.prop, JSValue.truthy] at h

theorem nestedPlaylistItem_ok (item : JSValue) (h : item.isNullish = false) :
    ∃ x, nestedPlaylistItem item = .ok x := by
  unfold nestedPlaylistItem
  simp only [prop_of_not_nullish item _ h, bind, Except.bind, pure, Except.pure]
  exact ⟨_, rfl⟩

theorem playlistItem_ok (item : JSValue) (h : item.isNullish = false) :
    ∃ x, playlistItem item = .ok x := by
  unfold playlistItem
  simp only [prop_of_not_nullish item _ h, bind, Except.bind, pure, Except.pure]
  exact ⟨_, rfl⟩

theorem transcodeItems_ok (f : JSValue → Except JSError JSValue) (xs : List JSValue)
    (h : ∀ x ∈ xs, ∃ y, f x = .ok y) :
    ∃ ys, transcodeItems f xs = .ok ys ∧ ys.length = xs.length := by
  induction xs with
  | nil => exact ⟨[], rfl, rfl⟩
  | cons x rest ih =>
    obtain ⟨y, hy⟩ := h x (List.mem_cons_self _ _)
    obtain ⟨ys, hys, hl⟩ := ih (fun z hz => h z (List.mem_cons_of_mem _ hz))
    refine ⟨y :: ys, ?_, by simp [hl]⟩
    simp only [transcodeItems, hy, hys, bind, Except.bind, pure, Except.pure]

theorem playlistContents_ok (f : JSValue → Except JSError JSValue)
    (hf : ∀ item : JSValue, item.isNullish = false → ∃ x, f item = .ok x)
    (body : JSValue) (h : wellFormedBody body = true) :
    ∃ items, playlistContents f body = .ok items ∧ items.length = (bodyItems body).length := by
  unfold wellFormedBody at h
  simp only [Bool.and_eq_true, Bool.not_eq_true'] at h
  obtain ⟨hb, hitems⟩ := h
  unfold playlistContents bodyItems
  simp only [prop_of_not_nullish body _ hb, bind, Except.bind]
  cases hi : body.get "items" with
  | arr xs =>
    rw [hi] at hitems
    simp only [List.all_eq_true, Bool.not_eq_true'] at hitems
    simp only [JSValue.orElse, JSValue.truthy, if_true]
    exact transcodeItems_ok f xs (fun x hx => hf x (hitems x hx))
  | undefined => exact ⟨[], rfl, rfl⟩
  | null => exact ⟨[], rfl, rfl⟩
  | bool b =>
    rw [hi] at hitems
    have hb2 : b = false := by simpa [JSValue.truthy] using hitems
    subst hb2
    exact ⟨[], rfl, rfl⟩
  | num n =>
    rw [hi] at hitems
    have hz : n = 0 := by simpa [JSValue.truthy] using hitems
    subst hz
    exact ⟨[], rfl, rfl⟩
  | str s =>
    rw [hi] at hitems
    have hs : s = "" := by simpa [JSValue.truthy] using hitems
    subst hs
    exact ⟨[], rfl, rfl⟩
  | obj fl =>
    rw [hi] at hitems
    simp [JSValue.truthy] at hitems

theorem nestedPlaylist_cases (childId childName : JSValue) (outcome : FetchOutcome) :
    nestedPlaylist childId childName outcome = .null ∨
    ∃ items, nestedPlaylist childId childName outcome
      = playlistNode childId childName "playlistTypePlaylist" items := by
  unfold nestedPlaylist
  split
  · split
    · exact Or.inr ⟨_, rfl⟩
    · exact Or.inl rfl
  · exact Or.inl rfl

theorem nestedPlaylist_failed (childId childName : JSValue) (outcome : FetchOutcome)
    (h : outcome.succeeded = false) : nestedPlaylist childId childName outcome = .null := by
  unfold nestedPlaylist
  split
  · exact (succeeded_some _ h).elim
  · rfl

theorem nestedPlaylist_fetched (childId childName : JSValue) (outcome : FetchOutcome)
    (h : outcome.succeeded = true)
    (hbody : ∀ body, outcome = .ok (some body) → wellFormedBody body = true) :
    ∃ items, nestedPlaylist childId childName outcome
      = playlistNode childId childName "playlistTypePlaylist" items := by
  cases outcome with
  | httpError s => cases h
  | networkError => cases h
  | ok b =>
    cases b with
    | none => cases h
    | some body =>
      obtain ⟨items, hi, _⟩ :=
        playlistContents_ok nestedPlaylistItem nestedPlaylistItem_ok body (hbody body rfl)
      exact ⟨items, by simp only [nestedPlaylist, hi]⟩

theorem playlistNode_get (location name : JSValue) (type : String) (playlist : List JSValue) :
    (playlistNode location name type playlist).get "playlistLocation" = location ∧
    (playlistNode location name type playlist).get "playlistType" = .str type ∧
    (playlistNode location name type playlist).get "playlist" = .arr playlist ∧
    (playlistNode location name type playlist).strictEq .null = false :=
  ⟨rfl, rfl, rfl, rfl⟩

/-- The children of a group that are no playlist add no promise; each other child adds
one, which resolves to `null` or to a playlist node. -/
theorem childPromises_nodes (outcome : Nat → FetchOutcome) (children : List JSValue) (j : Nat)
    (h : ∀ c ∈ children, c.isNullish = false) :
    ∃ promises, childPromises outcome children j = .ok promises ∧
      promises.length ≤
        (children.filter (fun c => (playlistKind c).strictEq (.str "playlist"))).length ∧
      ∀ node ∈ promises, node = .null ∨ node.get "playlistType" = .str "playlistTypePlaylist" := by
  induction children generalizing j with
  | nil => exact ⟨[], rfl, by simp, by simp⟩
  | cons c rest ih =>
    obtain ⟨others, ho, hlen, hnodes⟩ := ih (j + 1) (fun x hx => h x (List.mem_cons_of_mem _ hx))
    unfold childPromises
    simp only [prop_of_not_nullish c _ (h c (List.mem_cons_self _ _)), ho, bind, Except.bind]
    by_cases hk : (playlistKind c).strictEq (.str "playlist") = true
    · by_cases hu : (if (c.get "id").truthy = true then (c.get "id").get "uuid"
          else JSValue.str "").truthy = true
      · simp only [hu, hk, Bool.and_self, if_true, pure, Except.pure]
        refine ⟨_, rfl, ?_, ?_⟩
        · simp only [List.length_cons, List.filter_cons, hk, if_true]
          omega
        · intro node hn
          rcases List.mem_cons.1 hn with hn | hn
          · rcases nestedPlaylist_cases _ _ (outcome j) with hc | ⟨items, hc⟩
            · exact Or.inl (hn.trans hc)
            · rw [hn, hc]
              exact Or.inr rfl
          · exact hnodes node hn
      · simp only [hu, Bool.false_and, Bool.false_eq_true, if_false, pure, Except.pure]
        refine ⟨_, rfl, ?_, hnodes⟩
        simp only [List.filter_cons, hk, if_true, List.length_cons]
        omega
    · simp only [hk, Bool.and_false, Bool.false_eq_true, if_false, pure, Except.pure]
      refine ⟨_, rfl, ?_, hnodes⟩
      simp only [List.filter_cons, hk, Bool.false_eq_true, if_false]
      exact hlen

end ProWebRemote

namespace ProWebRemote

theorem strictEq_null_null : JSValue.null.strictEq .null = true := rfl

theorem isChildPlaylist_id (c : JSValue) (h : isChildPlaylist c = true) :
    c.isNullish = false ∧ (c.get "id").truthy = true ∧
      ((c.get "id").get "uuid").truthy = true ∧
      (playlistKind c).strictEq (.str "playlist") = true := by
  unfold isChildPlaylist at h
  simp only [Bool.and_eq_true] at h
  obtain ⟨hu, hk⟩ := h
  obtain ⟨f, hf⟩ := get_truthy_is_obj (c.get "id") "uuid" (by decide) hu
  have hid : (c.get "id").truthy = true := by
    rw [hf]
    rfl
  exact ⟨get_truthy_not_nullish c "id" hid, hid, hu, hk⟩

/-- The promises of a group all of whose children are playlists with an id: those of the
children whose fetch yields a body resolve to a node, the others to `null`. -/
theorem childPromises_fetched (outcome : Nat → FetchOutcome) (children : List JSValue) (j : Nat)
    (hchild : ∀ c ∈ children, isChildPlaylist c = true)
    (hbody : ∀ i body, outcome i = .ok (some body) → wellFormedBody body = true) :
    ∃ promises, childPromises outcome children j = .ok promises ∧
      ((promises.filter (fun c => !(c.strictEq .null))).map
          (fun node => node.get "playlistLocation")
        = ((children.enumFrom j).filter (fun p => (outcome p.1).succeeded)).map
            (fun p => (p.2.get "id").get "uuid")) ∧
      ((promises.filter (fun c => !(c.strictEq .null))).length
          + ((children.enumFrom j).filter (fun p => !(outcome p.1).succeeded)).length
        = children.length) := by
  induction children generalizing j with
  | nil => exact ⟨[], rfl, rfl, rfl⟩
  | cons c rest ih =>
    obtain ⟨others, ho, hloc, hcount⟩ :=
      ih (j + 1) (fun x hx => hchild x (List.mem_cons_of_mem _ hx))
    obtain ⟨hc, hid, hu, hk⟩ := isChildPlaylist_id c (hchild c (List.mem_cons_self _ _))
    unfold childPromises
    simp only [prop_of_not_nullish c _ hc, ho, bind, Except.bind, hid, if_true, hu, hk,
      Bool.and_self, pure, Except.pure]
    refine ⟨_, rfl, ?_, ?_⟩
    · by_cases hs : (outcome j).succeeded = true
      · obtain ⟨items, hn⟩ := nestedPlaylist_fetched ((c.get "id").get "uuid")
          ((c.get "id").get "name") (outcome j) hs (hbody j)
        rw [hn]
        simp only [List.filter_cons, (playlistNode_get _ _ _ _).2.2.2, Bool.not_false, if_true,
          List.map_cons, List.enumFrom_cons, hs, (playlistNode_get _ _ _ _).1, hloc]
      · simp only [Bool.not_eq_true] at hs
        rw [nestedPlaylist_failed _ _ _ hs]
        simp only [List.filter_cons, strictEq_null_null, Bool.not_true, Bool.false_eq_true,
          if_false, List.enumFrom_cons, hs, hloc]
    · by_cases hs : (outcome j).succeeded = true
      · obtain ⟨items, hn⟩ := nestedPlaylist_fetched ((c.get "id").get "uuid")
          ((c.get "id").get "name") (outcome j) hs (hbody j)
        rw [hn]
        simp only [List.filter_cons, (playlistNode_get _ _ _ _).2.2.2, Bool.not_false, if_true,
          List.enumFrom_cons, hs, Bool.not_true, Bool.false_eq_true, if_false, List.length_cons]
        omega
      · simp only [Bool.not_eq_true] at hs
        rw [nestedPlaylist_failed _ _ _ hs]
        simp only [List.filter_cons, strictEq_null_null, Bool.not_true, Bool.false_eq_true,
          if_false, List.enumFrom_cons, hs, Bool.not_false, if_true, List.length_cons]
        omega

theorem playlistPromise_group (outcome : Option Nat → FetchOutcome) (group : JSValue)
    (children promises : List JSValue)
    (hkind : (playlistKind group).strictEq (.str "group") = true)
    (hchildren : group.get "children" = .arr children)
    (hp : childPromises (fun j => outcome (some j)) children 0 = .ok promises) :
    ∃ location name,
      playlistPromise outcome group
        = .ok (some (playlistNode location name "playlistTypeGroup"
            (promises.filter (fun c => !(c.strictEq .null))))) := by
  have hg : group.isNullish = false := by
    cases group <;> first | rfl | (simp [JSValue.get, JSValue.prop] at hchildren)
  unfold playlistPromise
  simp only [prop_of_not_nullish group _ hg, bind, Except.bind, hkind, if_true, hchildren, hp,
    pure, Except.pure, folderNode]
  exact ⟨_, _, rfl⟩

theorem topPlaylist_not_null (a b c : JSValue) (outcome : FetchOutcome) :
    (topPlaylist a b c outcome).strictEq .null = false := by
  unfold topPlaylist
  simp only
  split
  · split <;> rfl
  · rfl

theorem ite_pure_total (c : Bool) (n : JSValue) (hn : n.strictEq .null = false) :
    ∃ r, (if c = true then (pure (some n) : Except JSError (Option JSValue)) else pure none)
        = .ok r ∧ ∀ node, r = some node → node.strictEq .null = false := by
  cases c with
  | true =>
    refine ⟨some n, rfl, ?_⟩
    intro node h
    cases h
    exact hn
  | false => exact ⟨none, rfl, fun node h => by cases h⟩

theorem playlistPromise_total (outcome : Option Nat → FetchOutcome) (p : JSValue)
    (h : wellFormedEntry p = true) :
    ∃ r, playlistPromise outcome p = .ok r ∧ ∀ node, r = some node → node.strictEq .null = false := by
  unfold wellFormedEntry at h
  simp only [Bool.and_eq_true, Bool.not_eq_true'] at h
  obtain ⟨hp, hch⟩ := h
  unfold playlistPromise
  simp only [prop_of_not_nullish p _ hp, bind, Except.bind]
  by_cases hg : (playlistKind p).strictEq (.str "group") = true
  · simp only [hg, if_true]
    have hfolder : ∀ (a b : JSValue) (l : List JSValue) (node : JSValue),
        some (folderNode a b l) = some node → node.strictEq .null = false := by
      intro a b l node hn
      cases hn
      rfl
    cases hc : p.get "children" with
    | arr children =>
      rw [hc] at hch
      simp only [List.all_eq_true, Bool.not_eq_true'] at hch
      obtain ⟨promises, hpr, _⟩ :=
        childPromises_nodes (fun j => outcome (some j)) children 0 hch
      simp only [hpr, pure, Except.pure]
      exact ⟨_, rfl, hfolder _ _ _⟩
    | undefined => exact ⟨_, rfl, hfolder _ _ _⟩
    | null => exact ⟨_, rfl, hfolder _ _ _⟩
    | bool b => exact ⟨_, rfl, hfolder _ _ _⟩
    | num n => exact ⟨_, rfl, hfolder _ _ _⟩
    | str s => exact ⟨_, rfl, hfolder _ _ _⟩
    | obj f => exact ⟨_, rfl, hfolder _ _ _⟩
  · simp only [hg, Bool.false_eq_true, if_false]
    exact ite_pure_total _ _ (topPlaylist_not_null _ _ _ _)

theorem playlistPromises_total (outcome : Nat → Option Nat → FetchOutcome)
    (items : List JSValue) (i : Nat) (h : ∀ p ∈ items, wellFormedEntry p = true) :
    ∃ nodes, playlistPromises outcome items i = .ok nodes ∧
      (∀ n ∈ nodes, n.strictEq .null = false) ∧
      (∀ k p node, items.get? k = some p →
        playlistPromise (outcome (i + k)) p = .ok (some node) → node ∈ nodes) := by
  induction items generalizing i with
  | nil => exact ⟨[], rfl, by simp, by simp⟩
  | cons x rest ih =>
    obtain ⟨r, hr, hnn⟩ := playlistPromise_total (outcome i) x (h x (List.mem_cons_self _ _))
    obtain ⟨others, ho, hon, hom⟩ := ih (i + 1) (fun p hp => h p (List.mem_cons_of_mem _ hp))
    unfold playlistPromises
    simp only [hr, ho, bind, Except.bind]
    have hmem : ∀ (k : Nat) (p node : JSValue), rest.get? k = some p →
        playlistPromise (outcome (i + (k + 1))) p = .ok (some node) → node ∈ others := by
      intro k p node hk hp
      have : i + (k + 1) = i + 1 + k := by omega
      rw [this] at hp
      exact hom k p node hk hp
    cases r with
    | none =>
      refine ⟨others, rfl, hon, ?_⟩
      intro k p node hk hp
      cases k with
      | zero =>
        simp only [List.get?_cons_zero, Option.some.injEq] at hk
        subst hk
        simp only [Nat.add_zero] at hp
        rw [hr] at hp
        cases hp
      | succ k =>
        simp only [List.get?_cons_succ] at hk
        exact hmem k p node hk hp
    | some node0 =>
      refine ⟨node0 :: others, rfl, ?_, ?_⟩
      · intro n hn
        rcases List.mem_cons.1 hn with hn | hn
        · rw [hn]
          exact hnn node0 rfl
        · exact hon n hn
      · intro k p node hk hp
        cases k with
        | zero =>
          simp only [List.get?_cons_zero, Option.some.injEq] at hk
          subst hk
          simp only [Nat.add_zero] at hp
          rw [hr] at hp
          simp only [Except.ok.injEq, Option.some.injEq] at hp
          rw [← hp]
          exact List.mem_cons_self _ _
        | succ k =>
          simp only [List.get?_cons_succ] at hk
          exact List.mem_cons_of_mem _ (hmem k p node hk hp)

/-- On a list whose entries and children are neither `null` nor `undefined`, the handler
sends one `playlistRequestAll` message whatever the outcomes of the fetches, and every
node an entry resolves to is in it. -/
theorem handlePlaylistRequest_total (st : BridgeState)
    (outcome : Nat → Option Nat → FetchOutcome) (items : List JSValue)
    (h : ∀ p ∈ items, wellFormedEntry p = true) :
    ∃ nodes, handlePlaylistRequest st (.arr items) outcome
        = .ok (simulateMessage st (playlistAllMessage nodes)) ∧
      (∀ k p node, items.get? k = some p →
        playlistPromise (outcome k) p = .ok (some node) → node ∈ nodes) := by
  obtain ⟨nodes, hn, hnn, hmem⟩ := playlistPromises_total outcome items 0 h
  refine ⟨nodes, ?_, ?_⟩
  · unfold handlePlaylistRequest
    simp only [hn, bind, Except.bind, pure, Except.pure]
    have hf : nodes.filter (fun p => !(p.strictEq .null)) = nodes := by
      apply List.filter_eq_self.2
      intro n hmn
      simp [hnn n hmn]
    rw [hf]
  · intro k p node hk hp
    refine hmem k p node hk ?_
    simpa using hp

end ProWebRemote

namespace ProWebRemote

/-- What the group branch does in general.  In a playlist list whose entries and children
are neither `null` nor `undefined`, take a group all of whose children are playlists with
an id.  Whatever the outcomes of the fetches, the handler sends the `playlistRequestAll`
message, and the node of the group is in it; the child nodes under that node are those
of the children whose fetch yielded a body, in backend order, so that a group of N
children of which M fetches failed has N - M child nodes. -/
theorem group_keeps_fetched_children (st : BridgeState)
    (outcome : Nat → Option Nat → FetchOutcome) (items : List JSValue) (k : Nat)
    (group : JSValue) (children : List JSValue)
    (hwf : ∀ p ∈ items, wellFormedEntry p = true)
    (hk : items.get? k = some group)
    (hkind : (playlistKind group).strictEq (.str "group") = true)
    (hchildren : group.get "children" = .arr children)
    (hchild : ∀ c ∈ children, isChildPlaylist c = true)
    (hbody : ∀ j body, outcome k (some j) = .ok (some body) → wellFormedBody body = true) :
    ∃ nodes location name kept,
      handlePlaylistRequest st (.arr items) outcome
        = .ok (simulateMessage st (playlistAllMessage nodes)) ∧
      playlistNode location name "playlistTypeGroup" kept ∈ nodes ∧
      kept.map (fun node => node.get "playlistLocation")
        = (children.enum.filter (fun p => (outcome k (some p.1)).succeeded)).map
            (fun p => (p.2.get "id").get "uuid") ∧
      kept.length + (children.enum.filter (fun p => !(outcome k (some p.1)).succeeded)).length
        = children.length := by
  obtain ⟨promises, hpr, hloc, hcount⟩ :=
    childPromises_fetched (fun j => outcome k (some j)) children 0 hchild hbody
  obtain ⟨location, name, hpp⟩ :=
    playlistPromise_group (outcome k) group children promises hkind hchildren hpr
  obtain ⟨nodes, hsend, hmem⟩ := handlePlaylistRequest_total st outcome items hwf
  exact ⟨nodes, location, name, _, hsend, hmem k group _ hk hpp, hloc, hcount⟩

/-- The group "Sunday" with two child playlists, of which the fetch for the second
fails. -/
theorem group_keeps_fetched_children_witness :
    ∃ nodes location name kept,
      handlePlaylistRequest idleBridge (.arr [sampleFolder]) folderOutcomes
        = .ok (simulateMessage idleBridge (playlistAllMessage nodes)) ∧
      playlistNode location name "playlistTypeGroup" kept ∈ nodes ∧
      kept.map (fun node => node.get "playlistLocation")
        = (([ playlistEntry "c1" "Morning" "playlist",
              playlistEntry "c2" "Evening" "playlist" ]).enum.filter
            (fun p => (folderOutcomes 0 (some p.1)).succeeded)).map
            (fun p => (p.2.get "id").get "uuid") ∧
      kept.length
          + (([ playlistEntry "c1" "Morning" "playlist",
                playlistEntry "c2" "Evening" "playlist" ]).enum.filter
              (fun p => !(folderOutcomes 0 (some p.1)).succeeded)).length
        = ([ playlistEntry "c1" "Morning" "playlist",
             playlistEntry "c2" "Evening" "playlist" ]).length :=
  group_keeps_fetched_children idleBridge folderOutcomes [sampleFolder] 0 sampleFolder
    [ playlistEntry "c1" "Morning" "playlist", playlistEntry "c2" "Evening" "playlist" ]
    (by
      intro p hp
      rw [List.mem_singleton] at hp
      subst hp
      rfl)
    rfl rfl rfl
    (by
      intro c hc
      simp only [List.mem_cons, List.mem_singleton, List.not_mem_nil, or_false] at hc
      rcases hc with h | h <;> subst h <;> rfl)
    (by
      intro j body hb
      cases j with
      | zero =>
        simp only [folderOutcomes, FetchOutcome.ok.injEq, Option.some.injEq] at hb
        subst hb
        rfl
      | succ n => simp [folderOutcomes] at hb)

/-- C28 (amended): resolution is one level deep.  In a playlist list whose entries and
children are neither `null` nor `undefined`, the node emitted for a group holds under
`playlist` only nodes of type `playlistTypePlaylist`, at most one for each child whose
type is `playlist`; a child of another type, a group in particular, has no node,
whatever it contains. -/
theorem group_node_holds_playlists_only (st : BridgeState)
    (outcome : Nat → Option Nat → FetchOutcome) (items : List JSValue) (k : Nat)
    (group : JSValue) (children : List JSValue)
    (hwf : ∀ p ∈ items, wellFormedEntry p = true)
    (hk : items.get? k = some group)
    (hkind : (playlistKind group).strictEq (.str "group") = true)
    (hchildren : group.get "children" = .arr children) :
    ∃ nodes location name kept,
      handlePlaylistRequest st (.arr items) outcome
        = .ok (simulateMessage st (playlistAllMessage nodes)) ∧
      playlistNode location name "playlistTypeGroup" kept ∈ nodes ∧
      (∀ node ∈ kept, node.get "playlistType" = .str "playlistTypePlaylist") ∧
      kept.length
        ≤ (children.filter (fun c => (playlistKind c).strictEq (.str "playlist"))).length := by
  have hnn : ∀ c ∈ children, c.isNullish = false := by
    have hg := hwf group (List.get?_mem hk)
    unfold wellFormedEntry at hg
    rw [hchildren] at hg
    simp only [Bool.and_eq_true, Bool.not_eq_true', List.all_eq_true] at hg
    exact hg.2
  obtain ⟨promises, hpr, hlen, htype⟩ :=
    childPromises_nodes (fun j => outcome k (some j)) children 0 hnn
  obtain ⟨location, name, hpp⟩ :=
    playlistPromise_group (outcome k) group children promises hkind hchildren hpr
  obtain ⟨nodes, hsend, hmem⟩ := handlePlaylistRequest_total st outcome items hwf
  refine ⟨nodes, location, name, _, hsend, hmem k group _ hk hpp, ?_, ?_⟩
  · intro node hn
    rw [List.mem_filter] at hn
    rcases htype node hn.1 with h | h
    · rw [h] at hn
      simp [strictEq_null_null] at hn
    · exact h
  · exact le_trans (List.length_filter_le _ _) hlen

/-- C28 (witness): the group "Sunday" whose only child is the group "Services": no child
is of type `playlist`, so the node of "Sunday" has no child node. -/
theorem group_node_holds_playlists_only_witness :
    ∃ nodes location name kept,
      handlePlaylistRequest idleBridge (.arr [nestedFolder]) folderOutcomes
        = .ok (simulateMessage idleBridge (playlistAllMessage nodes)) ∧
      playlistNode location name "playlistTypeGroup" kept ∈ nodes ∧
      (∀ node ∈ kept, node.get "playlistType" = .str "playlistTypePlaylist") ∧
      kept.length
        ≤ (([ groupEntry "g2" "Services" [ playlistEntry "c1" "Morning" "playlist" ] ]).filter
            (fun c => (playlistKind c).strictEq (.str "playlist"))).length :=
  group_node_holds_playlists_only idleBridge folderOutcomes [nestedFolder] 0 nestedFolder
    [ groupEntry "g2" "Services" [ playlistEntry "c1" "Morning" "playlist" ] ]
    (by
      intro p hp
      rw [List.mem_singleton] at hp
      subst hp
      rfl)
    rfl rfl rfl

end ProWebRemote

/-! ## Audio-list transcoder -/

namespace ProWebRemote

theorem get_of_falsy (v : JSValue) (key : String) (hk : key ≠ "length")
    (h : v.truthy = false) : v.get key = .undefined := by
  cases v with
  | undefined => rfl
  | null => rfl
  | bool b => rfl
  | num n => rfl
  | str s => simp [JSValue.get, JSValue.prop, hk]
  | arr xs => simp [JSValue.truthy] at h
  | obj f => simp [JSValue.truthy] at h

theorem audioItem_ok (uuid item : JSValue) (h : item.isNullish = false) :
    ∃ x, audioItem uuid item = .ok x := by
  unfold audioItem
  simp only [prop_of_not_nullish item _ h, bind, Except.bind, pure, Except.pure]
  exact ⟨_, rfl⟩

theorem audioItems_ok (uuid body : JSValue) (h : wellFormedBody body = true) :
    ∃ items, audioItems uuid body = .ok items := by
  unfold wellFormedBody at h
  simp only [Bool.and_eq_true, Bool.not_eq_true'] at h
  obtain ⟨hb, hitems⟩ := h
  unfold audioItems
  simp only [prop_of_not_nullish body _ hb, bind, Except.bind]
  cases hi : body.get "items" with
  | arr xs =>
    rw [hi] at hitems
    simp only [List.all_eq_true, Bool.not_eq_true'] at hitems
    obtain ⟨ys, hys, _⟩ :=
      transcodeItems_ok (audioItem uuid) xs (fun x hx => audioItem_ok uuid x (hitems x hx))
    exact ⟨ys, hys⟩
  | undefined => exact ⟨[], rfl⟩
  | null => exact ⟨[], rfl⟩
  | bool b => exact ⟨[], rfl⟩
  | num n => exact ⟨[], rfl⟩
  | str s => exact ⟨[], rfl⟩
  | obj f => exact ⟨[], rfl⟩

theorem audioEntry_key (f : AudioFetch) (details entry : JSValue)
    (h : audioEntry f details = .ok entry) :
    entryKey entry = (f.playlistUuid, f.playlistIndex) := by
  unfold audioEntry at h
  simp only [bind] at h
  obtain ⟨items, _, hi⟩ := bind_ok_elim _ _ _ h
  simp only [pure, Except.pure, Except.ok.injEq] at hi
  rw [← hi]
  rfl

theorem audioSettled_append (f : AudioFetch) (outcome : FetchOutcome) (acc : List JSValue) :
    audioSettled f outcome acc = acc ++ audioSettled f outcome [] := by
  unfold audioSettled
  split
  · split
    · simp
    · simp
  · simp

/-- What one settled details fetch adds to `audioPlaylists`: nothing when it failed,
one entry with the UUID and index of its playlist when it yielded a well-formed body. -/
theorem audioSettled_keys (f : AudioFetch) (outcome : FetchOutcome)
    (hbody : ∀ body, outcome = .ok (some body) → wellFormedBody body = true) :
    (audioSettled f outcome []).map entryKey
      = if outcome.succeeded then [(f.playlistUuid, f.playlistIndex)] else [] := by
  cases outcome with
  | httpError s => rfl
  | networkError => rfl
  | ok b =>
    cases b with
    | none => rfl
    | some body =>
      obtain ⟨items, hi⟩ := audioItems_ok f.playlistUuid body (hbody body rfl)
      have he : ∃ entry, audioEntry f body = .ok entry := by
        unfold audioEntry
        simp only [hi, bind, Except.bind, pure, Except.pure]
        exact ⟨_, rfl⟩
      obtain ⟨entry, he⟩ := he
      simp only [audioSettled, he, List.nil_append, List.map_cons, List.map_nil,
        audioEntry_key f body entry he, FetchOutcome.succeeded, if_true]

theorem gatherAudio_eq (fetches : List AudioFetch) (details : Nat → FetchOutcome)
    (completion : List Nat) :
    gatherAudio fetches details completion
      = completion.flatMap (fun i =>
          match fetches.get? i with
          | some f => audioSettled f (details i) []
          | none => []) := by
  unfold gatherAudio
  suffices h : ∀ acc : List JSValue,
      completion.foldl
          (fun acc i =>
            match fetches.get? i with
            | some f => audioSettled f (details i) acc
            | none => acc) acc
        = acc ++ completion.flatMap (fun i =>
            match fetches.get? i with
            | some f => audioSettled f (details i) []
            | none => []) by
    simpa using h []
  induction completion with
  | nil => simp
  | cons i rest ih =>
    intro acc
    simp only [List.foldl_cons, List.flatMap_cons]
    rw [ih]
    cases fetches.get? i with
    | none => simp
    | some f =>
      simp only
      rw [audioSettled_append, List.append_assoc]

theorem collectAudio_ok (items : List JSValue) (h : ∀ p ∈ items, p.isNullish = false) :
    collectAudio items
      = .ok ((playlistsWithUuid items).map (fun p =>
          ({ playlistUuid := (p.get "id").get "uuid",
             playlistName := (p.get "id").get "name",
             playlistIndex := (p.get "id").get "index" } : AudioFetch))) := by
  induction items with
  | nil => rfl
  | cons x rest ih =>
    have hrest := ih (fun p hp => h p (List.mem_cons_of_mem _ hp))
    unfold collectAudio
    simp only [prop_of_not_nullish x _ (h x (List.mem_cons_self _ _)), hrest, bind, Except.bind]
    by_cases hid : (x.get "id").truthy = true
    · simp only [hid, if_true]
      by_cases hu : ((x.get "id").get "uuid").truthy = true
      · simp [playlistsWithUuid, List.filter_cons, hu, pure, Except.pure]
      · simp [playlistsWithUuid, List.filter_cons, hu, pure, Except.pure]
    · simp only [Bool.not_eq_true] at hid
      have hu : (x.get "id").get "uuid" = .undefined :=
        get_of_falsy _ _ (by decide) hid
      have hut : ((x.get "id").get "uuid").truthy = false := by
        rw [hu]
        rfl
      have hnull : JSValue.null.truthy = false := rfl
      simp only [hid, Bool.false_eq_true, if_false, hnull, Bool.not_false, if_true, pure,
        Except.pure, playlistsWithUuid, List.filter_cons, hut]

end ProWebRemote

namespace ProWebRemote

theorem notAfter_of_index (a b : JSValue) (x y : Int) (ha : entryIndex a = some x)
    (hb : entryIndex b = some y) : notAfter a b = decide (x ≤ y) := by
  unfold entryIndex at ha hb
  unfold notAfter compareIndex
  rw [ha, hb]
  simp only
  exact decide_eq_decide.2 (by omega)

theorem orderedInsert_ordered (a : JSValue) (l : List JSValue)
    (ha : ∃ x, entryIndex a = some x) (hl : ∀ e ∈ l, ∃ x, entryIndex e = some x)
    (hs : l.Pairwise indexOrdered) :
    (l.orderedInsert (fun a b => notAfter a b = true) a).Pairwise indexOrdered := by
  induction l with
  | nil => simp
  | cons b t ih =>
    obtain ⟨x, hx⟩ := ha
    obtain ⟨y, hy⟩ := hl b (List.mem_cons_self _ _)
    have hs2 := List.pairwise_cons.1 hs
    have hr : (notAfter a b = true) ↔ x ≤ y := by
      rw [notAfter_of_index a b x y hx hy]
      simp
    by_cases hle : x ≤ y
    · have hab : notAfter a b = true := hr.2 hle
      simp only [List.orderedInsert, hab, if_true]
      refine List.pairwise_cons.2 ⟨?_, hs⟩
      intro e he
      rcases List.mem_cons.1 he with he | he
      · rw [he]
        exact ⟨x, y, hx, hy, hle⟩
      · obtain ⟨y2, z, hy2, hz, hyz⟩ := hs2.1 e he
        rw [hy] at hy2
        cases hy2
        exact ⟨x, z, hx, hz, le_trans hle hyz⟩
    · have hab : ¬ (notAfter a b = true) := fun h => hle (hr.1 h)
      simp only [List.orderedInsert, hab, if_false]
      refine List.pairwise_cons.2 ⟨?_, ?_⟩
      · intro e he
        rcases (List.mem_orderedInsert _).1 he with he | he
        · rw [he]
          exact ⟨y, x, hy, hx, by omega⟩
        · exact hs2.1 e he
      · exact ih (fun e he => hl e (List.mem_cons_of_mem _ he)) hs2.2

/-- On entries that all carry a numeric index, the sort puts them in non-decreasing
order of the index. -/
theorem sortByIndex_ordered (l : List JSValue) (hl : ∀ e ∈ l, ∃ x, entryIndex e = some x) :
    (sortByIndex l).Pairwise indexOrdered := by
  unfold sortByIndex
  induction l with
  | nil => simp
  | cons a t ih =>
    simp only [List.insertionSort]
    apply orderedInsert_ordered
    · exact hl a (List.mem_cons_self _ _)
    · intro e he
      exact hl e (List.mem_cons_of_mem _ ((List.mem_insertionSort _).1 he))
    · exact ih (fun e he => hl e (List.mem_cons_of_mem _ he))

theorem sortByIndex_perm (l : List JSValue) : (sortByIndex l).Perm l :=
  List.perm_insertionSort _ l

theorem audioSettled_mem (f : AudioFetch) (outcome : FetchOutcome) (e : JSValue)
    (h : e ∈ audioSettled f outcome []) : e.get "playlistIndex" = f.playlistIndex := by
  unfold audioSettled at h
  split at h
  · split at h
    next entry he =>
      simp only [List.nil_append, List.mem_singleton] at h
      rw [h]
      exact congrArg Prod.snd (audioEntry_key f _ entry he)
    next => cases h
  · cases h

theorem flatMap_keys (n : Nat) (K : Nat → List (JSValue × JSValue))
    (succeeded : Nat → Bool) (key : Nat → JSValue × JSValue)
    (hK : ∀ i, i < n → K i = if succeeded i then [key i] else [])
    (l : List Nat) (hl : ∀ i ∈ l, i < n) :
    l.flatMap K = (l.filter succeeded).map key := by
  induction l with
  | nil => rfl
  | cons i rest ih =>
    have hrest := ih (fun k hk => hl k (List.mem_cons_of_mem _ hk))
    simp only [List.flatMap_cons, hrest, hK i (hl i (List.mem_cons_self _ _)), List.filter_cons]
    cases succeeded i <;> simp

end ProWebRemote

namespace ProWebRemote

/-- C22: for a list of audio playlists none of which is `null`, whose playlists with a
UUID carry a numeric index, and whatever the order in which the details fetches
settle, `handleAudioRequest` sends one `audioRequest` message whose list is in
non-decreasing order of the index and is a rearrangement of the playlists that have a
UUID and whose details arrived, each with the UUID and index the backend gave. -/
theorem audio_request_sorted (st : BridgeState) (items : List JSValue)
    (details : Nat → FetchOutcome) (completion : List Nat)
    (hitems : ∀ p ∈ items, p.isNullish = false)
    (hindex : ∀ p ∈ playlistsWithUuid items, ∃ n : Int, (p.get "id").get "index" = .num n)
    (hbody : ∀ i body, details i = .ok (some body) → wellFormedBody body = true)
    (hperm : completion.Perm (List.range (playlistsWithUuid items).length)) :
    ∃ sorted : List JSValue,
      handleAudioRequest st (.arr items) details completion
        = .ok (simulateMessage st (audioRequestMessage sorted)) ∧
      sorted.Pairwise indexOrdered ∧
      (sorted.map entryKey).Perm
        (((List.range (playlistsWithUuid items).length).filter
            (fun i => (details i).succeeded)).map
          (fun i => backendKey ((playlistsWithUuid items).getD i .undefined))) := by
  have hget : ∀ i, i < (playlistsWithUuid items).length →
      ((playlistsWithUuid items).map (fun p =>
          ({ playlistUuid := (p.get "id").get "uuid",
             playlistName := (p.get "id").get "name",
             playlistIndex := (p.get "id").get "index" } : AudioFetch))).get? i
        = some
          { playlistUuid := (((playlistsWithUuid items).getD i .undefined).get "id").get "uuid",
            playlistName := (((playlistsWithUuid items).getD i .undefined).get "id").get "name",
            playlistIndex :=
              (((playlistsWithUuid items).getD i .undefined).get "id").get "index" } := by
    intro i hlt
    simp only [List.get?_eq_getElem?, List.getElem?_map, List.getElem?_eq_getElem hlt,
      Option.map_some', List.getD_eq_getElem?_getD, Option.getD_some]
  have hmemD : ∀ i, i < (playlistsWithUuid items).length →
      (playlistsWithUuid items).getD i .undefined ∈ playlistsWithUuid items := by
    intro i hlt
    simp only [List.getD_eq_getElem?_getD, List.getElem?_eq_getElem hlt, Option.getD_some]
    exact List.getElem_mem _
  refine ⟨sortByIndex (gatherAudio
    ((playlistsWithUuid items).map (fun p =>
      ({ playlistUuid := (p.get "id").get "uuid",
         playlistName := (p.get "id").get "name",
         playlistIndex := (p.get "id").get "index" } : AudioFetch)))
    details completion), ?_, ?_, ?_⟩
  · simp only [handleAudioRequest, collectAudio_ok items hitems, bind, Except.bind, pure,
      Except.pure]
  · apply sortByIndex_ordered
    intro e he
    rw [gatherAudio_eq, List.mem_flatMap] at he
    obtain ⟨i, hi, hei⟩ := he
    have hlt : i < (playlistsWithUuid items).length := List.mem_range.1 (hperm.mem_iff.1 hi)
    rw [hget i hlt] at hei
    simp only at hei
    have hidx := audioSettled_mem _ _ e hei
    simp only at hidx
    obtain ⟨n, hn⟩ := hindex _ (hmemD i hlt)
    refine ⟨n, ?_⟩
    unfold entryIndex
    rw [hidx, hn]
    rfl
  · refine ((sortByIndex_perm _).map entryKey).trans ?_
    rw [gatherAudio_eq, List.map_flatMap]
    refine (List.Perm.flatMap_right _ hperm).trans (List.Perm.of_eq ?_)
    apply flatMap_keys (playlistsWithUuid items).length
    · intro i hlt
      rw [hget i hlt]
      simp only
      rw [audioSettled_keys _ _ (hbody i)]
      rfl
    · intro i hi
      exact List.mem_range.1 hi

/-- C22 (witness): "Walk-in" (index 2) and "Hymns" (index 1) have a UUID, the third entry
has none; the details of "Hymns" settle first. -/
theorem audio_request_sorted_witness :
    ∃ sorted : List JSValue,
      handleAudioRequest idleBridge (.arr sampleAudioList)
          (fun _ => .ok (some (.obj [("items", .arr [])]))) [1, 0]
        = .ok (simulateMessage idleBridge (audioRequestMessage sorted)) ∧
      sorted.Pairwise indexOrdered ∧
      (sorted.map entryKey).Perm
        (((List.range (playlistsWithUuid sampleAudioList).length).filter
            (fun _ => (FetchOutcome.ok (some (.obj [("items", .arr [])]))).succeeded)).map
          (fun i => backendKey ((playlistsWithUuid sampleAudioList).getD i .undefined))) :=
  audio_request_sorted idleBridge sampleAudioList
    (fun _ => .ok (some (.obj [("items", .arr [])]))) [1, 0]
    (by
      intro p hp
      simp only [sampleAudioList, List.mem_cons, List.mem_singleton, List.not_mem_nil,
        or_false] at hp
      rcases hp with h | h | h <;> subst h <;> rfl)
    (by
      intro p hp
      have hl : playlistsWithUuid sampleAudioList
          = [audioPlaylist "a1" "Walk-in" 2, audioPlaylist "a2" "Hymns" 1] := rfl
      rw [hl] at hp
      simp only [List.mem_cons, List.mem_singleton, List.not_mem_nil, or_false] at hp
      rcases hp with h | h
      · subst h
        exact ⟨2, rfl⟩
      · subst h
        exact ⟨1, rfl⟩)
    (by
      intro i body hb
      simp only [FetchOutcome.ok.injEq, Option.some.injEq] at hb
      subst hb
      rfl)
    (List.Perm.swap 0 1 [])

end ProWebRemote

/-! ## Update router: layer flags, ignored topics, null payloads -/

namespace ProWebRemote

theorem update_guard (update data : JSValue) (s : String)
    (hurl : update.get "url" = .str s) (hs : s ≠ "") (hdata : update.get "data" = data)
    (hd : data.strictEq .undefined = false) :
    (!update.truthy || !(update.get "url").truthy ||
      (update.get "data").strictEq .undefined) = false := by
  obtain ⟨f, hf⟩ := get_eq_str_is_obj update "url" s hurl
  have hu : update.truthy = true := by
    rw [hf]
    rfl
  have hst : (JSValue.str s).truthy = true := by simp [JSValue.truthy, hs]
  rw [hurl, hdata, hu, hst, hd]
  rfl

/-- C31: a `status/layers` update with a payload that is not null sets the seven flags
from that payload alone: slide from `slide`, `presentation` or `presentation_media`;
audio from `audio`, `music` or `audio_effects`; messages, announcements and props from
the field of the same name; media from `media` or `video_input`; and the flag of
`clear all` is set exactly when one of the six is.  The flags reached do not depend
on the state before the update. -/
theorem layers_update_recomputes_flags (rgbHex : JSValue → String) (st other : BridgeState)
    (update data : JSValue)
    (hurl : update.get "url" = .str "status/layers") (hdata : update.get "data" = data)
    (hnn : data.isNullish = false) :
    ∃ st1 : BridgeState,
      handleStatusUpdate rgbHex st update = (st1, none) ∧
      st1.clearButtons.slide
        = ((data.get "slide").truthy || (data.get "presentation").truthy ||
            (data.get "presentation_media").truthy) ∧
      st1.clearButtons.audio
        = ((data.get "audio").truthy || (data.get "music").truthy ||
            (data.get "audio_effects").truthy) ∧
      st1.clearButtons.text = (data.get "messages").truthy ∧
      st1.clearButtons.announcements = (data.get "announcements").truthy ∧
      st1.clearButtons.props = (data.get "props").truthy ∧
      st1.clearButtons.media
        = ((data.get "media").truthy || (data.get "video_input").truthy) ∧
      st1.clearButtons.all
        = (st1.clearButtons.slide || st1.clearButtons.audio || st1.clearButtons.text ||
            st1.clearButtons.announcements || st1.clearButtons.props ||
            st1.clearButtons.media) ∧
      (handleStatusUpdate rgbHex other update).1.clearButtons = st1.clearButtons := by
  have hd : data.strictEq .undefined = false := by
    cases data <;> first | rfl | (simp [JSValue.isNullish] at hnn)
  have hg := update_guard update data "status/layers" hurl (by decide) hdata hd
  have hrun : ∀ s : BridgeState, handleStatusUpdate rgbHex s update
      = (match updateClearButtonStates s data with
          | .ok st1 => (st1, none)
          | .error err => (s, some err)) := by
    intro s
    unfold handleStatusUpdate
    rw [if_neg (by rw [hg]; decide)]
    simp only [hurl, hdata, strictEq_str]
    rfl
  rw [hrun st, hrun other]
  unfold updateClearButtonStates
  simp only [hnn, Bool.false_eq_true, if_false, pure, Except.pure]
  exact ⟨_, rfl, rfl, rfl, rfl, rfl, rfl, rfl, rfl, rfl⟩

/-- C31 (witness): a payload with `presentation` and `music` set. -/
theorem layers_update_recomputes_flags_witness :
    ∃ st1 : BridgeState,
      handleStatusUpdate (fun _ => "") idleBridge
          (statusUpdate "status/layers"
            (.obj [("presentation", .bool true), ("music", .bool true)])) = (st1, none) ∧
      st1.clearButtons.slide = true ∧ st1.clearButtons.audio = true ∧
      st1.clearButtons.text = false ∧ st1.clearButtons.all = true :=
  match layers_update_recomputes_flags (fun _ => "") idleBridge idleBridge
    (statusUpdate "status/layers" (.obj [("presentation", .bool true), ("music", .bool true)]))
    (.obj [("presentation", .bool true), ("music", .bool true)]) rfl rfl rfl with
  | ⟨st1, h, hs, ha, ht, _, _, _, hall, _⟩ =>
    ⟨st1, h, hs.trans rfl, ha.trans rfl, ht.trans rfl, by rw [hall, hs, ha]; rfl⟩

/-- C34: an update whose topic is `timer/system_time`, or any other string outside the
handled topics, leaves the bridge state exactly as it was (no message delivered, no
request issued, no cached value changed) and raises nothing. -/
theorem unhandled_topic_ignored (rgbHex : JSValue → String) (st : BridgeState)
    (update : JSValue) (s : String) (hurl : update.get "url" = .str s)
    (hs : s ∉ handledTopics) :
    handleStatusUpdate rgbHex st update = (st, none) ∧
      "timer/system_time" ∉ handledTopics := by
  refine ⟨?_, by decide⟩
  simp only [handledTopics, List.mem_cons, List.mem_singleton, List.not_mem_nil, or_false,
    not_or] at hs
  obtain ⟨h1, h2, h3, h4, h5, h6, h7⟩ := hs
  unfold handleStatusUpdate
  split
  · rfl
  · simp only [hurl, strictEq_str, h1, h2, h3, h4, h5, h6, h7, decide_False,
      Bool.false_eq_true, if_false]

/-- C34 (witness): a heartbeat. -/
theorem unhandled_topic_ignored_witness :
    handleStatusUpdate (fun _ => "") idleBridge
        (statusUpdate "timer/system_time" (.str "1700000000")) = (idleBridge, none) :=
  (unhandled_topic_ignored (fun _ => "") idleBridge
    (statusUpdate "timer/system_time" (.str "1700000000")) "timer/system_time" rfl
    (by decide)).1

end ProWebRemote

namespace ProWebRemote

theorem simulateMessage_presentationUUID (st : BridgeState) (m : JSValue) :
    (simulateMessage st m).currentPresentationUUID = st.currentPresentationUUID := by
  unfold simulateMessage
  split <;> rfl

theorem executeOpenAPIRequest_presentationUUID (st : BridgeState) (endpoint : MapResult)
    (cmd : Command) :
    (executeOpenAPIRequest st endpoint cmd).currentPresentationUUID
      = st.currentPresentationUUID := by
  unfold executeOpenAPIRequest
  cases endpoint with
  | undefined => rfl
  | null => rfl
  | inherited => rfl
  | descriptor e =>
    simp only
    split
    · simp only
      split <;> rfl
    · rfl

theorem handleAudioCurrent_presentationUUID (st : BridgeState) (data : JSValue) :
    (handleAudioCurrent st data).currentPresentationUUID = st.currentPresentationUUID := by
  unfold handleAudioCurrent
  split
  · simp only
    split
    · exact simulateMessage_presentationUUID _ _
    · rfl
  · split
    · exact simulateMessage_presentationUUID _ _
    · rfl

theorem handleAudioPlaying_presentationUUID (st : BridgeState) (data : JSValue) :
    (handleAudioPlaying st data).currentPresentationUUID = st.currentPresentationUUID := by
  unfold handleAudioPlaying
  simp only
  split
  · exact simulateMessage_presentationUUID _ _
  · rfl

theorem slideIndexUpdate_presentationUUID (st : BridgeState) (data : JSValue) (key : String) :
    (slideIndexUpdate st data key).1.currentPresentationUUID = st.currentPresentationUUID := by
  unfold slideIndexUpdate
  split
  · rfl
  · split
    · exact simulateMessage_presentationUUID _ _
    · rfl

theorem handleAnnouncementData_presentationUUID (rgbHex : JSValue → String) (st st1 : BridgeState)
    (announcement : JSValue) (cmd : Command)
    (h : handleAnnouncementData rgbHex st announcement cmd = .ok st1) :
    st1.currentPresentationUUID = st.currentPresentationUUID := by
  unfold handleAnnouncementData at h
  simp only [bind] at h
  obtain ⟨id, _, h⟩ := bind_ok_elim _ _ _ h
  have key : ∀ (x : Except JSError (List JSValue)) (f : List JSValue → JSValue),
      (x.bind fun y => pure (simulateMessage st (f y))) = .ok st1 →
        st1.currentPresentationUUID = st.currentPresentationUUID := by
    intro x f hx
    obtain ⟨g, _, hg⟩ := bind_ok_elim _ _ _ hx
    simp only [pure, Except.pure, Except.ok.injEq] at hg
    rw [← hg]
    exact simulateMessage_presentationUUID _ _
  split at h
  · split at h
    · exact key _ _ h
    · exact key _ _ h
  · exact key _ _ h

theorem updateClearButtonStates_presentationUUID (st st1 : BridgeState) (layerStatus : JSValue)
    (h : updateClearButtonStates st layerStatus = .ok st1) :
    st1.currentPresentationUUID = st.currentPresentationUUID := by
  unfold updateClearButtonStates at h
  split at h
  · cases h
  · cases h
    rfl

theorem handleStatusUpdate_presentationUUID (rgbHex : JSValue → String) (st : BridgeState)
    (update : JSValue) :
    (handleStatusUpdate rgbHex st update).1.currentPresentationUUID = st.currentPresentationUUID := by
  unfold handleStatusUpdate
  split
  · rfl
  · simp only
    split
    · exact slideIndexUpdate_presentationUUID _ _ _
    · split
      · exact slideIndexUpdate_presentationUUID _ _ _
      · split
        · split
          · rfl
          · split
            · exact executeOpenAPIRequest_presentationUUID _ _ _
            · rfl
        · split
          · split
            · rfl
            · split
              · exact executeOpenAPIRequest_presentationUUID _ _ _
              · rfl
          · split
            · split
              · rfl
              · split
                · split
                  next st2 h2 => exact (handleAnnouncementData_presentationUUID _ _ _ _ _ h2).trans rfl
                  next => rfl
                · rfl
            · split
              · split
                next st1 h1 => exact updateClearButtonStates_presentationUUID _ _ _ h1
                next => rfl
              · split
                · simp only
                  rw [handleAudioPlaying_presentationUUID, handleAudioCurrent_presentationUUID]
                · rfl

/-- C33 (what the router does to the two variables): no update changes
`currentPresentationUUID`; in particular, after the `presentation/active` update
carrying "4f2a" on an idle bridge it is still `null`, whereas after the
`announcement/active` update carrying "a1" `currentAnnouncementUUID` is "a1". -/
theorem current_presentation_uuid_never_assigned (rgbHex : JSValue → String)
    (st : BridgeState) (update : JSValue) :
    (handleStatusUpdate rgbHex st update).1.currentPresentationUUID
      = st.currentPresentationUUID ∧
    (handleStatusUpdate rgbHex idleBridge
        (statusUpdate "presentation/active" activePresentation)).1.currentPresentationUUID
      = .null ∧
    (handleStatusUpdate rgbHex idleBridge
        (statusUpdate "presentation/active" activePresentation)).1.requests.map
          (fun r => r.url)
      = ["http://pro:1025/v1/presentation/4f2a"] ∧
    (handleStatusUpdate rgbHex idleBridge
        (statusUpdate "announcement/active" activeAnnouncement)).1.currentAnnouncementUUID
      = .str "a1" :=
  ⟨handleStatusUpdate_presentationUUID rgbHex st update,
    handleStatusUpdate_presentationUUID rgbHex idleBridge _, rfl, rfl⟩

/-- C36 (evaluation at the failing input): the announcement "a1" becomes active, then an
`announcement/active` update reports no announcement.  The second update changes
nothing: `currentAnnouncementUUID` is still "a1", and a presentation response for "a1"
processed afterwards is still tagged with `presentationDestination` 1. -/
theorem announcement_uuid_stale_after_clear (rgbHex : JSValue → String) :
    (handleStatusUpdate rgbHex idleBridge
        (statusUpdate "announcement/active" activeAnnouncement)).1.currentAnnouncementUUID
      = .str "a1" ∧
    handleStatusUpdate rgbHex
        (handleStatusUpdate rgbHex idleBridge
          (statusUpdate "announcement/active" activeAnnouncement)).1
        (statusUpdate "announcement/active" noAnnouncement)
      = ((handleStatusUpdate rgbHex idleBridge
          (statusUpdate "announcement/active" activeAnnouncement)).1, none) ∧
    (presentationData
        (handleStatusUpdate rgbHex
          (handleStatusUpdate rgbHex idleBridge
            (statusUpdate "announcement/active" activeAnnouncement)).1
          (statusUpdate "announcement/active" noAnnouncement)).1
        (.str "a1") (.str "Notices") []).get "presentationDestination" = .num 1 ∧
    (handlePresentationRequest
        (handleStatusUpdate rgbHex
          (handleStatusUpdate rgbHex idleBridge
            (statusUpdate "announcement/active" activeAnnouncement)).1
          (statusUpdate "announcement/active" noAnnouncement)).1
        (.obj [("id", .obj [("uuid", .str "a1")])])
        { action := "presentationRequest", presentationPath := some "a1" }).map
          (fun s => s.delivered.map
            (fun m => (m.get "presentation").get "presentationDestination"))
      = .ok [.num 1, .num 1] :=
  ⟨rfl, rfl, rfl, rfl⟩

/-- C32: a `presentation/active` update whose payload is `null` makes
`handleStatusUpdate` raise a TypeError: the entry guard tests `data === undefined`, which
`null` passes, and the branch reads `data.presentation`.  The same holds of the two
slide-index topics, of `presentation/focused`, of `announcement/active` and of
`status/layers`; each leaves the state as it was.  The topic `transport/audio/current`,
whose handlers test `data &&` first, raises nothing, nor does `timer/system_time`, which
has no branch. -/
theorem null_payload_raises :
    handleStatusUpdate (fun _ => "") idleBridge (statusUpdate "presentation/active" .null)
      = (idleBridge,
          some (.typeError "Cannot read properties of null (reading presentation)")) ∧
    handleStatusUpdate (fun _ => "") idleBridge (statusUpdate "presentation/slide_index" .null)
      = (idleBridge,
          some (.typeError "Cannot read properties of null (reading presentation_index)")) ∧
    handleStatusUpdate (fun _ => "") idleBridge (statusUpdate "announcement/slide_index" .null)
      = (idleBridge,
          some (.typeError "Cannot read properties of null (reading announcement_index)")) ∧
    handleStatusUpdate (fun _ => "") idleBridge (statusUpdate "presentation/focused" .null)
      = (idleBridge, some (.typeError "Cannot read properties of null (reading uuid)")) ∧
    handleStatusUpdate (fun _ => "") idleBridge (statusUpdate "announcement/active" .null)
      = (idleBridge,
          some (.typeError "Cannot read properties of null (reading announcement)")) ∧
    handleStatusUpdate (fun _ => "") idleBridge (statusUpdate "status/layers" .null)
      = (idleBridge, some (.typeError "Cannot read properties of null (reading slide)")) ∧
    (handleStatusUpdate (fun _ => "") idleBridge
        (statusUpdate "transport/audio/current" .null)).2 = none ∧
    (handleStatusUpdate (fun _ => "") idleBridge
        (statusUpdate "timer/system_time" .null)).2 = none :=
  ⟨rfl, rfl, rfl, rfl, rfl, rfl, rfl, rfl⟩

/-- What a `null` payload does in general.  For a topic of the monitored list and a
payload that is `null`, `handleStatusUpdate` raises exactly when the topic is one of the six whose branch reads
a property of the payload (the two slide-index topics, `presentation/active`,
`presentation/focused`, `announcement/active`, `status/layers`); for every topic other
than `transport/audio/current` the state is left exactly as it was, so no message is
delivered and nothing is changed. -/
theorem null_payload_no_effect (rgbHex : JSValue → String) (st : BridgeState)
    (update : JSValue) (s : String) (hs : s ∈ endpointsToMonitor)
    (hurl : update.get "url" = .str s) (hdata : update.get "data" = .null) :
    (handleStatusUpdate rgbHex st update).2.isSome = decide (s ∈ payloadReadingTopics) ∧
    (s = "transport/audio/current" ∨ (handleStatusUpdate rgbHex st update).1 = st) := by
  have hne : s ≠ "" := by
    intro he
    subst he
    revert hs
    decide
  have hg := update_guard update .null s hurl hne hdata rfl
  have hrun : handleStatusUpdate rgbHex st update
      = (if (JSValue.str s).strictEq (.str "presentation/slide_index") then
          slideIndexUpdate st .null "presentation_index"
        else if (JSValue.str s).strictEq (.str "announcement/slide_index") then
          slideIndexUpdate st .null "announcement_index"
        else if (JSValue.str s).strictEq (.str "presentation/active") then
          (st, some (.typeError "Cannot read properties of null (reading presentation)"))
        else if (JSValue.str s).strictEq (.str "presentation/focused") then
          (st, some (.typeError "Cannot read properties of null (reading uuid)"))
        else if (JSValue.str s).strictEq (.str "announcement/active") then
          (st, some (.typeError "Cannot read properties of null (reading announcement)"))
        else if (JSValue.str s).strictEq (.str "status/layers") then
          (st, some (.typeError "Cannot read properties of null (reading slide)"))
        else if (JSValue.str s).strictEq (.str "transport/audio/current") then
          (handleAudioPlaying (handleAudioCurrent st .null) .null, none)
        else (st, none)) := by
    unfold handleStatusUpdate
    rw [if_neg (by rw [hg]; decide)]
    simp only [hurl, hdata]
    rfl
  rw [hrun]
  simp only [endpointsToMonitor, List.mem_cons, List.mem_singleton, List.not_mem_nil,
    or_false] at hs
  rcases hs with h | h | h | h | h | h | h | h <;> subst h
  · exact ⟨rfl, Or.inr rfl⟩
  · exact ⟨rfl, Or.inr rfl⟩
  · exact ⟨rfl, Or.inr rfl⟩
  · exact ⟨rfl, Or.inr rfl⟩
  · exact ⟨rfl, Or.inr rfl⟩
  · exact ⟨rfl, Or.inr rfl⟩
  · exact ⟨rfl, Or.inl rfl⟩
  · exact ⟨rfl, Or.inr rfl⟩

/-- A `null` payload on `announcement/active`. -/
theorem null_payload_no_effect_witness :
    (handleStatusUpdate (fun _ => "") idleBridge
        (statusUpdate "announcement/active" .null)).2.isSome
      = decide ("announcement/active" ∈ payloadReadingTopics) ∧
    ("announcement/active" = "transport/audio/current" ∨
      (handleStatusUpdate (fun _ => "") idleBridge
        (statusUpdate "announcement/active" .null)).1 = idleBridge) :=
  null_payload_no_effect (fun _ => "") idleBridge (statusUpdate "announcement/active" .null)
    "announcement/active" (by decide) rfl rfl

end ProWebRemote

/-! ## Request executor: calls of the handler -/

namespace ProWebRemote

theorem simulateMessage_length (st : BridgeState) (m : JSValue) :
    (simulateMessage st m).delivered.length ≤ st.delivered.length + 1 := by
  unfold simulateMessage
  split
  · simp
  · simp

theorem handlePresentationRequest_length (st st1 : BridgeState) (data : JSValue)
    (cmd : Command) (h : handlePresentationRequest st data cmd = .ok st1) :
    st1.delivered.length ≤ st.delivered.length + 1 := by
  unfold handlePresentationRequest at h
  split at h
  · cases h
    simp
  · simp only at h
    split at h
    · cases h
      simp
    · simp only [bind] at h
      obtain ⟨groups, _, hg⟩ := bind_ok_elim _ _ _ h
      simp only [pure, Except.pure, Except.ok.injEq] at hg
      rw [← hg]
      unfold emitPresentation
      exact simulateMessage_length _ _

theorem invoke_presentation_length (ext : Handler → HandlerFn) (data : JSValue)
    (cmd : Command) (st : BridgeState) :
    (invokeHandler ext .handlePresentationRequest data cmd st).1.delivered.length
        ≤ st.delivered.length + 1 ∧
    ((invokeHandler ext .handlePresentationRequest data cmd st).2.isSome = true →
      (invokeHandler ext .handlePresentationRequest data cmd st).1 = st) := by
  simp only [invokeHandler]
  cases h : handlePresentationRequest st data cmd with
  | ok st1 =>
    refine ⟨handlePresentationRequest_length st st1 data cmd h, ?_⟩
    intro hs
    cases hs
  | error err => exact ⟨by simp, fun _ => rfl⟩

/-- C35 (count of the handler calls): in the chain of a request whose descriptor is the
one of a presentation request, the handler is called at most twice and at most one
message is delivered; at the failing input, a response whose group list holds `null`,
it is called twice: by the `then` callback, where it raises, and again by the `catch`
callback, which sends the placeholder. -/
theorem handler_called_twice_when_it_raises (ext : Handler → HandlerFn) (cmd : Command)
    (outcome : FetchOutcome) (st : BridgeState) :
    handlerCalls ext (requestEndpoint cmd) cmd outcome st ≤ 2 ∧
    (settle ext (requestEndpoint cmd) cmd outcome st).1.delivered.length
      ≤ st.delivered.length + 1 ∧
    handlerCalls noHandlers (requestEndpoint requestCommand) requestCommand
        (.ok (some nullGroupBody)) (sendOpenAPI idleBridge (some requestCommand)) = 2 ∧
    (settle noHandlers (requestEndpoint requestCommand) requestCommand
        (.ok (some nullGroupBody))
        (sendOpenAPI idleBridge (some requestCommand))).1.delivered.map
          (fun m => ((m.get "presentation").get "presentationName"))
      = [.str "Error"] := by
  refine ⟨?_, ?_, rfl, rfl⟩
  · unfold handlerCalls
    simp only [requestEndpoint, Option.isSome_some, and_true, if_true]
    cases outcome with
    | ok body =>
      simp only
      split
      · omega
      · split <;> omega
    | httpError s =>
      simp only
      split <;> omega
    | networkError =>
      simp only
      split <;> omega
  · have hdec : ∀ s : BridgeState, (decrementPending s).delivered = s.delivered :=
      fun _ => rfl
    have hrej : ∀ s : BridgeState,
        (onRejected ext (requestEndpoint cmd) cmd s).1.delivered.length
          ≤ s.delivered.length + 1 := by
      intro s
      unfold onRejected
      by_cases ha : cmd.action = "presentationRequest"
      · simp only [ha, if_true, requestEndpoint]
        exact (invoke_presentation_length ext _ cmd (decrementPending s)).1
      · simp only [ha, if_false]
        omega
    cases outcome with
    | httpError s => exact hrej st
    | networkError => exact hrej st
    | ok body =>
      simp only [settle]
      have hful : onFulfilled ext (requestEndpoint cmd) cmd (body.getD .null) st
          = invokeHandler ext .handlePresentationRequest (body.getD .null) cmd
              (if cmd.action = "presentationRequest" then decrementPending st else st) := rfl
      have hpre : (if cmd.action = "presentationRequest" then decrementPending st
          else st).delivered = st.delivered := by
        split <;> rfl
      have hinv := invoke_presentation_length ext (body.getD .null) cmd
        (if cmd.action = "presentationRequest" then decrementPending st else st)
      rw [← hful] at hinv
      split
      next st1 heq =>
        rw [heq] at hinv
        have := hinv.1
        simp only at this
        rw [hpre] at this
        exact this
      next st1 err heq =>
        rw [heq] at hinv
        have hsame := hinv.2 rfl
        simp only at hsame
        by_cases ha : cmd.action = "presentationRequest"
        · have h2 := hrej st1
          rw [hsame] at h2 ⊢
          rw [hpre] at h2
          exact h2
        · have h2 := hrej st1
          rw [hsame] at h2 ⊢
          rw [hpre] at h2
          exact h2

end ProWebRemote

/-! ## Clock type and audio path round trips -/

namespace ProWebRemote

/-- C37: for a clock type `t` among "0", "1" and "2", the type written by
`buildClockUpdate` for a command of that clock type, read back as the `type` of a
timer, is mapped by the callback of `handleClockRequest` to `t` again. -/
theorem clock_type_round_trip (cmd : Command) (t : String) (timer : JSValue) (index : Nat)
    (ht : t ∈ ["0", "1", "2"]) (hc : cmd.clockType = .str t)
    (htimer : timer.get "type" = (buildClockUpdate cmd).get "type") :
    ∃ clock, clockObj timer index = .ok clock ∧ clock.get "clockType" = .str t := by
  have hbuild : (buildClockUpdate cmd).get "type"
      = .str (if t = "0" then "countdown" else if t = "1" then "countdown_to_time"
          else "elapsed") := by
    simp only [List.mem_cons, List.mem_singleton, List.not_mem_nil, or_false] at ht
    unfold buildClockUpdate
    rcases ht with h | h | h <;> subst h <;> rw [hc] <;> rfl
  rw [hbuild] at htimer
  obtain ⟨f, hf⟩ := get_eq_str_is_obj timer "type" _ htimer
  have hnn : timer.isNullish = false := by
    rw [hf]
    rfl
  have htype : clockTypeOf timer = t := by
    unfold clockTypeOf
    rw [htimer]
    simp only [List.mem_cons, List.mem_singleton, List.not_mem_nil, or_false] at ht
    rcases ht with h | h | h <;> subst h <;> rfl
  unfold clockObj
  simp only [prop_of_not_nullish timer _ hnn, bind, Except.bind, pure, Except.pure, htype]
  exact ⟨_, rfl, rfl⟩

/-- C37 (witness): a countdown-to-time clock. -/
theorem clock_type_round_trip_witness :
    ∃ clock,
      clockObj (.obj [("name", .str "Service"), ("type", .str "countdown_to_time")]) 0
        = .ok clock ∧
      clock.get "clockType" = .str "1" :=
  clock_type_round_trip { action := "clockUpdate", clockType := .str "1" } "1"
    (.obj [("name", .str "Service"), ("type", .str "countdown_to_time")]) 0
    (by decide) rfl rfl

theorem splitChars_two (sep : Char) (a b : List Char) (ha : sep ∉ a) (hb : sep ∉ b) :
    splitChars sep (a ++ sep :: b) = [a, b] := by
  induction a with
  | nil =>
    rw [List.nil_append, splitChars_cons_sep, splitChars_of_no_sep sep b hb]
  | cons c rest ih =>
    have hc : ¬ c = sep := fun e => ha (by simp [e])
    have hrest : sep ∉ rest := fun h => ha (List.mem_cons_of_mem _ h)
    rw [List.cons_append]
    exact splitChars_cons_ne sep c _ _ _ hc (ih hrest)

theorem split_two (p i : String) (hp : ':' ∉ p.data) (hi : ':' ∉ i.data) :
    split (p ++ ":" ++ i) ':' = [p, i] := by
  have hdata : (p ++ ":" ++ i).data = p.data ++ ':' :: i.data := by
    simp [String.data_append]
  unfold split
  rw [hdata, splitChars_two ':' p.data i.data hp hi]
  rfl

/-- C38: for a playlist UUID `p` and an item UUID `i` without a colon, the
`playlistItemLocation` that `handleAudioRequest` emits for the item is `p:i`, and an
`audioStartCue` command carrying it as `audioChildPath` maps to the path
`/v1/audio/playlist/p/i/trigger`. -/
theorem audio_path_round_trip (st : BridgeState) (p i : String) (item : JSValue)
    (cmd : Command) (hp : ':' ∉ p.data) (hi : ':' ∉ i.data)
    (hitem : (item.get "id").get "uuid" = .str i)
    (hact : cmd.action = "audioStartCue")
    (hpath : cmd.audioChildPath = some (p ++ ":" ++ i)) :
    (∃ entry, audioItem (.str p) item = .ok entry ∧
      entry.get "playlistItemLocation" = .str (p ++ ":" ++ i)) ∧
    (mapClassicToOpenAPI st cmd).pathOf
      = some ("/v1/audio/playlist/" ++ p ++ "/" ++ i ++ "/trigger") := by
  constructor
  · obtain ⟨f, hf⟩ := get_eq_str_is_obj (item.get "id") "uuid" i hitem
    have hid : (item.get "id").truthy = true := by
      rw [hf]
      rfl
    have hnn : item.isNullish = false := get_truthy_not_nullish item "id" hid
    unfold audioItem
    simp only [prop_of_not_nullish item _ hnn, bind, Except.bind, pure, Except.pure, hid,
      if_true, hitem]
    exact ⟨_, rfl, rfl⟩
  · have hmem : ':' ∈ (p ++ ":" ++ i).data := by
      simp [String.data_append]
    have hne : p ++ ":" ++ i ≠ "" := by
      intro he
      rw [he] at hmem
      simp at hmem
    have hextract : extractAudioPath cmd = p ++ "/" ++ i ++ "/trigger" := by
      unfold extractAudioPath
      simp only [hpath, orStr, hne, if_false, hmem, if_true, split_two p i hp hi]
      rfl
    have hmap : mapClassicToOpenAPI st cmd
        = .descriptor
            { method := "GET", path := some ("/v1/audio/playlist/" ++ extractAudioPath cmd),
              handler := none } := by
      unfold mapClassicToOpenAPI
      rw [hact]
      rfl
    rw [hmap, hextract]
    simp only [MapResult.pathOf, String.append_assoc]

/-- C38 (witness): playlist "pl7" and item "it3". -/
theorem audio_path_round_trip_witness :
    (∃ entry, audioItem (.str "pl7") (.obj [("id", .obj [("uuid", .str "it3")])]) = .ok entry ∧
      entry.get "playlistItemLocation" = .str ("pl7" ++ ":" ++ "it3")) ∧
    (mapClassicToOpenAPI idleBridge
        { action := "audioStartCue", audioChildPath := some ("pl7" ++ ":" ++ "it3") }).pathOf
      = some ("/v1/audio/playlist/" ++ "pl7" ++ "/" ++ "it3" ++ "/trigger") :=
  audio_path_round_trip idleBridge "pl7" "it3" (.obj [("id", .obj [("uuid", .str "it3")])])
    { action := "audioStartCue", audioChildPath := some ("pl7" ++ ":" ++ "it3") }
    (by decide) (by decide) rfl rfl rfl

end ProWebRemote

/-! ## Audio transcoders: clearing the track -/

namespace ProWebRemote

/-- C39 (counterexample): from the initial cache, a track payload with the name "Song"
and a `null` UUID is emitted; the cached UUID stays `null`, so the next payload without
track emits nothing and the cache keeps the name "Song". -/
theorem named_track_with_null_uuid_is_not_cleared :
    (handleAudioCurrent idleBridge namedTrackWithoutUuid).delivered.map
        (fun m => m.get "audioName") = [.str "Song"] ∧
    handleAudioCurrent (handleAudioCurrent idleBridge namedTrackWithoutUuid) noTrack
      = handleAudioCurrent idleBridge namedTrackWithoutUuid ∧
    (handleAudioCurrent (handleAudioCurrent idleBridge namedTrackWithoutUuid)
      noTrack).lastAudioTrackName = .str "Song" :=
  ⟨rfl, rfl, rfl⟩

theorem strictEq_not_null (a b : JSValue) (h : a.strictEq b = true)
    (ha : a.strictEq .null = false) : b.strictEq .null = false := by
  cases a <;> cases b <;> simp_all [JSValue.strictEq]

theorem handleAudioCurrent_track_uuid (st : BridgeState) (track : JSValue)
    (htrack : (track.truthy && (track.get "name").truthy) = true)
    (huuid : (track.get "uuid").strictEq .null = false) :
    (handleAudioCurrent st track).lastAudioTrackUUID.strictEq .null = false := by
  unfold handleAudioCurrent
  simp only [htrack, if_true]
  split
  · rw [(simulateMessage_audio _ _).1]
    exact huuid
  next hsame =>
    have h1 : (track.get "uuid").strictEq st.lastAudioTrackUUID = true := by
      cases h : (track.get "uuid").strictEq st.lastAudioTrackUUID with
      | true => rfl
      | false => simp [h] at hsame
    exact strictEq_not_null _ _ h1 huuid

theorem handleAudioCurrent_no_track (st : BridgeState) (d : JSValue)
    (hd : (d.truthy && (d.get "name").truthy) = false) :
    handleAudioCurrent st d
      = if !(st.lastAudioTrackUUID.strictEq .null) then
          simulateMessage
            { st with
              lastAudioTrackUUID := .null, lastAudioTrackName := .str "",
              lastAudioTrackArtist := .str "" }
            audioClearedMessage
        else st := by
  unfold handleAudioCurrent
  simp only [hd, Bool.false_eq_true, if_false]

/-- C39 (amended): after `handleAudioCurrent` has processed a track payload with a
non-empty name whose UUID is not `null`, the next payload without track (a falsy
payload or a falsy name) calls `simulateMessage` once with an `audioCurrentSong`
message whose `audioName` and `audioArtist` are empty, and resets the cached track to
`null`, "" and ""; a further payload without track leaves the state as it is. -/
theorem audio_cleared_once (st : BridgeState) (track d1 d2 : JSValue)
    (htrack : (track.truthy && (track.get "name").truthy) = true)
    (huuid : (track.get "uuid").strictEq .null = false)
    (h1 : (d1.truthy && (d1.get "name").truthy) = false)
    (h2 : (d2.truthy && (d2.get "name").truthy) = false) :
    handleAudioCurrent (handleAudioCurrent st track) d1
      = simulateMessage
          { handleAudioCurrent st track with
            lastAudioTrackUUID := .null, lastAudioTrackName := .str "",
            lastAudioTrackArtist := .str "" }
          audioClearedMessage ∧
    audioClearedMessage.get "action" = .str "audioCurrentSong" ∧
    audioClearedMessage.get "audioName" = .str "" ∧
    audioClearedMessage.get "audioArtist" = .str "" ∧
    (handleAudioCurrent (handleAudioCurrent st track) d1).lastAudioTrackUUID = .null ∧
    (handleAudioCurrent (handleAudioCurrent st track) d1).lastAudioTrackName = .str "" ∧
    (handleAudioCurrent (handleAudioCurrent st track) d1).lastAudioTrackArtist = .str "" ∧
    handleAudioCurrent (handleAudioCurrent (handleAudioCurrent st track) d1) d2
      = handleAudioCurrent (handleAudioCurrent st track) d1 := by
  have hu := handleAudioCurrent_track_uuid st track htrack huuid
  have hfirst : handleAudioCurrent (handleAudioCurrent st track) d1
      = simulateMessage
          { handleAudioCurrent st track with
            lastAudioTrackUUID := .null, lastAudioTrackName := .str "",
            lastAudioTrackArtist := .str "" }
          audioClearedMessage := by
    rw [handleAudioCurrent_no_track _ d1 h1, hu]
    rfl
  obtain ⟨c1, c2, c3, _, _⟩ := simulateMessage_audio
    { handleAudioCurrent st track with
      lastAudioTrackUUID := .null, lastAudioTrackName := .str "",
      lastAudioTrackArtist := .str "" }
    audioClearedMessage
  rw [← hfirst] at c1 c2 c3
  refine ⟨hfirst, rfl, rfl, rfl, c1, c2, c3, ?_⟩
  rw [handleAudioCurrent_no_track _ d2 h2, c1]
  rfl

/-- C39 (witness): the track "u1" is played on an idle bridge, then the player reports
no track twice. -/
theorem audio_cleared_once_witness :
    handleAudioCurrent
        (handleAudioCurrent (handleAudioCurrent idleBridge (audioTrack "u1" "Song" "X")) noTrack)
        .null
      = handleAudioCurrent (handleAudioCurrent idleBridge (audioTrack "u1" "Song" "X"))
          noTrack ∧
    (handleAudioCurrent (handleAudioCurrent idleBridge (audioTrack "u1" "Song" "X"))
      noTrack).delivered.map (fun m => m.get "audioName") = [.str "Song", .str ""] :=
  ⟨(audio_cleared_once idleBridge (audioTrack "u1" "Song" "X") noTrack .null rfl rfl rfl
      rfl).2.2.2.2.2.2.2, rfl⟩

end ProWebRemote
